import Mathlib

/-!
# MyFirstLittleEngine: physics system, rendering system and frame loop

A shallow embedding of `PhysicsSystem.h`, `RigidBody.h`, `RenderingSystem.h` and `MyApp.h`.

Conventions of the embedding

* `float`/`PxReal`/`double` values are rationals.  Arithmetic on them is exact, except in
  `PxSystem.UpdateFloat`, which rounds the accumulator arithmetic of `Update` to float32 (IEEE 754
  binary32, round to nearest, ties to even) as the compiled code does.
* `std::map<std::string, T>` is a key-ordered association list (`StdMap`); iteration is in
  ascending key order, `insert` keeps an existing entry, `operator[]` creates a
  value-initialised entry for a missing key.
* A `shared_ptr` stored in a map is an `Option`: `none` is the null pointer.  Dereferencing a null
  pointer is reported as `Fault.nullHandle` together with the state reached at that point.
* Unsigned counters wrap at their width (`uint32_t` at 2^32, `UINT64` at 2^64).
* The GPU is a queue of submitted items that it retires in order; how far it has got when the CPU
  looks is a parameter of the call.
* PhysX, the Egg math library, the camera and the D3D12 device are outside the repository; what
  they compute is either kept symbolic or taken as a parameter (`Collaborators`).
-/

namespace MyFirstLittleEngine

/-! ## Scalars, vectors, matrices -/

/-- The `float` / `PxReal` type, read as exact rationals. -/
abbrev PxReal := Rat

/-- Three-component vector (`Float3`, `PxVec3`). -/
structure Float3 where
  x : PxReal
  y : PxReal
  z : PxReal
deriving DecidableEq, Repr

/-- Four-component vector `Float4 { xyz, w }`. -/
structure Float4 where
  xyz : Float3
  w : PxReal
deriving DecidableEq, Repr

/-- Quaternion of a PhysX pose. -/
structure PxQuat where
  x : PxReal
  y : PxReal
  z : PxReal
  w : PxReal
deriving DecidableEq, Repr

/-- PhysX rigid transform: rotation `q` and translation `p`. -/
structure PxTransform where
  q : PxQuat
  p : Float3
deriving DecidableEq, Repr

/-- The constructor `PxTransform{ x, y, z }`: a translation with the identity rotation. -/
def PxTransform.ofPosition (x y z : PxReal) : PxTransform :=
  { q := ⟨0, 0, 0, 1⟩, p := ⟨x, y, z⟩ }

/-- Value of a `Float4x4`.  The matrix arithmetic of Egg/Math is not part of the sources, so a
matrix is kept as the expression that produced it. -/
inductive Float4x4 where
  | unset : Float4x4
  | rotationTranslation (q : PxQuat) (position : Float3) : Float4x4
  | invert (m : Float4x4) : Float4x4
  | camera (tag : String) (eye ahead : Float3) : Float4x4
  | mul (a b : Float4x4) : Float4x4
deriving DecidableEq, Repr

/-! ## Faults -/

/-- The abnormal endings of a call the embedding tracks: a null pointer is dereferenced
(undefined behaviour), or a wait on the fence event never returns. -/
inductive Fault where
  | nullHandle : Fault
  | blocked : Fault
deriving DecidableEq, Repr

/-- Result of a call: the state reached, and the fault at which the call stopped (if any). -/
structure Outcome (σ : Type) where
  state : σ
  fault : Option Fault

/-! ## `std::map<std::string, T>` -/

/-- Key-ordered association list standing for `std::map<std::string, T>`. -/
structure StdMap (α : Type) where
  entries : List (String × α)

namespace StdMap

variable {α : Type}

/-- The empty map. -/
def empty : StdMap α := ⟨[]⟩

/-- Lookup without side effect (`std::map::find`). -/
def findIn : List (String × α) → String → Option α
  | [], _ => none
  | (k, v) :: rest, key => if k = key then some v else findIn rest key

/-- Lookup without side effect (`std::map::find`). -/
def find (m : StdMap α) (key : String) : Option α := findIn m.entries key

/-- Lexicographic comparison of character sequences. -/
def ltChars : List Char → List Char → Bool
  | [], [] => false
  | [], _ :: _ => true
  | _ :: _, [] => false
  | a :: as, b :: bs =>
    if a.toNat < b.toNat then true else if b.toNat < a.toNat then false else ltChars as bs

/-- The key order `std::less<std::string>`: lexicographic, character by character (the order of
the UTF-8 bytes is the order of the characters). -/
def keyLt (a b : String) : Bool := ltChars a.data b.data

/-- Put a new entry at its place in ascending key order. -/
def place (key : String) (v : α) : List (String × α) → List (String × α)
  | [] => [(key, v)]
  | (k, w) :: rest =>
    if keyLt key k then (key, v) :: (k, w) :: rest else (k, w) :: place key v rest

/-- The member `insert({key, v})`: no effect when the key is present. -/
def insert (m : StdMap α) (key : String) (v : α) : StdMap α :=
  if (m.find key).isSome then m else ⟨place key v m.entries⟩

/-- The member `operator[]`: the mapped value, after creating a value-initialised entry `dflt`
when the key is missing. -/
def subscript (m : StdMap α) (key : String) (dflt : α) : StdMap α × α :=
  match m.find key with
  | some v => (m, v)
  | none => (⟨place key dflt m.entries⟩, dflt)

/-- The keys in iteration order. -/
def keys (m : StdMap α) : List String := m.entries.map Prod.fst

/-- The mapped values in iteration order. -/
def values (m : StdMap α) : List α := m.entries.map Prod.snd

end StdMap

/-! ## PhysX objects -/

/-- Collision geometry passed to `createShape`. -/
inductive PxGeometry where
  | sphere (radius : PxReal) : PxGeometry
  | box (halfExtents : Float3) : PxGeometry
deriving DecidableEq, Repr

/-- Result of `createMaterial(sFriction, dFriction, rest)`. -/
structure PxMaterial where
  staticFriction : PxReal
  dynamicFriction : PxReal
  restitution : PxReal
deriving DecidableEq, Repr

/-- Result of `createShape(geometry, material, true)`. -/
structure PxShape where
  geometry : PxGeometry
  material : PxMaterial
deriving DecidableEq, Repr

/-- A dynamic actor of the scene. -/
structure PxRigidDynamic where
  globalPose : PxTransform
  kinematic : Bool
  shapes : List PxShape
  forces : List Float3
  torques : List Float3
deriving DecidableEq, Repr

/-- An actor freshly returned by `createRigidDynamic(pose)`. -/
def PxRigidDynamic.create (pose : PxTransform) : PxRigidDynamic :=
  { globalPose := pose, kinematic := false, shapes := [], forces := [], torques := [] }

/-- The scene `gScene`: its actors in the order of `addActor` (an actor pointer is its position in
this list) and the number of `simulate` calls made so far. -/
structure PxScene where
  actors : List PxRigidDynamic
  timestamp : Nat
deriving DecidableEq, Repr

/-- Apply `f` to the element at position `h` of a list (no effect past the end). -/
def modifyAt {α : Type} (f : α → α) : Nat → List α → List α
  | _, [] => []
  | 0, a :: rest => f a :: rest
  | h + 1, a :: rest => a :: modifyAt f h rest

/-- Apply `f` to the actor behind handle `h`. -/
def PxScene.modifyActor (sc : PxScene) (h : Nat) (f : PxRigidDynamic → PxRigidDynamic) : PxScene :=
  { sc with actors := modifyAt f h sc.actors }

/-- The pose `actor->getGlobalPose()`. -/
def PxScene.getGlobalPose (sc : PxScene) (h : Nat) : PxTransform :=
  ((sc.actors.get? h).getD (PxRigidDynamic.create (PxTransform.ofPosition 0 0 0))).globalPose

/-- What the collaborators outside the repository compute. -/
structure Collaborators where
  /-- PhysX solver: the state of one actor after `simulate(step); fetchResults(true)`, given all
  actors of the scene. -/
  solver : PxReal → List PxRigidDynamic → PxRigidDynamic → PxRigidDynamic
  /-- Camera animation `camera->Animate(dt)`: new eye position and view direction. -/
  animate : PxReal → Float3 × Float3 → Float3 × Float3

/-- The pair `gScene->simulate(step); gScene->fetchResults(true)`. -/
def PxScene.simulate (ext : Collaborators) (sc : PxScene) (step : PxReal) : PxScene :=
  { actors := sc.actors.map (ext.solver step sc.actors), timestamp := sc.timestamp + 1 }

/-! ## `GG::RigidBody` (RigidBody.h) -/

/-- Conversion of a `uint32_t` to `int` (two's complement). -/
def toInt32 (n : Nat) : Int :=
  if n % 2 ^ 32 < 2 ^ 31 then ((n % 2 ^ 32 : Nat) : Int) else ((n % 2 ^ 32 : Nat) : Int) - 2 ^ 32

namespace GG

/-- One record of the per-object constant array. -/
structure PerObjectCb where
  modelTransform : Float4x4
  modelTransformInverse : Float4x4
deriving DecidableEq, Repr

/-- The class `GG::RigidBody`; `actor` is the handle of its actor in the scene. -/
structure RigidBody where
  modelMatrix : Float4x4
  position : Float3
  index : Int
  actor : Nat
deriving DecidableEq, Repr

namespace RigidBody

/-- Constructor `RigidBody(index, gPhysics, gScene, pose, kinematic)`: creates the actor, sets its
kinematic flag and adds it to the scene. -/
def Create (index : Int) (gScene : PxScene) (pose : PxTransform) (kinematic : Bool) :
    RigidBody × PxScene :=
  let actor : PxRigidDynamic := { PxRigidDynamic.create pose with kinematic := kinematic }
  ({ modelMatrix := Float4x4.unset, position := ⟨0, 0, 0⟩, index := index,
     actor := gScene.actors.length },
   { gScene with actors := gScene.actors ++ [actor] })

/-- Member `AddShape(shape)`. -/
def AddShape (rb : RigidBody) (gScene : PxScene) (shape : PxShape) : PxScene :=
  gScene.modifyActor rb.actor (fun a => { a with shapes := a.shapes ++ [shape] })

/-- Member `Update(dt)`: refresh `position` and `modelMatrix` from the actor's pose. -/
def Update (rb : RigidBody) (gScene : PxScene) (_dt : PxReal) : RigidBody :=
  let m := gScene.getGlobalPose rb.actor
  { rb with position := m.p, modelMatrix := Float4x4.rotationTranslation m.q m.p }

/-- Member `GetPosition()`. -/
def GetPosition (rb : RigidBody) : Float3 := rb.position

/-- Member `GetModelMatrix()`. -/
def GetModelMatrix (rb : RigidBody) : Float4x4 := rb.modelMatrix

/-- Member `GetModelMatrixInverse()`. -/
def GetModelMatrixInverse (rb : RigidBody) : Float4x4 := Float4x4.invert rb.modelMatrix

end RigidBody

end GG

/-! ## Command lists -/

/-- GPU address handed to a root constant-buffer view. -/
inductive GpuAddress where
  | perFrame : GpuAddress
  | perObject (record : Int) : GpuAddress
deriving DecidableEq, Repr

/-- The commands the two systems record. -/
inductive Command where
  | setGraphicsRootConstantBufferView (rootParameter : Nat) (address : GpuAddress) : Command
  | setGraphicsRootDescriptorTable (rootParameter : Nat) (heapSlot : Nat) : Command
  | bindHeap : Command
  | setGraphicsRootSignature (rootSignature : String) : Command
  | setPipeline (pipeline : String) : Command
  | draw (geometrySerial : Nat) : Command
  | uploadTexture (textureSerial : Nat) : Command
  | frameBegin (backBuffer : Nat) : Command
  | frameEnd (backBuffer : Nat) : Command
deriving DecidableEq, Repr

/-! ## `PxSystem` (PhysicsSystem.h) -/

/-- Number of records of `PerObjectCb::data`. -/
def perObjectCapacity : Nat := 1024

/-- The class `PxSystem`.  `perObjectCb` gives, per record number, the record last written
(`none`: never written); record numbers outside `0 .. 1023` lie outside `data[1024]`. -/
structure PxSystem where
  gScene : PxScene
  mAccumulator : PxReal
  mStepSize : PxReal
  rigidBodies : StdMap (Option GG.RigidBody)
  perObjectCb : Int → Option GG.PerObjectCb
  objectCount : Nat

namespace PxSystem

/-- A `PxSystem` after construction and `StartUp`. -/
def fresh : PxSystem :=
  { gScene := { actors := [], timestamp := 0 }
    mAccumulator := 0
    mStepSize := 1 / 60
    rigidBodies := StdMap.empty
    perObjectCb := fun _ => none
    objectCount := 0 }

/-- The loop of `Update` over `rigidBodies`: refresh each body and write its record.  Stops at a
null entry. -/
def refresh (gScene : PxScene) (dt : PxReal) :
    List (String × Option GG.RigidBody) → (Int → Option GG.PerObjectCb) →
      List (String × Option GG.RigidBody) × (Int → Option GG.PerObjectCb) × Option Fault
  | [], data => ([], data, none)
  | (id, none) :: rest, data => ((id, none) :: rest, data, some Fault.nullHandle)
  | (id, some rb) :: rest, data =>
    let rb1 := rb.Update gScene dt
    let data1 := Function.update data rb1.index
      (some { modelTransform := rb1.GetModelMatrix
              modelTransformInverse := rb1.GetModelMatrixInverse })
    let r := refresh gScene dt rest data1
    ((id, some rb1) :: r.1, r.2.1, r.2.2)

/-- Member `Update(dt)`, the arithmetic on the accumulator taken exactly (`UpdateFloat` is the
same member with the float32 rounding of that arithmetic). -/
def Update (ext : Collaborators) (s : PxSystem) (dt : PxReal) : Outcome PxSystem :=
  let s1 := { s with mAccumulator := s.mAccumulator + dt }
  if s1.mAccumulator > s1.mStepSize then
    let s2 := { s1 with mAccumulator := s1.mAccumulator - s1.mStepSize }
    let s3 := { s2 with gScene := s2.gScene.simulate ext s2.mStepSize }
    let r := refresh s3.gScene dt s3.rigidBodies.entries s3.perObjectCb
    { state := { s3 with rigidBodies := ⟨r.1⟩, perObjectCb := r.2.1 }, fault := r.2.2 }
  else
    { state := s1, fault := none }

/-- Member `GetRigidBody(id)`: `return rigidBodies[id]`. -/
def GetRigidBody (s : PxSystem) (id : String) : PxSystem × Option GG.RigidBody :=
  let r := s.rigidBodies.subscript id none
  ({ s with rigidBodies := r.1 }, r.2)

/-- Member `BindConstantBuffer(commandList, id)`. -/
def BindConstantBuffer (s : PxSystem) (commandList : List Command) (id : String) :
    Outcome (PxSystem × List Command) :=
  let r := s.rigidBodies.subscript id none
  let s1 := { s with rigidBodies := r.1 }
  match r.2 with
  | none => { state := (s1, commandList), fault := some Fault.nullHandle }
  | some rb =>
    { state := (s1, commandList ++
        [Command.setGraphicsRootConstantBufferView 1 (GpuAddress.perObject rb.index)])
      fault := none }

/-- The body that `AddRigidBody` constructs, and the scene with its actor added. -/
def newBody (s : PxSystem) (pose : PxTransform) (kinematic : Bool) : GG.RigidBody × PxScene :=
  GG.RigidBody.Create (toInt32 s.objectCount) s.gScene pose kinematic

/-- Member `AddRigidBody(id, pose, geometry, kinematic, sFriction, dFriction, rest)`. -/
def AddRigidBody (s : PxSystem) (id : String) (pose : PxTransform)
    (geometry : PxGeometry := PxGeometry.sphere 1) (kinematic : Bool := false)
    (sFriction : PxReal := 1 / 2) (dFriction : PxReal := 1 / 2) (rest : PxReal := 3 / 5) :
    PxSystem :=
  let c := s.newBody pose kinematic
  let rb := c.1
  let gMaterial : PxMaterial :=
    { staticFriction := sFriction, dynamicFriction := dFriction, restitution := rest }
  let shape : PxShape := { geometry := geometry, material := gMaterial }
  let gScene := rb.AddShape c.2 shape
  { s with
    gScene := gScene
    rigidBodies := s.rigidBodies.insert id (some rb)
    objectCount := (s.objectCount + 1) % 2 ^ 32 }

/-- Member `AddForce(id, force)`. -/
def AddForce (s : PxSystem) (id : String) (force : Float3) : Outcome PxSystem :=
  let r := s.rigidBodies.subscript id none
  let s1 := { s with rigidBodies := r.1 }
  match r.2 with
  | none => { state := s1, fault := some Fault.nullHandle }
  | some rb =>
    let push : PxRigidDynamic → PxRigidDynamic := fun a => { a with forces := a.forces ++ [force] }
    { state := { s1 with gScene := s1.gScene.modifyActor rb.actor push }, fault := none }

/-- Member `AddTorque(id, torque)`. -/
def AddTorque (s : PxSystem) (id : String) (torque : Float3) : Outcome PxSystem :=
  let r := s.rigidBodies.subscript id none
  let s1 := { s with rigidBodies := r.1 }
  match r.2 with
  | none => { state := s1, fault := some Fault.nullHandle }
  | some rb =>
    let push : PxRigidDynamic → PxRigidDynamic := fun a => { a with torques := a.torques ++ [torque] }
    { state := { s1 with gScene := s1.gScene.modifyActor rb.actor push }, fault := none }

end PxSystem


/-! ## Call sequences on a `PxSystem` -/

/-- The arguments of one `AddRigidBody` call. -/
structure AddCall where
  id : String
  pose : PxTransform
  geometry : PxGeometry := PxGeometry.sphere 1
  kinematic : Bool := false
  sFriction : PxReal := 1 / 2
  dFriction : PxReal := 1 / 2
  rest : PxReal := 3 / 5

namespace PxSystem

/-- One `AddRigidBody` call with the arguments `c`. -/
def add (s : PxSystem) (c : AddCall) : PxSystem :=
  s.AddRigidBody c.id c.pose c.geometry c.kinematic c.sFriction c.dFriction c.rest

/-- A sequence of `AddRigidBody` calls, first call first. -/
def addAll (s : PxSystem) : List AddCall → PxSystem
  | [] => s
  | c :: cs => addAll (s.add c) cs

/-- The `index` of the body that the call `c` constructs in state `s`. -/
def createdIndex (s : PxSystem) (c : AddCall) : Int := (s.newBody c.pose c.kinematic).1.index

/-- Success of an `AddRigidBody` call in the sense of the specification: the id is not taken
(otherwise *DuplicateId*) and the next index does not exceed 1023 (otherwise *Overflow*). -/
def specSuccess (s : PxSystem) (c : AddCall) : Bool :=
  (s.rigidBodies.find c.id).isNone && decide (s.objectCount < perObjectCapacity)

/-- The indices of the bodies constructed by the calls that are successful in the sense of the
specification, in call order. -/
def successfulIndices (s : PxSystem) : List AddCall → List Int
  | [] => []
  | c :: cs =>
    if s.specSuccess c then s.createdIndex c :: successfulIndices (s.add c) cs
    else successfulIndices (s.add c) cs

/-- `Update(dt)` called `n` times with the same `dt`. -/
def updateN (ext : Collaborators) (s : PxSystem) (dt : PxReal) : Nat → PxSystem
  | 0 => s
  | n + 1 => ((updateN ext s dt n).Update ext dt).state

/-- Number of simulation steps one `Update(dt)` call performs in state `s`. -/
def stepsOf (ext : Collaborators) (s : PxSystem) (dt : PxReal) : Nat :=
  (s.Update ext dt).state.gScene.timestamp - s.gScene.timestamp

end PxSystem

/-- The public operations of `PxSystem`. -/
inductive PxOp where
  | addRigidBody (c : AddCall) : PxOp
  | update (dt : PxReal) : PxOp
  | getRigidBody (id : String) : PxOp
  | addForce (id : String) (force : Float3) : PxOp
  | addTorque (id : String) (torque : Float3) : PxOp
  | bindConstantBuffer (commandList : List Command) (id : String) : PxOp

/-- The `PxSystem` after one operation. -/
def PxOp.run (ext : Collaborators) (s : PxSystem) : PxOp → Outcome PxSystem
  | PxOp.addRigidBody c => { state := s.add c, fault := none }
  | PxOp.update dt => s.Update ext dt
  | PxOp.getRigidBody id => { state := (s.GetRigidBody id).1, fault := none }
  | PxOp.addForce id force => s.AddForce id force
  | PxOp.addTorque id torque => s.AddTorque id torque
  | PxOp.bindConstantBuffer commandList id =>
    let r := s.BindConstantBuffer commandList id
    { state := r.state.1, fault := r.fault }

/-- The index stored under `id`, when `id` holds a body. -/
def PxSystem.indexOf (s : PxSystem) (id : String) : Option Int :=
  match s.rigidBodies.find id with
  | some (some rb) => some rb.index
  | _ => none

namespace PxSystem

/-- Index stability as the specification states it, for the call sequence `calls` on a fresh
system: the body of the `k`-th successful call (counted from 1) has index `k - 1`. -/
def IndexStability (calls : List AddCall) : Prop :=
  ∀ (k : Nat) (i : Int), (successfulIndices fresh calls).get? k = some i → i = (k : Int)

/-- The calls `AddRigidBody("b0", P)`, ..., `AddRigidBody("b<n-1>", P)` at the origin pose. -/
def manyBodies (n : Nat) : List AddCall :=
  (List.range n).map (fun i => { id := "b" ++ toString i, pose := PxTransform.ofPosition 0 0 0 })

end PxSystem

/-- Collaborators that leave actors and camera where they are; used to evaluate the systems on
concrete inputs. -/
def Collaborators.idle : Collaborators :=
  { solver := fun _ _ a => a, animate := fun _ c => c }

/-! ## `RenderingSystem` (RenderingSystem.h) -/

namespace GG

/-- The class `GG::Geometry` (Geometry.h is outside the sources): the `path` member the renderer
reads, and `serial`, the identity of the object (the number of asset objects constructed before
it). -/
structure Geometry where
  path : String
  serial : Nat
deriving DecidableEq, Repr

/-- The class `GG::Tex2D` (Tex2D.h is outside the sources): the `path` and `index` members the
renderer reads, and `serial`, the identity of the object. -/
structure Tex2D where
  path : String
  index : Nat
  serial : Nat
deriving DecidableEq, Repr

/-- The call `GG::Geometry::Create(device, meshPath)`, constructing object number `serial`. -/
def Geometry.Create (meshPath : String) (serial : Nat) : Geometry :=
  { path := meshPath, serial := serial }

/-- The call `GG::Tex2D::Create(device, heap, texPath)`, constructing object number `serial`. -/
def Tex2D.Create (texPath : String) (serial : Nat) : Tex2D :=
  { path := texPath, index := 0, serial := serial }

/-- Modelled from the spec: `Tex2D::CreateSrv(device, heap, slot)` is outside the sources; it
assigns descriptor slot `slot` of `heap` to the texture, which `Draw` reads back as `index`. -/
def Tex2D.CreateSrv (t : Tex2D) (slot : Nat) : Tex2D :=
  { t with index := slot }

end GG

/-- Record of the light array of the per-frame constants. -/
structure Light where
  position : Float4
  color : Float4
deriving DecidableEq, Repr

/-- Number of entries of `PerFrameCb::lights`. -/
def lightCapacity : Nat := 64

/-- The per-frame constants.  `lights` gives, per entry number, the entry last written (`none`:
never written); entry numbers outside `0 .. 63` lie outside `lights[64]`. -/
structure PerFrameCb where
  viewProjTransform : Float4x4
  rayDirTransform : Float4x4
  eyePos : Float4
  lights : Int → Option Light
  nrLights : Int

/-- The camera `Egg::Cam::FirstPerson`: eye position and view direction. -/
structure FirstPerson where
  position : Float3
  ahead : Float3
deriving DecidableEq, Repr

/-- The class `RenderingSystem`.  `created` counts the asset objects constructed so far
(`Geometry::Create` and `Tex2D::Create` calls) and numbers the next one. -/
structure RenderingSystem where
  perFrameCb : PerFrameCb
  geometries : StdMap (Option GG.Geometry)
  textures : StdMap (Option GG.Tex2D)
  textureCount : Nat
  lights : StdMap Float3
  lightGeo : GG.Geometry
  camera : FirstPerson
  created : Nat

namespace RenderingSystem

/-- A `RenderingSystem` after construction and `StartUp`. -/
def fresh : RenderingSystem :=
  { perFrameCb :=
      { viewProjTransform := Float4x4.unset, rayDirTransform := Float4x4.unset
        eyePos := ⟨⟨0, 0, 0⟩, 0⟩, lights := fun _ => none, nrLights := 0 }
    geometries := StdMap.empty
    textures := StdMap.empty
    textureCount := 0
    lights := StdMap.empty
    lightGeo := GG.Geometry.Create "ball_low.obj" 0
    camera := { position := ⟨0, 5, -7⟩, ahead := ⟨0, 0, 1⟩ }
    created := 1 }

/-- The search loops of `AddShadedMesh`: `for (const auto& [id, x] : map) if (x->path == path)
found = x;`.  Stops at a null entry. -/
def scanPath {α : Type} (pathOf : α → String) (path : String) :
    List (String × Option α) → Option α → Option α × Option Fault
  | [], found => (found, none)
  | (_, none) :: _, found => (found, some Fault.nullHandle)
  | (_, some x) :: rest, found =>
    scanPath pathOf path rest (if pathOf x = path then some x else found)

/-- First half of `AddShadedMesh`: look the mesh path up among the stored geometries, construct
the geometry when it is not found, and `geometries.insert({ id, newGeo })`. -/
def ingestMesh (r : RenderingSystem) (id meshPath : String) : Outcome RenderingSystem :=
  let g := scanPath GG.Geometry.path meshPath r.geometries.entries none
  match g.2 with
  | some f => { state := r, fault := some f }
  | none =>
    match g.1 with
    | some geo =>
      { state := { r with geometries := r.geometries.insert id (some geo) }, fault := none }
    | none =>
      { state :=
          { r with
            geometries := r.geometries.insert id (some (GG.Geometry.Create meshPath r.created))
            created := r.created + 1 }
        fault := none }

/-- Second half of `AddShadedMesh`: the same for the texture path; a texture that is constructed
gets descriptor slot `textureCount`, which is then incremented. -/
def ingestTexture (r : RenderingSystem) (id texPath : String) : Outcome RenderingSystem :=
  let t := scanPath GG.Tex2D.path texPath r.textures.entries none
  match t.2 with
  | some f => { state := r, fault := some f }
  | none =>
    match t.1 with
    | some tex =>
      { state := { r with textures := r.textures.insert id (some tex) }, fault := none }
    | none =>
      { state :=
          { r with
            textures := r.textures.insert id
              (some ((GG.Tex2D.Create texPath r.created).CreateSrv r.textureCount))
            textureCount := (r.textureCount + 1) % 2 ^ 32
            created := r.created + 1 }
        fault := none }

/-- Member `AddShadedMesh(device, id, meshPath, texPath)`. -/
def AddShadedMesh (r : RenderingSystem) (id meshPath texPath : String) :
    Outcome RenderingSystem :=
  let o := r.ingestMesh id meshPath
  match o.fault with
  | some f => { state := o.state, fault := some f }
  | none => o.state.ingestTexture id texPath

/-- Member `AddLight(id, color)`. -/
def AddLight (r : RenderingSystem) (id : String) (color : Float3) : RenderingSystem :=
  { r with lights := r.lights.insert id color }

/-- The loop of `Update` over `lights`, entered with counter `i`: writes entry `i` from the body
of the same id and the stored colour, then increments `i`.  Stops at a null body. -/
def writeLights : List (String × Float3) → PxSystem → (Int → Option Light) → Int →
    PxSystem × (Int → Option Light) × Int × Option Fault
  | [], physics, lights, i => (physics, lights, i, none)
  | (id, light) :: rest, physics, lights, i =>
    let g := physics.GetRigidBody id
    match g.2 with
    | none => (g.1, lights, i, some Fault.nullHandle)
    | some rb =>
      writeLights rest g.1
        (Function.update lights i
          (some { position := ⟨rb.GetPosition, 1⟩, color := ⟨light, 1⟩ }))
        (i + 1)

/-- Member `Update(physics, dt)`. -/
def Update (ext : Collaborators) (r : RenderingSystem) (physics : PxSystem) (dt : PxReal) :
    Outcome (RenderingSystem × PxSystem) :=
  let c := ext.animate dt (r.camera.position, r.camera.ahead)
  let camera : FirstPerson := { position := c.1, ahead := c.2 }
  let cb1 : PerFrameCb :=
    { r.perFrameCb with
      viewProjTransform := Float4x4.mul (Float4x4.camera "view" camera.position camera.ahead)
        (Float4x4.camera "proj" camera.position camera.ahead)
      rayDirTransform := Float4x4.camera "rayDir" camera.position camera.ahead
      eyePos := ⟨camera.position, 1⟩ }
  let w := writeLights r.lights.entries physics cb1.lights 0
  match w.2.2.2 with
  | some f =>
    { state := ({ r with camera := camera, perFrameCb := { cb1 with lights := w.2.1 } }, w.1)
      fault := some f }
  | none =>
    { state := ({ r with camera := camera
                         perFrameCb := { cb1 with lights := w.2.1, nrLights := w.2.2.1 } }, w.1)
      fault := none }

/-- The loop of `UploadTextures`.  Stops at a null entry. -/
def uploadLoop : List (String × Option GG.Tex2D) → List Command → List Command × Option Fault
  | [], cl => (cl, none)
  | (_, none) :: _, cl => (cl, some Fault.nullHandle)
  | (_, some tex) :: rest, cl => uploadLoop rest (cl ++ [Command.uploadTexture tex.serial])

/-- Member `UploadTextures(commandList)`. -/
def UploadTextures (r : RenderingSystem) (commandList : List Command) :
    Outcome (List Command) :=
  let u := uploadLoop r.textures.entries commandList
  { state := u.1, fault := u.2 }

/-- A sequence of `AddShadedMesh` calls `(id, meshPath, texPath)`, first call first; stops at
the first fault. -/
def addMeshes (r : RenderingSystem) : List (String × String × String) → Outcome RenderingSystem
  | [] => { state := r, fault := none }
  | c :: cs =>
    let o := r.AddShadedMesh c.1 c.2.1 c.2.2
    match o.fault with
    | some f => { state := o.state, fault := some f }
    | none => addMeshes o.state cs

/-- A sequence of `AddLight` calls, first call first. -/
def addLights (r : RenderingSystem) : List (String × Float3) → RenderingSystem
  | [] => r
  | c :: cs => addLights (r.AddLight c.1 c.2) cs

/-- The descriptor slots of the stored textures. -/
def slots (r : RenderingSystem) : List Nat :=
  r.textures.values.filterMap (fun t => t.map GG.Tex2D.index)

end RenderingSystem

namespace RenderingSystem

/-- Texture object `t` is stored under some id. -/
def Stored (r : RenderingSystem) (t : GG.Tex2D) : Prop :=
  ∃ k, (k, some t) ∈ r.textures.entries

/-- The state of the texture cache after the texture paths `S` have been ingested: no null
entries, the stored textures carry exactly the paths of `S`, the slots in use are exactly
`0 .. textureCount - 1` with `textureCount` the number of paths, and textures of equal path are the
same object. -/
structure Packed (r : RenderingSystem) (S : Finset String) : Prop where
  geoNoNull : ∀ e ∈ r.geometries.entries, e.2 ≠ none
  texNoNull : ∀ e ∈ r.textures.entries, e.2 ≠ none
  paths : ∀ p, p ∈ S ↔ ∃ t, r.Stored t ∧ t.path = p
  count : r.textureCount = S.card
  slotRange : ∀ n, (∃ t, r.Stored t ∧ t.index = n) ↔ n < r.textureCount
  shared : ∀ t1 t2, r.Stored t1 → r.Stored t2 → t1.path = t2.path → t1 = t2

/-- Slot packing as the specification states it, for the calls `calls` on an empty renderer: with
`N` distinct texture paths ingested, the slots of the stored textures are exactly `0 .. N - 1`. -/
def SlotPacking (calls : List (String × String × String)) : Prop :=
  ∀ n, n ∈ (fresh.addMeshes calls).state.slots ↔
    n < ((calls.map (fun c => c.2.2)).dedup).length

end RenderingSystem

/-- The lights `light0`, ..., `light<n-1>`, light number `i` with colour `(i, 10, 0)`. -/
def manyLights (n : Nat) : List (String × Float3) :=
  (List.range n).map (fun i => ("light" ++ toString i, ⟨(i : Rat), 10, 0⟩))

/-- The `AddRigidBody` calls that give each of the lights a body at the origin. -/
def lightBodies (ls : List (String × Float3)) : List AddCall :=
  ls.map (fun l => { id := l.1, pose := PxTransform.ofPosition 0 0 0 })

/-! ## `MyApp` (MyApp.h) -/

/-- An item submitted to the command queue. -/
inductive QueueItem where
  | executeCommandLists (commandList : List Command) : QueueItem
  | signal (value : Nat) : QueueItem
deriving DecidableEq, Repr

/-- The GPU retires one queue item: a `signal` sets the completed value of the fence. -/
def QueueItem.retire (completed : Nat) : QueueItem → Nat
  | QueueItem.executeCommandLists _ => completed
  | QueueItem.signal value => value

/-- The GPU retires the first `n` items of the queue (all of them when there are fewer). -/
def gpuRetire : Nat → List QueueItem → Nat → List QueueItem × Nat
  | 0, queue, completed => (queue, completed)
  | _ + 1, [], completed => ([], completed)
  | n + 1, item :: queue, completed => gpuRetire n queue (item.retire completed)

/-- The pair `fence->SetEventOnCompletion(fv, fenceEvent); WaitForSingleObject(fenceEvent,
INFINITE)`: the GPU retires items until the completed value reaches `fv`; `none` when the queue
runs out first, in which case the wait never returns. -/
def gpuRunUntil (fv : Nat) : List QueueItem → Nat → Option (List QueueItem × Nat)
  | [], completed => if fv ≤ completed then some ([], completed) else none
  | item :: queue, completed =>
    if fv ≤ completed then some (item :: queue, completed)
    else gpuRunUntil fv queue (item.retire completed)

/-- The class `MyApp` with the global `renderer` and `physics`.  `queue` holds the items submitted
to `commandQueue` that the GPU has not retired yet, oldest first; `completed` is
`fence->GetCompletedValue()`; `signalled` lists the values passed to `commandQueue->Signal` so
far. -/
structure MyApp where
  renderer : RenderingSystem
  physics : PxSystem
  queue : List QueueItem
  completed : Nat
  fenceValue : Nat
  frameIndex : Nat
  commandList : List Command
  signalled : List Nat

namespace MyApp

/-- Member `WaitForPreviousFrame()`.  `early` is the number of queue items the GPU has retired by
the time `GetCompletedValue` is read, `backBuffer` the value of
`swapChain->GetCurrentBackBufferIndex()`. -/
def WaitForPreviousFrame (app : MyApp) (early backBuffer : Nat) : Outcome MyApp :=
  let fv := app.fenceValue
  let app1 := { app with queue := app.queue ++ [QueueItem.signal fv]
                         signalled := app.signalled ++ [fv] }
  let app2 := { app1 with fenceValue := (app1.fenceValue + 1) % 2 ^ 64 }
  let g := gpuRetire early app2.queue app2.completed
  let app3 := { app2 with queue := g.1, completed := g.2 }
  if app3.completed < fv then
    match gpuRunUntil fv app3.queue app3.completed with
    | none => { state := app3, fault := some Fault.blocked }
    | some w =>
      { state := { app3 with queue := w.1, completed := w.2, frameIndex := backBuffer }
        fault := none }
  else
    { state := { app3 with frameIndex := backBuffer }, fault := none }

/-- The call `commandQueue->ExecuteCommandLists(1, { commandList })`. -/
def ExecuteCommandLists (app : MyApp) : MyApp :=
  { app with queue := app.queue ++ [QueueItem.executeCommandLists app.commandList] }

/-- The application object before `CreateResources`: nothing submitted.  The global systems are
held in their state after `StartUp` throughout, nothing being called on them earlier. -/
def initial : MyApp :=
  { renderer := RenderingSystem.fresh
    physics := PxSystem.fresh
    queue := []
    completed := 0
    fenceValue := 0
    frameIndex := 0
    commandList := []
    signalled := [] }

/-- The sync part of `CreateResources` up to its `WaitForPreviousFrame()` call: the fence is
created with value 0 and `fenceValue = 1`. -/
def createSync (app : MyApp) : MyApp :=
  { app with completed := 0, fenceValue := 1, commandList := [] }

/-- Member `CreateResources()`. -/
def CreateResources (app : MyApp) (early backBuffer : Nat) : Outcome MyApp :=
  let o := app.createSync.WaitForPreviousFrame early backBuffer
  match o.fault with
  | some f => { state := o.state, fault := some f }
  | none =>
    { state := { o.state with renderer := RenderingSystem.fresh, physics := PxSystem.fresh }
      fault := none }

/-- What holds of the sync objects whenever `WaitForPreviousFrame` is entered: the values
signalled so far are `1, 2, ..., fenceValue - 1`, the fence has not reached `fenceValue`, and no
pending signal carries `fenceValue` or more. -/
structure SyncInv (app : MyApp) : Prop where
  positive : 1 ≤ app.fenceValue
  history : app.signalled = List.range' 1 (app.fenceValue - 1)
  behind : app.completed < app.fenceValue
  pending : ∀ v, QueueItem.signal v ∈ app.queue → v < app.fenceValue

end MyApp

/-- The two global systems `renderer` and `physics`. -/
abbrev Systems := RenderingSystem × PxSystem

/-- One step of building the scene: the pair of calls `renderer.AddShadedMesh(device, id,
meshPath, texPath); physics.AddRigidBody(id, pose, geometry, kinematic)`, or the pair
`renderer.AddLight(id, color); physics.AddRigidBody(id, pose, PxSphereGeometry(1.f),
kinematic)`. -/
inductive SceneCall where
  | object (id meshPath texPath : String) (pose : PxTransform) (geometry : PxGeometry)
      (kinematic : Bool) : SceneCall
  | light (id : String) (color : Float3) (pose : PxTransform) (kinematic : Bool) : SceneCall

namespace SceneCall

/-- The id the step registers. -/
def id : SceneCall → String
  | object id _ _ _ _ _ => id
  | light id _ _ _ => id

/-- The `AddRigidBody` call of the step. -/
def body : SceneCall → AddCall
  | object id _ _ pose geometry kinematic =>
    { id := id, pose := pose, geometry := geometry, kinematic := kinematic }
  | light id _ pose kinematic =>
    { id := id, pose := pose, geometry := PxGeometry.sphere 1, kinematic := kinematic }

/-- The id and mesh path of an `AddShadedMesh` step. -/
def mesh? : SceneCall → Option (String × String)
  | object id meshPath _ _ _ _ => some (id, meshPath)
  | light _ _ _ _ => none

/-- The id and colour of an `AddLight` step. -/
def light? : SceneCall → Option (String × Float3)
  | object _ _ _ _ _ _ => none
  | light id color _ _ => some (id, color)

end SceneCall

/-- The actor an `AddRigidBody` call leaves in the scene. -/
def AddCall.actor (c : AddCall) : PxRigidDynamic :=
  { globalPose := c.pose, kinematic := c.kinematic
    shapes := [{ geometry := c.geometry
                 material := { staticFriction := c.sFriction, dynamicFriction := c.dFriction
                               restitution := c.rest } }]
    forces := [], torques := [] }

namespace Systems

/-- One scene step; the body is not added when `AddShadedMesh` ends in a fault. -/
def step (w : Systems) : SceneCall → Outcome Systems
  | SceneCall.object id meshPath texPath pose geometry kinematic =>
    let o := w.1.AddShadedMesh id meshPath texPath
    match o.fault with
    | some f => { state := (o.state, w.2), fault := some f }
    | none => { state := (o.state, w.2.AddRigidBody id pose geometry kinematic), fault := none }
  | SceneCall.light id color pose kinematic =>
    { state := (w.1.AddLight id color,
                w.2.AddRigidBody id pose (PxGeometry.sphere 1) kinematic)
      fault := none }

/-- A sequence of scene steps, first step first; stops at the first fault. -/
def run (w : Systems) : List SceneCall → Outcome Systems
  | [] => { state := w, fault := none }
  | c :: cs =>
    match (w.step c).fault with
    | some f => { state := (w.step c).state, fault := some f }
    | none => run (w.step c).state cs

/-- The values a loop `for (int i = start; i < stop; i += step)` runs through (`fuel` bounds the
number of iterations). -/
def forValues (stop step : Int) : Nat → Int → List Int
  | 0, _ => []
  | fuel + 1, i => if i < stop then i :: forValues stop step fuel (i + step) else []

/-- The index triples `(i, j, k)` of the cube loops of `LoadAssets`, in loop order. -/
def cubeIndices : List (Int × Int × Int) :=
  (forValues 18 5 36 (-18)).flatMap (fun i =>
    (forValues 18 5 36 (-18)).flatMap (fun j =>
      (forValues 15 5 10 5).map (fun k => (i, j, k))))

/-- The id `"cube_" + std::to_string(i) + '-' + std::to_string(j) + '-' + std::to_string(k)`. -/
def cubeId (c : Int × Int × Int) : String :=
  "cube_" ++ toString c.1 ++ "-" ++ toString c.2.1 ++ "-" ++ toString c.2.2

/-- The body of the cube loops for the index triple `c`. -/
def cubeCall (c : Int × Int × Int) : SceneCall :=
  SceneCall.object (cubeId c) "box.obj" "giraffe.jpg" (PxTransform.ofPosition c.1 c.2.2 c.2.1)
    (PxGeometry.box ⟨1, 1, 1⟩) false

/-- The steps of the scene part of `LoadAssets`, in program order: two spheres, the plane, the
cube loops, four lights. -/
def sceneCalls : List SceneCall :=
  [SceneCall.object "sphere" "sphere.fbx" "checkered.png" (PxTransform.ofPosition 0 15 0)
      (PxGeometry.sphere (5 / 2)) false,
   SceneCall.object "sphere2" "sphere.fbx" "checkered.png" (PxTransform.ofPosition 5 25 0)
      (PxGeometry.sphere (5 / 2)) false,
   SceneCall.object "plane" "plane.obj" "floor.png" (PxTransform.ofPosition 0 0 0)
      (PxGeometry.box ⟨20, 1, 20⟩) true] ++
  cubeIndices.map cubeCall ++
  [SceneCall.light "light1" ⟨20, 20, 20⟩ (PxTransform.ofPosition 10 10 10) false,
   SceneCall.light "light2" ⟨20, 20, 0⟩ (PxTransform.ofPosition 10 10 (-10)) true,
   SceneCall.light "light3" ⟨20, 0, 0⟩ (PxTransform.ofPosition (-10) 10 10) true,
   SceneCall.light "light4" ⟨0, 0, 20⟩ (PxTransform.ofPosition (-10) 10 (-10)) true]

/-- The scene part of `LoadAssets`. -/
def populateScene (w : Systems) : Outcome Systems := w.run sceneCalls

/-- The actor of the body stored under `id`. -/
def actorOf (w : Systems) (id : String) : Option PxRigidDynamic :=
  match w.2.rigidBodies.find id with
  | some (some rb) => w.2.gScene.actors.get? rb.actor
  | _ => none

/-- The id `id` has a rigid body whose actor carries the kinematic flag `kinematic` and exactly
one shape, of a geometry accepted by `shape`. -/
def HasBody (w : Systems) (id : String) (shape : PxGeometry → Bool) (kinematic : Bool) : Prop :=
  ∃ a g, w.actorOf id = some a ∧ a.kinematic = kinematic ∧
    a.shapes.map PxShape.geometry = [g] ∧ shape g = true

/-- The id `id` has a mesh. -/
def HasMesh (w : Systems) (id : String) : Prop :=
  ∃ g, w.1.geometries.find id = some (some g)

/-- The id `id` is a light: it has a colour in the light map and a rigid body. -/
def HasLight (w : Systems) (id : String) : Prop :=
  (∃ c, w.1.lights.find id = some c) ∧ ∃ rb, w.2.rigidBodies.find id = some (some rb)

/-- Sphere geometries. -/
def isSphere : PxGeometry → Bool
  | PxGeometry.sphere _ => true
  | PxGeometry.box _ => false

/-- Box geometries. -/
def isBox : PxGeometry → Bool
  | PxGeometry.sphere _ => false
  | PxGeometry.box _ => true

/-- The demo scene as the specification describes it, with `boxes` boxes in the grid: the ids
with a mesh, a light or a body are two spheres (mesh, dynamic sphere body), one plane (mesh,
kinematic box body), `boxes` boxes (mesh, dynamic box body) and four lights, and these ids are
pairwise distinct. -/
def IsDemoScene (w : Systems) (boxes : Nat) : Prop :=
  ∃ spheres planes cubes lights : List String,
    spheres.length = 2 ∧ planes.length = 1 ∧ cubes.length = boxes ∧ lights.length = 4 ∧
    (spheres ++ planes ++ cubes ++ lights).Nodup ∧
    (∀ id ∈ spheres, w.HasMesh id ∧ w.HasBody id isSphere false) ∧
    (∀ id ∈ planes, w.HasMesh id ∧ w.HasBody id isBox true) ∧
    (∀ id ∈ cubes, w.HasMesh id ∧ w.HasBody id isBox false) ∧
    (∀ id ∈ lights, w.HasLight id) ∧
    (∀ id, w.1.geometries.find id ≠ none → id ∈ spheres ++ planes ++ cubes) ∧
    (∀ id, w.1.lights.find id ≠ none → id ∈ lights) ∧
    (∀ id, w.2.rigidBodies.find id ≠ none → id ∈ spheres ++ planes ++ cubes ++ lights)

end Systems

/-! ## Distinctness of ids by number codes -/

/-- Code of a character sequence: its characters as the digits of a number. -/
def codeChars : List Char → Nat
  | [] => 0
  | c :: cs => (c.toNat + 1) + 2 ^ 32 * codeChars cs

/-- Code of a string.  Ids with pairwise different codes are pairwise different. -/
def keyCode (s : String) : Nat := codeChars s.data

namespace MyApp

/-- Member `LoadAssets()`: the scene, then the texture upload recorded on the reset command
list, submitted and waited for. -/
def LoadAssets (app : MyApp) (early backBuffer : Nat) : Outcome MyApp :=
  let o := Systems.populateScene (app.renderer, app.physics)
  let app1 := { app with renderer := o.state.1, physics := o.state.2 }
  match o.fault with
  | some f => { state := app1, fault := some f }
  | none =>
    let u := app1.renderer.UploadTextures []
    let app2 := { app1 with commandList := u.state }
    match u.fault with
    | some f => { state := app2, fault := some f }
    | none => app2.ExecuteCommandLists.WaitForPreviousFrame early backBuffer

end MyApp

namespace Systems

/-- A sequence of `renderer.Update(&physics, dt)` calls, one for each element of `dts`, first
call first; stops at the first fault. -/
def updates (ext : Collaborators) (w : Systems) : List PxReal → Outcome Systems
  | [] => { state := w, fault := none }
  | dt :: dts =>
    match (w.1.Update ext w.2 dt).fault with
    | some f => { state := (w.1.Update ext w.2 dt).state, fault := some f }
    | none => updates ext (w.1.Update ext w.2 dt).state dts

/-- The light part of scenario S1: each of the ids `light1` ... `light4` has a rigid body, the
`index` values of these four bodies are pairwise distinct, and none of them is the `index` of the
body of an id that has a mesh. -/
def LightIndicesDistinct (w : Systems) : Prop :=
  ∃ r1 r2 r3 r4 : GG.RigidBody,
    w.2.rigidBodies.find "light1" = some (some r1) ∧
    w.2.rigidBodies.find "light2" = some (some r2) ∧
    w.2.rigidBodies.find "light3" = some (some r3) ∧
    w.2.rigidBodies.find "light4" = some (some r4) ∧
    [r1.index, r2.index, r3.index, r4.index].Nodup ∧
    ∀ (id : String) (g : GG.Geometry) (rb : GG.RigidBody),
      w.1.geometries.find id = some (some g) → w.2.rigidBodies.find id = some (some rb) →
      rb.index ∉ [r1.index, r2.index, r3.index, r4.index]

end Systems

namespace PxSystem

/-- The record that the loop of `Update` writes for the body `rb`: the model matrix and its
inverse as `rb->Update(dt)` leaves them. -/
def recordOf (gScene : PxScene) (dt : PxReal) (rb : GG.RigidBody) : GG.PerObjectCb :=
  { modelTransform := (rb.Update gScene dt).GetModelMatrix
    modelTransformInverse := (rb.Update gScene dt).GetModelMatrixInverse }

end PxSystem

namespace RenderingSystem

/-- The loop of the lit pass of `Draw` over `geometries`: for each id, the physics system binds
the per-object constants, the descriptor table is set from `textures[id]->index`, and the mesh is
drawn.  Stops at a null pointer. -/
def drawMeshes : List (String × Option GG.Geometry) → StdMap (Option GG.Tex2D) → PxSystem →
    List Command → StdMap (Option GG.Tex2D) × PxSystem × List Command × Option Fault
  | [], textures, physics, cl => (textures, physics, cl, none)
  | (id, geometry) :: rest, textures, physics, cl =>
    let b := physics.BindConstantBuffer cl id
    match b.fault with
    | some f => (textures, b.state.1, b.state.2, some f)
    | none =>
      let t := textures.subscript id none
      match t.2 with
      | none => (t.1, b.state.1, b.state.2, some Fault.nullHandle)
      | some tex =>
        let cl1 := b.state.2 ++ [Command.setGraphicsRootDescriptorTable 2 tex.index]
        match geometry with
        | none => (t.1, b.state.1, cl1, some Fault.nullHandle)
        | some geo => drawMeshes rest t.1 b.state.1 (cl1 ++ [Command.draw geo.serial])

/-- The loop of the light pass of `Draw` over `lights`: for each id, the physics system binds the
per-object constants and the light mesh is drawn.  Stops at a null pointer. -/
def drawLights (lightGeo : GG.Geometry) : List (String × Float3) → PxSystem → List Command →
    PxSystem × List Command × Option Fault
  | [], physics, cl => (physics, cl, none)
  | (id, _) :: rest, physics, cl =>
    let b := physics.BindConstantBuffer cl id
    match b.fault with
    | some f => (b.state.1, b.state.2, some f)
    | none => drawLights lightGeo rest b.state.1 (b.state.2 ++ [Command.draw lightGeo.serial])

/-- Member `Draw(commandList, physics)`. -/
def Draw (r : RenderingSystem) (commandList : List Command) (physics : PxSystem) :
    Outcome (RenderingSystem × PxSystem × List Command) :=
  let cl0 := commandList ++
    [Command.bindHeap, Command.setGraphicsRootSignature "rootSig", Command.setPipeline "gpso",
     Command.setGraphicsRootConstantBufferView 0 GpuAddress.perFrame]
  let m := drawMeshes r.geometries.entries r.textures physics cl0
  match m.2.2.2 with
  | some f => { state := ({ r with textures := m.1 }, m.2.1, m.2.2.1), fault := some f }
  | none =>
    let cl1 := m.2.2.1 ++
      [Command.setGraphicsRootSignature "lightRootSig", Command.setPipeline "lightGpso",
       Command.setGraphicsRootConstantBufferView 0 GpuAddress.perFrame]
    let l := drawLights r.lightGeo r.lights.entries m.2.1 cl1
    { state := ({ r with textures := m.1 }, l.1, l.2.1), fault := l.2.2 }

end RenderingSystem

/-! ## float32 arithmetic -/

namespace Float32

/-- The power `2 ^ e` for an integer exponent. -/
def pow2 (e : Int) : Rat :=
  if 0 ≤ e then ((2 ^ e.toNat : Nat) : Rat) else 1 / ((2 ^ (-e).toNat : Nat) : Rat)

/-- Round to the nearest integer, a tie to the even one. -/
def roundHalfEven (q : Rat) : Int :=
  let f := Rat.floor q
  if q - f < 1 / 2 then f else if 1 / 2 < q - f then f + 1 else if f % 2 = 0 then f else f + 1

/-- Position of the leading binary digit of `n` (0 for `n < 2`); `fuel` bounds the recursion. -/
def log2Fuel : Nat → Nat → Nat
  | 0, _ => 0
  | fuel + 1, n => if n < 2 then 0 else log2Fuel fuel (n / 2) + 1

/-- The integer `e` with `2 ^ e ≤ x < 2 ^ (e + 1)`, for positive `x`. -/
def floorLog2 (x : Rat) : Int :=
  let e0 : Int := (log2Fuel x.num.natAbs x.num.natAbs : Int) - (log2Fuel x.den x.den : Int)
  if pow2 e0 ≤ x then e0 else e0 - 1

/-- Rounding of a real value to float32 (IEEE 754 binary32, round to nearest, ties to even): a
multiple of `2 ^ (e - 23)` with `e` the binary exponent of the value, not below -126 (the
subnormal range).  Overflow to infinity is not represented: see `IsFloat32`. -/
def fl32 (x : Rat) : Rat :=
  if x = 0 then 0
  else
    let a := if x < 0 then -x else x
    let e := max (floorLog2 a) (-126)
    (roundHalfEven (x / pow2 (e - 23)) : Rat) * pow2 (e - 23)

/-- The largest finite float32 value, `(2 ^ 24 - 1) * 2 ^ 104`. -/
def maxFinite : Rat := (2 ^ 24 - 1) * 2 ^ 104

/-- The rational `x` is a finite float32 value (infinities and NaN are not represented). -/
def IsFloat32 (x : Rat) : Prop := fl32 x = x ∧ -maxFinite ≤ x ∧ x ≤ maxFinite

end Float32

namespace PxSystem

/-- A `PxSystem` after construction and `StartUp`, with `mStepSize` the float32 value of its
initialiser `1.0f / 60.0f`. -/
def freshFloat : PxSystem :=
  { fresh with mStepSize := Float32.fl32 (1 / 60) }

/-- Member `Update(dt)` with the arithmetic of the `float` members as the compiled code performs
it: the results of `mAccumulator += dt` and `mAccumulator -= mStepSize` are rounded to float32.
Covers finite values (`Float32.IsFloat32`) whose sum does not overflow. -/
def UpdateFloat (ext : Collaborators) (s : PxSystem) (dt : PxReal) : Outcome PxSystem :=
  let s1 := { s with mAccumulator := Float32.fl32 (s.mAccumulator + dt) }
  if s1.mAccumulator > s1.mStepSize then
    let s2 := { s1 with mAccumulator := Float32.fl32 (s1.mAccumulator - s1.mStepSize) }
    let s3 := { s2 with gScene := s2.gScene.simulate ext s2.mStepSize }
    let r := refresh s3.gScene dt s3.rigidBodies.entries s3.perObjectCb
    { state := { s3 with rigidBodies := ⟨r.1⟩, perObjectCb := r.2.1 }, fault := r.2.2 }
  else
    { state := s1, fault := none }

/-- Number of simulation steps one `Update(dt)` call performs in state `s`, in float32
arithmetic. -/
def stepsOfFloat (ext : Collaborators) (s : PxSystem) (dt : PxReal) : Nat :=
  (s.UpdateFloat ext dt).state.gScene.timestamp - s.gScene.timestamp

end PxSystem

/-! # Theorems -/

/-! ## `StdMap` -/

namespace StdMap

variable {α : Type}

theorem place_cons_lt (key : String) (v : α) (k : String) (w : α) (rest : List (String × α))
    (h : keyLt key k = true) : place key v ((k, w) :: rest) = (key, v) :: (k, w) :: rest := by
  simp [place, h]

theorem place_cons_ge (key : String) (v : α) (k : String) (w : α) (rest : List (String × α))
    (h : keyLt key k = false) : place key v ((k, w) :: rest) = (k, w) :: place key v rest := by
  simp [place, h]

theorem findIn_place_self (key : String) (v : α) (l : List (String × α))
    (h : findIn l key = none) : findIn (place key v l) key = some v := by
  induction l with
  | nil => simp [place, findIn]
  | cons e rest ih =>
    obtain ⟨k, w⟩ := e
    by_cases hk : k = key
    · simp [findIn, hk] at h
    · simp only [findIn, hk, if_false] at h
      cases hlt : keyLt key k with
      | true =>
        rw [place_cons_lt key v k w rest hlt]
        simp [findIn]
      | false =>
        rw [place_cons_ge key v k w rest hlt]
        simp [findIn, hk, ih h]

theorem findIn_place_ne (key k : String) (v : α) (l : List (String × α)) (hne : k ≠ key) :
    findIn (place key v l) k = findIn l k := by
  induction l with
  | nil => simp [place, findIn, Ne.symm hne]
  | cons e rest ih =>
    obtain ⟨k1, w⟩ := e
    cases hlt : keyLt key k1 with
    | true =>
      rw [place_cons_lt key v k1 w rest hlt]
      simp [findIn, Ne.symm hne]
    | false =>
      rw [place_cons_ge key v k1 w rest hlt]
      simp [findIn, ih]

theorem find_insert_present (m : StdMap α) (key : String) (v : α)
    (h : (m.find key).isSome) : m.insert key v = m := by
  simp [insert, h]

theorem find_insert_absent (m : StdMap α) (key : String) (v : α)
    (h : m.find key = none) : (m.insert key v).find key = some v := by
  have h1 : (m.insert key v) = ⟨place key v m.entries⟩ := by simp [insert, h]
  rw [h1]
  exact findIn_place_self key v m.entries h

theorem find_insert_ne (m : StdMap α) (key k : String) (v : α) (hne : k ≠ key) :
    (m.insert key v).find k = m.find k := by
  unfold insert
  split
  · rfl
  · simp [find, findIn_place_ne key k v m.entries hne]

theorem find_insert_of_find (m : StdMap α) (key k : String) (v w : α)
    (h : m.find k = some w) : (m.insert key v).find k = some w := by
  by_cases hk : k = key
  · subst hk
    rw [find_insert_present m k v (by simp [h])]
    exact h
  · rw [find_insert_ne m key k v hk]
    exact h

theorem find_subscript_of_find (m : StdMap α) (key k : String) (d w : α)
    (h : m.find k = some w) : (m.subscript key d).1.find k = some w := by
  unfold subscript
  cases hf : m.find key with
  | some v => simpa using h
  | none =>
    have hne : k ≠ key := by
      intro e
      rw [e, hf] at h
      cases h
    simp only [find]
    rw [findIn_place_ne key k d m.entries hne]
    exact h

theorem subscript_absent (m : StdMap α) (key : String) (d : α) (h : m.find key = none) :
    (m.subscript key d).2 = d ∧ (m.subscript key d).1.find key = some d := by
  unfold subscript
  rw [h]
  exact ⟨rfl, findIn_place_self key d m.entries h⟩

end StdMap


/-! ## `PxSystem`: indices and the object counter -/

namespace PxSystem

theorem indexOf_eq_some (s : PxSystem) (id : String) (i : Int) :
    s.indexOf id = some i ↔ ∃ rb, s.rigidBodies.find id = some (some rb) ∧ rb.index = i := by
  unfold indexOf
  cases h : s.rigidBodies.find id with
  | none => simp
  | some o =>
    cases o with
    | none => simp
    | some rb => simp

theorem rigidBodies_add (s : PxSystem) (c : AddCall) :
    (s.add c).rigidBodies = s.rigidBodies.insert c.id (some (s.newBody c.pose c.kinematic).1) := rfl

theorem objectCount_add (s : PxSystem) (c : AddCall) :
    (s.add c).objectCount = (s.objectCount + 1) % 2 ^ 32 := rfl

theorem createdIndex_eq (s : PxSystem) (c : AddCall) :
    s.createdIndex c = toInt32 s.objectCount := rfl

theorem objectCount_addAll (cs : List AddCall) (s : PxSystem) :
    (s.addAll cs).objectCount % 2 ^ 32 = (s.objectCount + cs.length) % 2 ^ 32 := by
  induction cs generalizing s with
  | nil => simp [addAll]
  | cons c cs ih =>
    rw [addAll, ih, objectCount_add, List.length_cons]
    omega

theorem objectCount_addAll_fresh (cs : List AddCall) (h : cs.length < 2 ^ 32) :
    (fresh.addAll cs).objectCount = cs.length := by
  cases cs with
  | nil => rfl
  | cons c cs =>
    have hlast : ∀ (l : List AddCall) (t : PxSystem), l ≠ [] →
        (t.addAll l).objectCount < 2 ^ 32 := by
      intro l
      induction l with
      | nil => intro t hne; exact absurd rfl hne
      | cons d ds ih =>
        intro t _
        cases ds with
        | nil =>
          simp only [addAll, objectCount_add]
          exact Nat.mod_lt _ (by norm_num)
        | cons e es => exact ih (t.add d) (by simp)
    have h1 := objectCount_addAll (c :: cs) fresh
    have h2 := hlast (c :: cs) fresh (by simp)
    rw [Nat.mod_eq_of_lt h2] at h1
    rw [h1]
    have h3 : fresh.objectCount = 0 := rfl
    rw [h3, Nat.zero_add]
    exact Nat.mod_eq_of_lt h

theorem toInt32_of_lt (n : Nat) (h : n < 2 ^ 31) : toInt32 n = (n : Int) := by
  unfold toInt32
  have h1 : n % 2 ^ 32 = n := Nat.mod_eq_of_lt (by omega)
  rw [h1, if_pos h]

theorem find_addAll_of_not_mem (cs : List AddCall) (s : PxSystem) (id : String)
    (h : id ∉ cs.map AddCall.id) : (s.addAll cs).rigidBodies.find id = s.rigidBodies.find id := by
  induction cs generalizing s with
  | nil => rfl
  | cons c cs ih =>
    simp only [List.map_cons, List.mem_cons, not_or] at h
    rw [addAll, ih (s.add c) h.2, rigidBodies_add]
    exact StdMap.find_insert_ne _ _ _ _ h.1

theorem refresh_index (gScene : PxScene) (dt : PxReal) (l : List (String × Option GG.RigidBody))
    (data : Int → Option GG.PerObjectCb) (id : String) (rb : GG.RigidBody)
    (h : StdMap.findIn l id = some (some rb)) :
    ∃ rb1, StdMap.findIn (refresh gScene dt l data).1 id = some (some rb1) ∧
      rb1.index = rb.index := by
  induction l generalizing data with
  | nil => simp [StdMap.findIn] at h
  | cons e rest ih =>
    obtain ⟨k, o⟩ := e
    cases o with
    | none => exact ⟨rb, by simpa [refresh] using h, rfl⟩
    | some b =>
      by_cases hk : k = id
      · simp only [StdMap.findIn, hk, if_true, Option.some.injEq] at h
        subst h
        exact ⟨b.Update gScene dt, by simp [refresh, StdMap.findIn, hk], rfl⟩
      · simp only [StdMap.findIn, hk, if_false] at h
        obtain ⟨rb1, h1, h2⟩ := ih _ h
        exact ⟨rb1, by simpa [refresh, StdMap.findIn, hk] using h1, h2⟩

theorem indexOf_add (s : PxSystem) (c : AddCall) (id : String) (i : Int)
    (h : s.indexOf id = some i) : (s.add c).indexOf id = some i := by
  rw [indexOf_eq_some] at h ⊢
  obtain ⟨rb, h1, h2⟩ := h
  exact ⟨rb, by rw [rigidBodies_add]; exact StdMap.find_insert_of_find _ _ _ _ _ h1, h2⟩

theorem indexOf_addAll (cs : List AddCall) (s : PxSystem) (id : String) (i : Int)
    (h : s.indexOf id = some i) : (s.addAll cs).indexOf id = some i := by
  induction cs generalizing s with
  | nil => exact h
  | cons c cs ih => exact ih (s.add c) (indexOf_add s c id i h)

theorem indexOf_Update (ext : Collaborators) (s : PxSystem) (dt : PxReal) (id : String) (i : Int)
    (h : s.indexOf id = some i) : (s.Update ext dt).state.indexOf id = some i := by
  rw [indexOf_eq_some] at h ⊢
  obtain ⟨rb, h1, h2⟩ := h
  unfold Update
  dsimp only
  split
  · obtain ⟨rb1, h3, h4⟩ := refresh_index (s.gScene.simulate ext s.mStepSize) dt
      s.rigidBodies.entries s.perObjectCb id rb h1
    exact ⟨rb1, h3, h4.trans h2⟩
  · exact ⟨rb, h1, h2⟩

theorem indexOf_subscript (s : PxSystem) (key id : String) (i : Int)
    (h : s.indexOf id = some i) :
    ({ s with rigidBodies := (s.rigidBodies.subscript key none).1 } : PxSystem).indexOf id
      = some i := by
  rw [indexOf_eq_some] at h ⊢
  obtain ⟨rb, h1, h2⟩ := h
  exact ⟨rb, StdMap.find_subscript_of_find _ _ _ _ _ h1, h2⟩

theorem indexOf_AddForce (s : PxSystem) (key : String) (f : Float3) (id : String) (i : Int)
    (h : s.indexOf id = some i) : (s.AddForce key f).state.indexOf id = some i := by
  have h1 := indexOf_subscript s key id i h
  unfold AddForce
  dsimp only
  split <;> exact h1

theorem indexOf_AddTorque (s : PxSystem) (key : String) (f : Float3) (id : String) (i : Int)
    (h : s.indexOf id = some i) : (s.AddTorque key f).state.indexOf id = some i := by
  have h1 := indexOf_subscript s key id i h
  unfold AddTorque
  dsimp only
  split <;> exact h1

theorem indexOf_BindConstantBuffer (s : PxSystem) (cl : List Command) (key id : String) (i : Int)
    (h : s.indexOf id = some i) :
    (s.BindConstantBuffer cl key).state.1.indexOf id = some i := by
  have h1 := indexOf_subscript s key id i h
  unfold BindConstantBuffer
  dsimp only
  split <;> exact h1

theorem indexOf_run (ext : Collaborators) (s : PxSystem) (op : PxOp) (id : String) (i : Int)
    (h : s.indexOf id = some i) : (op.run ext s).state.indexOf id = some i := by
  cases op with
  | addRigidBody c => exact indexOf_add s c id i h
  | update dt => exact indexOf_Update ext s dt id i h
  | getRigidBody key => exact indexOf_subscript s key id i h
  | addForce key f => exact indexOf_AddForce s key f id i h
  | addTorque key t => exact indexOf_AddTorque s key t id i h
  | bindConstantBuffer cl key => exact indexOf_BindConstantBuffer s cl key id i h

end PxSystem

namespace PxSystem

theorem addAll_append (a b : List AddCall) (s : PxSystem) :
    s.addAll (a ++ b) = (s.addAll a).addAll b := by
  induction a generalizing s with
  | nil => rfl
  | cons c cs ih => exact ih (s.add c)

theorem indexOf_add_absent (s : PxSystem) (c : AddCall) (h : s.rigidBodies.find c.id = none) :
    (s.add c).indexOf c.id = some (toInt32 s.objectCount) := by
  rw [indexOf_eq_some]
  exact ⟨(s.newBody c.pose c.kinematic).1,
    by rw [rigidBodies_add]; exact StdMap.find_insert_absent _ _ _ h, rfl⟩

end PxSystem

/-- C1 (as stated, refuted): on the calls `x, x, y` the second call that is successful in the
sense of the specification is the third call, and its body carries index 2, not 1. -/
theorem C1_index_stability_fails :
    ¬ PxSystem.IndexStability
      [{ id := "x", pose := PxTransform.ofPosition 0 0 0 },
       { id := "x", pose := PxTransform.ofPosition 0 0 0 },
       { id := "y", pose := PxTransform.ofPosition 0 0 0 }] := by
  intro h
  have h2 := h 1 2 (by decide)
  exact absurd h2 (by decide)

/-- C1 (amended): counting every `AddRigidBody` call on a fresh system, also a call whose id is
already taken, the body constructed by call number `k + 1` has index `k` (for `k < 2^31`); when
the id of that call was not used before, this body is the one stored under the id after all
calls; and no `PxSystem` operation changes the index stored under an id. -/
theorem C1_index_by_call_count (ext : Collaborators) (calls : List AddCall) (k : Nat)
    (hk : k < calls.length) (hcap : k < 2 ^ 31) :
    (PxSystem.fresh.addAll (calls.take k)).createdIndex (calls.get ⟨k, hk⟩) = (k : Int) ∧
    ((calls.get ⟨k, hk⟩).id ∉ (calls.take k).map AddCall.id →
      (PxSystem.fresh.addAll calls).indexOf (calls.get ⟨k, hk⟩).id = some (k : Int)) ∧
    (∀ (s : PxSystem) (op : PxOp) (id : String) (i : Int),
      s.indexOf id = some i → (op.run ext s).state.indexOf id = some i) := by
  have hlen : (calls.take k).length = k := by
    rw [List.length_take]
    omega
  have hcount : (PxSystem.fresh.addAll (calls.take k)).objectCount = k := by
    rw [PxSystem.objectCount_addAll_fresh _ (by omega), hlen]
  refine ⟨?_, ?_, ?_⟩
  · rw [PxSystem.createdIndex_eq, hcount]
    exact PxSystem.toInt32_of_lt k hcap
  · intro hnew
    have hsplit : calls = calls.take k ++ (calls.get ⟨k, hk⟩ :: calls.drop (k + 1)) := by
      rw [List.get_eq_getElem, List.getElem_cons_drop, List.take_append_drop]
    have habsent : (PxSystem.fresh.addAll (calls.take k)).rigidBodies.find (calls.get ⟨k, hk⟩).id
        = none := by
      rw [PxSystem.find_addAll_of_not_mem _ _ _ hnew]
      rfl
    have hstep := PxSystem.indexOf_add_absent _ _ habsent
    rw [hcount, PxSystem.toInt32_of_lt k hcap] at hstep
    have hrest := PxSystem.indexOf_addAll (calls.drop (k + 1)) _ _ _ hstep
    have hrun : PxSystem.fresh.addAll calls =
        ((PxSystem.fresh.addAll (calls.take k)).add (calls.get ⟨k, hk⟩)).addAll
          (calls.drop (k + 1)) := by
      conv_lhs => rw [hsplit]
      rw [PxSystem.addAll_append]
      rfl
    rw [hrun]
    exact hrest
  · intro s op id i h
    exact PxSystem.indexOf_run ext s op id i h

/-- Witness of `C1_index_by_call_count`: the third of the calls `x, x, y`. -/
theorem C1_index_by_call_count_witness :
    (PxSystem.fresh.addAll
      [{ id := "x", pose := PxTransform.ofPosition 0 0 0 },
       { id := "x", pose := PxTransform.ofPosition 0 0 0 }]).createdIndex
      { id := "y", pose := PxTransform.ofPosition 0 0 0 } = 2 :=
  (C1_index_by_call_count ⟨fun _ _ a => a, fun _ c => c⟩
    [{ id := "x", pose := PxTransform.ofPosition 0 0 0 },
     { id := "x", pose := PxTransform.ofPosition 0 0 0 },
     { id := "y", pose := PxTransform.ofPosition 0 0 0 }] 2 (by decide) (by decide)).1

/-- C2 (as stated, refuted): the second `AddRigidBody("x", P)` moves the object counter from 1
to 2. -/
theorem C2_duplicate_changes_counter :
    ((PxSystem.fresh.AddRigidBody "x" (PxTransform.ofPosition 0 0 0)).AddRigidBody "x"
        (PxTransform.ofPosition 0 0 0)).objectCount = 2 ∧
    (PxSystem.fresh.AddRigidBody "x" (PxTransform.ofPosition 0 0 0)).objectCount = 1 := by
  decide

/-- C2 (amended): `AddRigidBody(id, ...)` on an id that is already a key of the map leaves the
id-to-body map unchanged and advances the object counter by one (modulo 2^32); the call has no
failure result. -/
theorem C2_duplicate_keeps_map (s : PxSystem) (id : String) (pose : PxTransform)
    (geometry : PxGeometry) (kinematic : Bool) (sFriction dFriction rest : PxReal)
    (h : (s.rigidBodies.find id).isSome) :
    (s.AddRigidBody id pose geometry kinematic sFriction dFriction rest).rigidBodies
      = s.rigidBodies ∧
    (s.AddRigidBody id pose geometry kinematic sFriction dFriction rest).objectCount
      = (s.objectCount + 1) % 2 ^ 32 :=
  ⟨StdMap.find_insert_present _ _ _ h, rfl⟩

/-- Witness of `C2_duplicate_keeps_map`: a second `AddRigidBody("x", P)`. -/
theorem C2_duplicate_keeps_map_witness :
    ((PxSystem.fresh.AddRigidBody "x" (PxTransform.ofPosition 0 0 0)).AddRigidBody "x"
        (PxTransform.ofPosition 0 0 0)).rigidBodies
      = (PxSystem.fresh.AddRigidBody "x" (PxTransform.ofPosition 0 0 0)).rigidBodies :=
  (C2_duplicate_keeps_map (PxSystem.fresh.AddRigidBody "x" (PxTransform.ofPosition 0 0 0)) "x"
    (PxTransform.ofPosition 0 0 0) (PxGeometry.sphere 1) false (1 / 2) (1 / 2) (3 / 5)
    (by decide)).1

namespace StdMap

variable {α : Type}

theorem mem_place_iff (key : String) (v : α) (l : List (String × α)) (e : String × α) :
    e ∈ place key v l ↔ e = (key, v) ∨ e ∈ l := by
  induction l with
  | nil => simp [place]
  | cons d rest ih =>
    obtain ⟨k, w⟩ := d
    cases hlt : keyLt key k with
    | true =>
      rw [place_cons_lt key v k w rest hlt]
      simp
    | false =>
      rw [place_cons_ge key v k w rest hlt]
      simp only [List.mem_cons, ih]
      tauto

theorem mem_place (key : String) (v : α) (l : List (String × α)) (e : String × α)
    (h : e ∈ place key v l) : e = (key, v) ∨ e ∈ l :=
  (mem_place_iff key v l e).mp h

theorem mem_insert (m : StdMap α) (key : String) (v : α) (e : String × α)
    (h : e ∈ (m.insert key v).entries) : e = (key, v) ∨ e ∈ m.entries := by
  unfold insert at h
  split at h
  · exact Or.inr h
  · exact mem_place key v m.entries e h

theorem findIn_mem (l : List (String × α)) (key : String) (v : α)
    (h : findIn l key = some v) : (key, v) ∈ l := by
  induction l with
  | nil => simp [findIn] at h
  | cons d rest ih =>
    obtain ⟨k, w⟩ := d
    by_cases hk : k = key
    · simp only [findIn, hk, if_true, Option.some.injEq] at h
      simp [hk, h]
    · simp only [findIn, hk, if_false] at h
      exact List.mem_cons_of_mem _ (ih h)

end StdMap

namespace PxSystem

/-- No entry of the id-to-body map holds a null pointer. -/
theorem noNull_add (s : PxSystem) (c : AddCall)
    (h : ∀ e ∈ s.rigidBodies.entries, e.2 ≠ none) :
    ∀ e ∈ (s.add c).rigidBodies.entries, e.2 ≠ none := by
  intro e he
  rw [rigidBodies_add] at he
  rcases StdMap.mem_insert _ _ _ _ he with h1 | h1
  · rw [h1]
    simp
  · exact h e h1

theorem noNull_addAll (cs : List AddCall) (s : PxSystem)
    (h : ∀ e ∈ s.rigidBodies.entries, e.2 ≠ none) :
    ∀ e ∈ (s.addAll cs).rigidBodies.entries, e.2 ≠ none := by
  induction cs generalizing s with
  | nil => exact h
  | cons c cs ih => exact ih (s.add c) (noNull_add s c h)

theorem mAccumulator_addAll (cs : List AddCall) (s : PxSystem) :
    (s.addAll cs).mAccumulator = s.mAccumulator ∧ (s.addAll cs).mStepSize = s.mStepSize := by
  induction cs generalizing s with
  | nil => exact ⟨rfl, rfl⟩
  | cons c cs ih => exact ih (s.add c)

theorem refresh_no_fault (gScene : PxScene) (dt : PxReal)
    (l : List (String × Option GG.RigidBody)) (data : Int → Option GG.PerObjectCb)
    (h : ∀ e ∈ l, e.2 ≠ none) : (refresh gScene dt l data).2.2 = none := by
  induction l generalizing data with
  | nil => rfl
  | cons e rest ih =>
    obtain ⟨k, o⟩ := e
    cases o with
    | none => exact absurd rfl (h (k, none) (List.mem_cons_self _ _))
    | some b =>
      simp only [refresh]
      exact ih _ (fun e he => h e (List.mem_cons_of_mem _ he))

theorem refresh_keeps_written (gScene : PxScene) (dt : PxReal)
    (l : List (String × Option GG.RigidBody)) (data : Int → Option GG.PerObjectCb) (slot : Int)
    (h : (data slot).isSome) : ((refresh gScene dt l data).2.1 slot).isSome := by
  induction l generalizing data with
  | nil => exact h
  | cons e rest ih =>
    obtain ⟨k, o⟩ := e
    cases o with
    | none => exact h
    | some b =>
      simp only [refresh]
      apply ih
      by_cases hs : slot = (b.Update gScene dt).index
      · rw [hs]
        simp
      · rw [Function.update_noteq hs]
        exact h

theorem refresh_writes (gScene : PxScene) (dt : PxReal)
    (l : List (String × Option GG.RigidBody)) (data : Int → Option GG.PerObjectCb)
    (hl : ∀ e ∈ l, e.2 ≠ none) (id : String) (rb : GG.RigidBody) (h : (id, some rb) ∈ l) :
    ((refresh gScene dt l data).2.1 rb.index).isSome := by
  induction l generalizing data with
  | nil => simp at h
  | cons e rest ih =>
    obtain ⟨k, o⟩ := e
    cases o with
    | none => exact absurd rfl (hl (k, none) (List.mem_cons_self _ _))
    | some b =>
      simp only [refresh]
      rcases List.mem_cons.mp h with h1 | h1
      · have hb : b = rb := by
          have := congrArg Prod.snd h1
          simpa using this.symm
        subst hb
        apply refresh_keeps_written
        have hi : (b.Update gScene dt).index = b.index := rfl
        rw [hi]
        simp
      · exact ih _ (fun e he => hl e (List.mem_cons_of_mem _ he)) h1

end PxSystem

namespace PxSystem

theorem manyBodies_succ (n : Nat) : manyBodies (n + 1) = manyBodies n ++
    [{ id := "b" ++ toString n, pose := PxTransform.ofPosition 0 0 0 }] := by
  simp [manyBodies, List.range_succ]

theorem length_manyBodies (n : Nat) : (manyBodies n).length = n := by
  simp [manyBodies]

theorem ids_manyBodies (n : Nat) :
    (manyBodies n).map AddCall.id = (List.range n).map (fun i => "b" ++ toString i) := by
  simp [manyBodies, Function.comp_def]

end PxSystem

namespace PxSystem

theorem indexOf_addAll_last (cs : List AddCall) (c : AddCall) (hlen : cs.length < 2 ^ 31)
    (hnew : c.id ∉ cs.map AddCall.id) :
    (fresh.addAll (cs ++ [c])).indexOf c.id = some (cs.length : Int) := by
  have habsent : (fresh.addAll cs).rigidBodies.find c.id = none := by
    rw [find_addAll_of_not_mem _ _ _ hnew]
    rfl
  have h := indexOf_add_absent (fresh.addAll cs) c habsent
  rw [objectCount_addAll_fresh cs (by omega), toInt32_of_lt _ hlen] at h
  rw [addAll_append]
  exact h

theorem Update_writes (ext : Collaborators) (s : PxSystem) (dt : PxReal)
    (hnn : ∀ e ∈ s.rigidBodies.entries, e.2 ≠ none)
    (hgt : s.mAccumulator + dt > s.mStepSize) (id : String) (i : Int)
    (h : s.indexOf id = some i) :
    (s.Update ext dt).fault = none ∧ ((s.Update ext dt).state.perObjectCb i).isSome := by
  obtain ⟨rb, hfind, hrb⟩ := (indexOf_eq_some _ _ _).mp h
  have hmem := StdMap.findIn_mem _ _ _ hfind
  unfold Update
  dsimp only
  rw [if_pos hgt]
  dsimp only
  constructor
  · exact refresh_no_fault _ _ _ _ hnn
  · have hw := refresh_writes (s.gScene.simulate ext s.mStepSize) dt s.rigidBodies.entries
      s.perObjectCb hnn id rb hmem
    rw [hrb] at hw
    exact hw

theorem noNull_fresh_addAll (cs : List AddCall) :
    ∀ e ∈ (fresh.addAll cs).rigidBodies.entries, e.2 ≠ none :=
  noNull_addAll cs fresh (by intro e he; cases he)

theorem stepDue_fresh_addAll (cs : List AddCall) :
    (fresh.addAll cs).mAccumulator + 1 / 30 > (fresh.addAll cs).mStepSize := by
  obtain ⟨hacc, hstep⟩ := mAccumulator_addAll cs fresh
  rw [hacc, hstep]
  show (0 : Rat) + 1 / 30 > 1 / 60
  norm_num

set_option maxRecDepth 1000000 in
theorem b1024_not_in_first_1024 : "b1024" ∉ (manyBodies 1024).map AddCall.id := by
  rw [ids_manyBodies 1024]
  decide

end PxSystem

/-- C3 (the code at the failing input): after `AddRigidBody("b0", P)` ... `AddRigidBody("b1023",
P)` the call `AddRigidBody("b1024", P)` is not refused: it stores a body with index 1024, which
is not below the capacity 1024 of the per-object array, and the next `Update` that performs a
step writes record number 1024. -/
theorem C3_body_1025_gets_index_1024 :
    (PxSystem.fresh.addAll (PxSystem.manyBodies 1025)).indexOf "b1024" = some 1024 ∧
    ¬ ((1024 : Int) < (perObjectCapacity : Int)) ∧
    ∀ ext : Collaborators,
      ((PxSystem.fresh.addAll (PxSystem.manyBodies 1025)).Update ext (1 / 30)).fault = none ∧
      (((PxSystem.fresh.addAll (PxSystem.manyBodies 1025)).Update ext (1 / 30)).state.perObjectCb
        1024).isSome := by
  have hidx : (PxSystem.fresh.addAll (PxSystem.manyBodies 1025)).indexOf "b1024" = some 1024 := by
    have h := PxSystem.indexOf_addAll_last (PxSystem.manyBodies 1024)
      { id := "b1024", pose := PxTransform.ofPosition 0 0 0 }
      (by rw [PxSystem.length_manyBodies]; norm_num) PxSystem.b1024_not_in_first_1024
    rw [PxSystem.length_manyBodies] at h
    rw [PxSystem.manyBodies_succ 1024]
    exact h
  refine ⟨hidx, ?_, ?_⟩
  · intro h
    exact absurd h (by decide)
  · intro ext
    exact PxSystem.Update_writes ext _ (1 / 30) (PxSystem.noNull_fresh_addAll _)
      (PxSystem.stepDue_fresh_addAll _) "b1024" 1024 hidx

/-! ## `PxSystem.Update`: the fixed-step accumulator -/

namespace PxSystem

theorem mStepSize_Update (ext : Collaborators) (s : PxSystem) (dt : PxReal) :
    (s.Update ext dt).state.mStepSize = s.mStepSize := by
  unfold Update
  dsimp only
  split <;> rfl

theorem mAccumulator_Update (ext : Collaborators) (s : PxSystem) (dt : PxReal) :
    (s.Update ext dt).state.mAccumulator =
      if s.mAccumulator + dt > s.mStepSize then s.mAccumulator + dt - s.mStepSize
      else s.mAccumulator + dt := by
  unfold Update
  dsimp only
  split <;> rfl

theorem timestamp_Update (ext : Collaborators) (s : PxSystem) (dt : PxReal) :
    (s.Update ext dt).state.gScene.timestamp =
      if s.mAccumulator + dt > s.mStepSize then s.gScene.timestamp + 1
      else s.gScene.timestamp := by
  unfold Update
  dsimp only
  split <;> rfl

theorem stepsOf_eq (ext : Collaborators) (s : PxSystem) (dt : PxReal) :
    s.stepsOf ext dt = if s.mAccumulator + dt > s.mStepSize then 1 else 0 := by
  unfold stepsOf
  rw [timestamp_Update]
  split <;> simp

theorem mStepSize_updateN (ext : Collaborators) (s : PxSystem) (dt : PxReal) (n : Nat) :
    (s.updateN ext dt n).mStepSize = s.mStepSize := by
  induction n with
  | zero => rfl
  | succ n ih => rw [updateN, mStepSize_Update, ih]

/-- Accumulator after `n` calls with `dt = 1/120`: `0`, `1/120`, `1/60`, `1/120`, `1/60`, ... -/
theorem mAccumulator_updateN_120 (ext : Collaborators) (s : PxSystem)
    (h0 : s.mAccumulator = 0) (hs : s.mStepSize = 1 / 60) (n : Nat) :
    (s.updateN ext (1 / 120) n).mAccumulator =
      if n = 0 then 0 else if n % 2 = 1 then 1 / 120 else 1 / 60 := by
  induction n with
  | zero => simpa [updateN] using h0
  | succ n ih =>
    rw [updateN, mAccumulator_Update, mStepSize_updateN, ih, hs]
    by_cases hn : n = 0
    · subst hn
      norm_num
    · rw [if_neg hn, if_neg (Nat.succ_ne_zero n)]
      by_cases hodd : n % 2 = 1
      · have h1 : ¬ ((n + 1) % 2 = 1) := by omega
        rw [if_pos hodd, if_neg h1]
        norm_num
      · have h1 : (n + 1) % 2 = 1 := by omega
        rw [if_neg hodd, if_pos h1]
        norm_num

/-- Accumulator after `n` calls with `dt = 1/30`: `n/60`. -/
theorem mAccumulator_updateN_30 (ext : Collaborators) (s : PxSystem)
    (h0 : s.mAccumulator = 0) (hs : s.mStepSize = 1 / 60) (n : Nat) :
    (s.updateN ext (1 / 30) n).mAccumulator = (n : Rat) / 60 := by
  induction n with
  | zero => simpa [updateN] using h0
  | succ n ih =>
    rw [updateN, mAccumulator_Update, mStepSize_updateN, ih, hs]
    have hpos : (0 : Rat) ≤ (n : Rat) := Nat.cast_nonneg n
    have hgt : (n : Rat) / 60 + 1 / 30 > 1 / 60 := by linarith
    rw [if_pos hgt]
    push_cast
    ring

theorem refresh_fault_of_null (gScene : PxScene) (dt : PxReal)
    (l : List (String × Option GG.RigidBody)) (data : Int → Option GG.PerObjectCb)
    (id : String) (h : (id, none) ∈ l) :
    (refresh gScene dt l data).2.2 = some Fault.nullHandle := by
  induction l generalizing data with
  | nil => simp at h
  | cons e rest ih =>
    obtain ⟨k, o⟩ := e
    cases o with
    | none => rfl
    | some b =>
      simp only [refresh]
      rcases List.mem_cons.mp h with h1 | h1
      · cases h1
      · exact ih _ h1

end PxSystem

/-- C4 (as stated, refuted): with `dt = 1/120` from accumulator 0 neither the first nor the
second `Update` call performs a simulation step, so the steps do not fall on every other call
from the start (after the second call the accumulator equals the step size, which is not
greater than it). -/
theorem C4_first_two_calls_without_step :
    PxSystem.fresh.stepsOf Collaborators.idle (1 / 120) = 0 ∧
    (PxSystem.fresh.updateN Collaborators.idle (1 / 120) 1).stepsOf Collaborators.idle (1 / 120)
      = 0 ∧
    (PxSystem.fresh.updateN Collaborators.idle (1 / 120) 2).mAccumulator
      = PxSystem.fresh.mStepSize := by
  have h0 : PxSystem.fresh.mAccumulator = 0 := rfl
  have hs : PxSystem.fresh.mStepSize = 1 / 60 := rfl
  refine ⟨?_, ?_, ?_⟩
  · rw [PxSystem.stepsOf_eq, h0, hs]
    norm_num
  · rw [PxSystem.stepsOf_eq, PxSystem.mAccumulator_updateN_120 _ _ h0 hs,
      PxSystem.mStepSize_updateN, hs]
    norm_num
  · rw [PxSystem.mAccumulator_updateN_120 _ _ h0 hs, hs]
    norm_num

/-- C4 (amended): from accumulator 0 with step size 1/60, after `n` calls `Update(1/120)` the next
call (call number `n + 1`) performs one simulation step when `n` is even and at least 2, and none
otherwise: the steps fall exactly on calls 3, 5, 7, ...; after `n` calls `Update(1/30)` the next
call performs exactly one step and the accumulator holds `n/60`, so the excess stays in it. -/
theorem C4_fixed_step_cadence (ext : Collaborators) (s : PxSystem)
    (h0 : s.mAccumulator = 0) (hs : s.mStepSize = 1 / 60) (n : Nat) :
    (s.updateN ext (1 / 120) n).stepsOf ext (1 / 120) = (if n % 2 = 0 ∧ 2 ≤ n then 1 else 0) ∧
    (s.updateN ext (1 / 30) n).stepsOf ext (1 / 30) = 1 ∧
    (s.updateN ext (1 / 30) n).mAccumulator = (n : Rat) / 60 := by
  refine ⟨?_, ?_, PxSystem.mAccumulator_updateN_30 ext s h0 hs n⟩
  · rw [PxSystem.stepsOf_eq, PxSystem.mAccumulator_updateN_120 ext s h0 hs,
      PxSystem.mStepSize_updateN, hs]
    by_cases hn : n = 0
    · subst hn
      norm_num
    · rw [if_neg hn]
      by_cases hodd : n % 2 = 1
      · have h1 : ¬ (n % 2 = 0 ∧ 2 ≤ n) := by omega
        rw [if_pos hodd, if_neg h1]
        norm_num
      · have h1 : n % 2 = 0 ∧ 2 ≤ n := by omega
        rw [if_neg hodd, if_pos h1]
        norm_num
  · rw [PxSystem.stepsOf_eq, PxSystem.mAccumulator_updateN_30 ext s h0 hs,
      PxSystem.mStepSize_updateN, hs]
    have hpos : (0 : Rat) ≤ (n : Rat) := Nat.cast_nonneg n
    have hgt : (n : Rat) / 60 + 1 / 30 > 1 / 60 := by linarith
    rw [if_pos hgt]

/-- Witness of `C4_fixed_step_cadence`: a fresh system, the third call. -/
theorem C4_fixed_step_cadence_witness :
    (PxSystem.fresh.updateN Collaborators.idle (1 / 120) 2).stepsOf Collaborators.idle (1 / 120)
      = 1 :=
  (C4_fixed_step_cadence Collaborators.idle PxSystem.fresh rfl rfl 2).1

/-- C8 (the code on an unknown id): when `id` is not a key of the map, `GetRigidBody(id)` returns
the null handle without any failure and leaves a null entry under `id` in the map; `AddForce` and
`AddTorque` create the same null entry and then dereference it; an `Update` that performs a step
afterwards dereferences the null entry too. -/
theorem C8_unknown_id_creates_null_entry (ext : Collaborators) (s : PxSystem) (id : String)
    (v : Float3) (dt : PxReal) (h : s.rigidBodies.find id = none) :
    (s.GetRigidBody id).2 = none ∧
    (s.GetRigidBody id).1.rigidBodies.find id = some none ∧
    (s.AddForce id v).fault = some Fault.nullHandle ∧
    (s.AddForce id v).state.rigidBodies.find id = some none ∧
    (s.AddTorque id v).fault = some Fault.nullHandle ∧
    (s.AddTorque id v).state.rigidBodies.find id = some none ∧
    ((s.GetRigidBody id).1.mAccumulator + dt > (s.GetRigidBody id).1.mStepSize →
      ((s.GetRigidBody id).1.Update ext dt).fault = some Fault.nullHandle) := by
  obtain ⟨h1, h2⟩ := StdMap.subscript_absent s.rigidBodies id none h
  refine ⟨h1, h2, ?_, ?_, ?_, ?_, ?_⟩
  · unfold PxSystem.AddForce
    dsimp only
    rw [h1]
  · unfold PxSystem.AddForce
    dsimp only
    rw [h1]
    exact h2
  · unfold PxSystem.AddTorque
    dsimp only
    rw [h1]
  · unfold PxSystem.AddTorque
    dsimp only
    rw [h1]
    exact h2
  · intro hgt
    have hmem := StdMap.findIn_mem _ _ _ h2
    unfold PxSystem.Update
    dsimp only
    rw [if_pos hgt]
    exact PxSystem.refresh_fault_of_null _ _ _ _ id hmem

/-- Witness of `C8_unknown_id_creates_null_entry`: the id `ghost` on a fresh system. -/
theorem C8_unknown_id_creates_null_entry_witness :
    (PxSystem.fresh.GetRigidBody "ghost").1.rigidBodies.find "ghost" = some none ∧
    PxSystem.fresh.rigidBodies.find "ghost" = none :=
  ⟨(C8_unknown_id_creates_null_entry Collaborators.idle PxSystem.fresh "ghost" ⟨1, 0, 0⟩ (1 / 30)
    rfl).2.1, rfl⟩

/-! ## `RenderingSystem.AddShadedMesh`: the asset caches -/

namespace StdMap

variable {α : Type}

theorem mem_insert_absent (m : StdMap α) (key : String) (v : α) (e : String × α)
    (h : m.find key = none) : e ∈ (m.insert key v).entries ↔ e = (key, v) ∨ e ∈ m.entries := by
  have h1 : m.insert key v = ⟨place key v m.entries⟩ := by simp [insert, h]
  rw [h1]
  exact mem_place_iff key v m.entries e

end StdMap

namespace RenderingSystem

theorem scanPath_spec {α : Type} (pathOf : α → String) (path : String)
    (l : List (String × Option α)) (found : Option α) (hnn : ∀ e ∈ l, e.2 ≠ none) :
    (scanPath pathOf path l found).2 = none ∧
    (((scanPath pathOf path l found).1 = found ∧ ∀ k x, (k, some x) ∈ l → pathOf x ≠ path) ∨
      ∃ k x, (k, some x) ∈ l ∧ pathOf x = path ∧ (scanPath pathOf path l found).1 = some x) := by
  induction l generalizing found with
  | nil => exact ⟨rfl, Or.inl ⟨rfl, by intro k x h; cases h⟩⟩
  | cons e rest ih =>
    obtain ⟨k, o⟩ := e
    cases o with
    | none => exact absurd rfl (hnn (k, none) (List.mem_cons_self _ _))
    | some x =>
      have hrest : ∀ e ∈ rest, e.2 ≠ none := fun e he => hnn e (List.mem_cons_of_mem _ he)
      simp only [scanPath]
      obtain ⟨h1, h2⟩ := ih (if pathOf x = path then some x else found) hrest
      refine ⟨h1, ?_⟩
      rcases h2 with ⟨h3, h4⟩ | ⟨k1, x1, h3, h4, h5⟩
      · by_cases hx : pathOf x = path
        · right
          exact ⟨k, x, List.mem_cons_self _ _, hx, by rw [h3, if_pos hx]⟩
        · left
          refine ⟨by rw [h3, if_neg hx], ?_⟩
          intro k1 x1 hmem
          rcases List.mem_cons.mp hmem with h5 | h5
          · have hx1 : x1 = x := by
              have := congrArg Prod.snd h5
              simpa using this
            rw [hx1]
            exact hx
          · exact h4 k1 x1 h5
      · right
        exact ⟨k1, x1, List.mem_cons_of_mem _ h3, h4, h5⟩

theorem stored_insert (r : RenderingSystem) (id : String) (v t : GG.Tex2D)
    (hid : r.textures.find id = none) :
    (∃ k, (k, some t) ∈ (r.textures.insert id (some v)).entries) ↔ t = v ∨ r.Stored t := by
  unfold Stored
  constructor
  · rintro ⟨k, hk⟩
    rcases (StdMap.mem_insert_absent _ _ _ _ hid).mp hk with h | h
    · left
      have := congrArg Prod.snd h
      simpa using this
    · exact Or.inr ⟨k, h⟩
  · rintro (h | ⟨k, hk⟩)
    · exact ⟨id, (StdMap.mem_insert_absent _ _ _ _ hid).mpr (Or.inl (by rw [h]))⟩
    · exact ⟨k, (StdMap.mem_insert_absent _ _ _ _ hid).mpr (Or.inr hk)⟩

theorem noNull_insert {α : Type} (m : StdMap (Option α)) (id : String) (v : α)
    (h : ∀ e ∈ m.entries, e.2 ≠ none) : ∀ e ∈ (m.insert id (some v)).entries, e.2 ≠ none := by
  intro e he
  rcases StdMap.mem_insert _ _ _ _ he with h1 | h1
  · rw [h1]
    simp
  · exact h e h1

end RenderingSystem

namespace RenderingSystem

theorem ingestTexture_found (r : RenderingSystem) (id texPath : String) (x : GG.Tex2D)
    (h2 : (scanPath GG.Tex2D.path texPath r.textures.entries none).2 = none)
    (h1 : (scanPath GG.Tex2D.path texPath r.textures.entries none).1 = some x) :
    r.ingestTexture id texPath =
      { state := { r with textures := r.textures.insert id (some x) }, fault := none } := by
  simp only [ingestTexture, h1, h2]

theorem ingestTexture_new (r : RenderingSystem) (id texPath : String)
    (h2 : (scanPath GG.Tex2D.path texPath r.textures.entries none).2 = none)
    (h1 : (scanPath GG.Tex2D.path texPath r.textures.entries none).1 = none) :
    r.ingestTexture id texPath =
      { state :=
          { r with
            textures := r.textures.insert id
              (some ((GG.Tex2D.Create texPath r.created).CreateSrv r.textureCount))
            textureCount := (r.textureCount + 1) % 2 ^ 32
            created := r.created + 1 }
        fault := none } := by
  simp only [ingestTexture, h1, h2]

theorem ingestTexture_packed (r : RenderingSystem) (S : Finset String) (id texPath : String)
    (hP : r.Packed S) (hid : r.textures.find id = none) (hcard : S.card + 1 < 2 ^ 32) :
    (r.ingestTexture id texPath).fault = none ∧
    (r.ingestTexture id texPath).state.Packed (insert texPath S) := by
  obtain ⟨h2, hcase⟩ := scanPath_spec GG.Tex2D.path texPath r.textures.entries none hP.texNoNull
  rcases hcase with ⟨h1, hnone⟩ | ⟨k, x, hmem, hpath, h1⟩
  · -- the path is new: a texture is constructed and gets slot `textureCount`
    rw [ingestTexture_new r id texPath h2 h1]
    have hnotin : texPath ∉ S := by
      intro hin
      obtain ⟨t, ⟨k, hk⟩, ht⟩ := (hP.paths texPath).mp hin
      exact hnone k t hk ht
    have hst : ∀ t, (∃ k, (k, some t) ∈ (r.textures.insert id
        (some ((GG.Tex2D.Create texPath r.created).CreateSrv r.textureCount))).entries) ↔
        t = (GG.Tex2D.Create texPath r.created).CreateSrv r.textureCount ∨ r.Stored t :=
      fun t => stored_insert r id _ t hid
    refine ⟨rfl, ?_⟩
    constructor
    · exact hP.geoNoNull
    · exact noNull_insert _ _ _ hP.texNoNull
    · intro p
      rw [Finset.mem_insert, hP.paths p]
      constructor
      · rintro (h | ⟨t, ht, hp⟩)
        · exact ⟨_, (hst _).mpr (Or.inl rfl), h.symm⟩
        · exact ⟨t, (hst t).mpr (Or.inr ht), hp⟩
      · rintro ⟨t, ht, hp⟩
        rcases (hst t).mp ht with h | h
        · left
          rw [← hp, h]
          rfl
        · exact Or.inr ⟨t, h, hp⟩
    · show (r.textureCount + 1) % 2 ^ 32 = (insert texPath S).card
      rw [Finset.card_insert_of_not_mem hnotin, hP.count]
      exact Nat.mod_eq_of_lt hcard
    · intro n
      show (∃ t, (∃ k, (k, some t) ∈ (r.textures.insert id
        (some ((GG.Tex2D.Create texPath r.created).CreateSrv r.textureCount))).entries) ∧
        t.index = n) ↔ n < (r.textureCount + 1) % 2 ^ 32
      have hmod : (r.textureCount + 1) % 2 ^ 32 = r.textureCount + 1 := by
        rw [hP.count]
        exact Nat.mod_eq_of_lt hcard
      rw [hmod]
      constructor
      · rintro ⟨t, ht, hn⟩
        rcases (hst t).mp ht with h | h
        · rw [← hn, h]
          show r.textureCount < r.textureCount + 1
          omega
        · have := (hP.slotRange n).mp ⟨t, h, hn⟩
          omega
      · intro hn
        by_cases hlt : n < r.textureCount
        · obtain ⟨t, ht, htn⟩ := (hP.slotRange n).mpr hlt
          exact ⟨t, (hst t).mpr (Or.inr ht), htn⟩
        · have hn1 : n = r.textureCount := by omega
          exact ⟨_, (hst _).mpr (Or.inl rfl), hn1.symm⟩
    · intro t1 t2 h1s h2s hp
      rcases (hst t1).mp h1s with e1 | e1 <;> rcases (hst t2).mp h2s with e2 | e2
      · rw [e1, e2]
      · exfalso
        obtain ⟨k2, hk2⟩ := e2
        apply hnone k2 t2 hk2
        rw [← hp, e1]
        rfl
      · exfalso
        obtain ⟨k1, hk1⟩ := e1
        apply hnone k1 t1 hk1
        rw [hp, e2]
        rfl
      · exact hP.shared t1 t2 e1 e2 hp
  · -- the path is stored already: the stored object is shared
    rw [ingestTexture_found r id texPath x h2 h1]
    have hin : texPath ∈ S := (hP.paths texPath).mpr ⟨x, ⟨k, hmem⟩, hpath⟩
    have hst : ∀ t, (∃ k, (k, some t) ∈ (r.textures.insert id (some x)).entries) ↔ r.Stored t := by
      intro t
      rw [stored_insert r id x t hid]
      constructor
      · rintro (h | h)
        · rw [h]
          exact ⟨k, hmem⟩
        · exact h
      · exact Or.inr
    rw [Finset.insert_eq_of_mem hin]
    refine ⟨rfl, ?_⟩
    constructor
    · exact hP.geoNoNull
    · exact noNull_insert _ _ _ hP.texNoNull
    · intro p
      rw [hP.paths p]
      constructor
      · rintro ⟨t, ht, hp⟩
        exact ⟨t, (hst t).mpr ht, hp⟩
      · rintro ⟨t, ht, hp⟩
        exact ⟨t, (hst t).mp ht, hp⟩
    · exact hP.count
    · intro n
      rw [← hP.slotRange n]
      constructor
      · rintro ⟨t, ht, hp⟩
        exact ⟨t, (hst t).mp ht, hp⟩
      · rintro ⟨t, ht, hp⟩
        exact ⟨t, (hst t).mpr ht, hp⟩
    · intro t1 t2 h1s h2s hp
      exact hP.shared t1 t2 ((hst t1).mp h1s) ((hst t2).mp h2s) hp

end RenderingSystem

namespace RenderingSystem

theorem ingestMesh_cases (r : RenderingSystem) (id meshPath : String)
    (hnn : ∀ e ∈ r.geometries.entries, e.2 ≠ none) :
    ∃ g created, r.ingestMesh id meshPath =
      { state := { r with geometries := r.geometries.insert id (some g), created := created }
        fault := none } ∧
      g.path = meshPath ∧
      ((∃ k, (k, some g) ∈ r.geometries.entries) ∨
        ((∀ k x, (k, some x) ∈ r.geometries.entries → x.path ≠ meshPath) ∧
          g = GG.Geometry.Create meshPath r.created ∧ created = r.created + 1)) := by
  obtain ⟨h2, hcase⟩ := scanPath_spec GG.Geometry.path meshPath r.geometries.entries none hnn
  rcases hcase with ⟨h1, hnone⟩ | ⟨k, x, hmem, hpath, h1⟩
  · refine ⟨GG.Geometry.Create meshPath r.created, r.created + 1, ?_, rfl,
      Or.inr ⟨hnone, rfl, rfl⟩⟩
    simp only [ingestMesh, h1, h2]
  · refine ⟨x, r.created, ?_, hpath, Or.inl ⟨k, hmem⟩⟩
    simp only [ingestMesh, h1, h2]

theorem ingestMesh_packed (r : RenderingSystem) (S : Finset String) (id meshPath : String)
    (hP : r.Packed S) :
    (r.ingestMesh id meshPath).fault = none ∧ (r.ingestMesh id meshPath).state.Packed S ∧
    (r.ingestMesh id meshPath).state.textures = r.textures := by
  obtain ⟨g, created, heq, _, _⟩ := ingestMesh_cases r id meshPath hP.geoNoNull
  rw [heq]
  exact ⟨rfl, ⟨noNull_insert _ _ _ hP.geoNoNull, hP.texNoNull, hP.paths, hP.count,
    hP.slotRange, hP.shared⟩, rfl⟩

theorem AddShadedMesh_eq (r : RenderingSystem) (id meshPath texPath : String)
    (h : (r.ingestMesh id meshPath).fault = none) :
    r.AddShadedMesh id meshPath texPath =
      (r.ingestMesh id meshPath).state.ingestTexture id texPath := by
  simp only [AddShadedMesh, h]

theorem find_ingestTexture_ne (r : RenderingSystem) (id texPath k : String) (hk : k ≠ id) :
    (r.ingestTexture id texPath).state.textures.find k = r.textures.find k := by
  unfold ingestTexture
  dsimp only
  split
  · rfl
  · split
    · exact StdMap.find_insert_ne _ _ _ _ hk
    · exact StdMap.find_insert_ne _ _ _ _ hk

theorem AddShadedMesh_packed (r : RenderingSystem) (S : Finset String)
    (id meshPath texPath : String) (hP : r.Packed S) (hid : r.textures.find id = none)
    (hcard : S.card + 1 < 2 ^ 32) :
    (r.AddShadedMesh id meshPath texPath).fault = none ∧
    (r.AddShadedMesh id meshPath texPath).state.Packed (insert texPath S) ∧
    ∀ k, k ≠ id → (r.AddShadedMesh id meshPath texPath).state.textures.find k
      = r.textures.find k := by
  obtain ⟨hf, hP1, htex⟩ := ingestMesh_packed r S id meshPath hP
  rw [AddShadedMesh_eq r id meshPath texPath hf]
  have hid1 : (r.ingestMesh id meshPath).state.textures.find id = none := by rw [htex]; exact hid
  obtain ⟨h1, h2⟩ := ingestTexture_packed _ S id texPath hP1 hid1 hcard
  refine ⟨h1, h2, ?_⟩
  intro k hk
  rw [find_ingestTexture_ne _ id texPath k hk, htex]

theorem addMeshes_packed (calls : List (String × String × String)) (r : RenderingSystem)
    (S : Finset String) (hP : r.Packed S) (hnodup : (calls.map (fun c => c.1)).Nodup)
    (hfresh : ∀ c ∈ calls, r.textures.find c.1 = none)
    (hcard : S.card + calls.length < 2 ^ 32) :
    (r.addMeshes calls).fault = none ∧
    (r.addMeshes calls).state.Packed (S ∪ (calls.map (fun c => c.2.2)).toFinset) := by
  induction calls generalizing r S with
  | nil =>
    refine ⟨rfl, ?_⟩
    rw [List.map_nil, List.toFinset_nil, Finset.union_empty]
    exact hP
  | cons c cs ih =>
    rw [List.length_cons] at hcard
    rw [List.map_cons, List.nodup_cons] at hnodup
    obtain ⟨hf, hP1, hkeep⟩ := AddShadedMesh_packed r S c.1 c.2.1 c.2.2 hP
      (hfresh c (List.mem_cons_self _ _)) (by omega)
    have hstep : r.addMeshes (c :: cs) = (r.AddShadedMesh c.1 c.2.1 c.2.2).state.addMeshes cs := by
      simp only [addMeshes, hf]
    have hfresh1 : ∀ d ∈ cs, (r.AddShadedMesh c.1 c.2.1 c.2.2).state.textures.find d.1 = none := by
      intro d hd
      have hne : d.1 ≠ c.1 := by
        intro e
        apply hnodup.1
        rw [← e]
        exact List.mem_map_of_mem (fun c => c.1) hd
      rw [hkeep d.1 hne]
      exact hfresh d (List.mem_cons_of_mem _ hd)
    have hcard1 : (insert c.2.2 S).card + cs.length < 2 ^ 32 := by
      have := Finset.card_insert_le c.2.2 S
      omega
    obtain ⟨h1, h2⟩ := ih _ (insert c.2.2 S) hP1 hnodup.2 hfresh1 hcard1
    rw [hstep]
    refine ⟨h1, ?_⟩
    have hset : S ∪ (List.map (fun c => c.2.2) (c :: cs)).toFinset =
        insert c.2.2 S ∪ (List.map (fun c => c.2.2) cs).toFinset := by
      rw [List.map_cons, List.toFinset_cons, Finset.union_insert, Finset.insert_union]
    rw [hset]
    exact h2

theorem packed_fresh : fresh.Packed ∅ := by
  constructor
  · intro e he; cases he
  · intro e he; cases he
  · intro p
    constructor
    · intro h; cases h
    · rintro ⟨t, ⟨k, hk⟩, _⟩
      cases hk
  · rfl
  · intro n
    constructor
    · rintro ⟨t, ⟨k, hk⟩, _⟩
      cases hk
    · intro h
      exact absurd h (Nat.not_lt_zero n)
  · rintro t1 t2 ⟨k, hk⟩
    cases hk

theorem mem_slots (r : RenderingSystem) (n : Nat) :
    n ∈ r.slots ↔ ∃ t, r.Stored t ∧ t.index = n := by
  unfold slots Stored StdMap.values
  simp only [List.mem_filterMap, List.mem_map]
  constructor
  · rintro ⟨o, ⟨e, he, heo⟩, hn⟩
    cases o with
    | none => simp at hn
    | some t =>
      refine ⟨t, ⟨e.1, ?_⟩, by simpa using hn⟩
      rw [← heo]
      exact he
  · rintro ⟨t, ⟨k, hk⟩, hn⟩
    exact ⟨some t, ⟨(k, some t), hk, rfl⟩, by simp [hn]⟩

end RenderingSystem

/-- C5 (as stated, refuted): after `AddShadedMesh("a", m, "t1")`, `AddShadedMesh("a", m, "t2")`,
`AddShadedMesh("b", m, "t2")` two distinct texture paths have been ingested, but the stored
textures hold the slots 0 and 2: the second call consumed slot 1 for a texture that was not
stored, and the third call loaded `t2` again. -/
theorem C5_slot_gap_on_repeated_id :
    ¬ RenderingSystem.SlotPacking [("a", "m", "t1"), ("a", "m", "t2"), ("b", "m", "t2")] := by
  intro h
  have h1 := (h 1).mpr (by decide)
  exact absurd h1 (by decide)

/-- C5 (amended): for `AddShadedMesh` calls with pairwise distinct ids on an empty renderer (fewer
than 2^32 of them), no call faults, the descriptor slots of the stored textures are exactly
`0 .. N - 1` for `N` the number of distinct texture paths ingested, `textureCount = N`, and two
stored textures with the same path are the same object (one slot per path, no path loaded
twice). -/
theorem C5_slot_packing_distinct_ids (calls : List (String × String × String))
    (hids : (calls.map (fun c => c.1)).Nodup) (hlen : calls.length < 2 ^ 32) :
    (RenderingSystem.fresh.addMeshes calls).fault = none ∧
    (∀ n, n ∈ (RenderingSystem.fresh.addMeshes calls).state.slots ↔
      n < ((calls.map (fun c => c.2.2)).dedup).length) ∧
    (RenderingSystem.fresh.addMeshes calls).state.textureCount
      = ((calls.map (fun c => c.2.2)).dedup).length ∧
    (∀ t1 t2, (RenderingSystem.fresh.addMeshes calls).state.Stored t1 →
      (RenderingSystem.fresh.addMeshes calls).state.Stored t2 → t1.path = t2.path → t1 = t2) := by
  obtain ⟨hf, hP⟩ := RenderingSystem.addMeshes_packed calls RenderingSystem.fresh ∅
    RenderingSystem.packed_fresh hids (fun _ _ => rfl) (by simpa using hlen)
  have hcount : (RenderingSystem.fresh.addMeshes calls).state.textureCount
      = ((calls.map (fun c => c.2.2)).dedup).length := by
    rw [hP.count, Finset.empty_union, List.card_toFinset]
  refine ⟨hf, ?_, hcount, hP.shared⟩
  intro n
  rw [RenderingSystem.mem_slots, hP.slotRange n, hcount]

/-- Witness of `C5_slot_packing_distinct_ids`: the first three meshes of the demo scene. -/
theorem C5_slot_packing_distinct_ids_witness :
    (RenderingSystem.fresh.addMeshes
      [("sphere", "sphere.fbx", "checkered.png"), ("sphere2", "sphere.fbx", "checkered.png"),
       ("plane", "plane.obj", "floor.png")]).state.textureCount = 2 :=
  (C5_slot_packing_distinct_ids
    [("sphere", "sphere.fbx", "checkered.png"), ("sphere2", "sphere.fbx", "checkered.png"),
     ("plane", "plane.obj", "floor.png")] (by decide) (by decide)).2.2.1

namespace StdMap

variable {α : Type}

theorem place_split (key : String) (v : α) (l : List (String × α)) :
    ∃ l1 l2, l = l1 ++ l2 ∧ place key v l = l1 ++ (key, v) :: l2 := by
  induction l with
  | nil => exact ⟨[], [], rfl, rfl⟩
  | cons d rest ih =>
    obtain ⟨k, w⟩ := d
    cases hlt : keyLt key k with
    | true => exact ⟨[], (k, w) :: rest, rfl, place_cons_lt key v k w rest hlt⟩
    | false =>
      obtain ⟨l1, l2, h1, h2⟩ := ih
      refine ⟨(k, w) :: l1, l2, by rw [h1]; rfl, ?_⟩
      rw [place_cons_ge key v k w rest hlt, h2]
      rfl

end StdMap

namespace RenderingSystem

theorem scanPath_or {α : Type} (pathOf : α → String) (path : String)
    (l : List (String × Option α)) (found : Option α) (hnn : ∀ e ∈ l, e.2 ≠ none) :
    (scanPath pathOf path l found).1 = ((scanPath pathOf path l none).1).or found := by
  induction l generalizing found with
  | nil => rfl
  | cons e rest ih =>
    obtain ⟨k, o⟩ := e
    cases o with
    | none => exact absurd rfl (hnn (k, none) (List.mem_cons_self _ _))
    | some x =>
      have hrest : ∀ e ∈ rest, e.2 ≠ none := fun e he => hnn e (List.mem_cons_of_mem _ he)
      simp only [scanPath]
      rw [ih _ hrest, ih (if pathOf x = path then some x else none) hrest]
      by_cases hx : pathOf x = path
      · simp only [hx, if_true]
        cases (scanPath pathOf path rest none).1 <;> rfl
      · simp only [hx, if_false]
        cases (scanPath pathOf path rest none).1 <;> rfl

theorem scanPath_append {α : Type} (pathOf : α → String) (path : String)
    (l1 l2 : List (String × Option α)) (found : Option α) (hnn : ∀ e ∈ l1, e.2 ≠ none) :
    (scanPath pathOf path (l1 ++ l2) found).1 =
      (scanPath pathOf path l2 (scanPath pathOf path l1 found).1).1 := by
  induction l1 generalizing found with
  | nil => rfl
  | cons e rest ih =>
    obtain ⟨k, o⟩ := e
    cases o with
    | none => exact absurd rfl (hnn (k, none) (List.mem_cons_self _ _))
    | some x =>
      simp only [List.cons_append, scanPath]
      exact ih _ (fun e he => hnn e (List.mem_cons_of_mem _ he))

/-- Scanning after the scan result itself has been stored under a new key finds the same
object again. -/
theorem scanPath_place {α : Type} (pathOf : α → String) (path : String)
    (l : List (String × Option α)) (hnn : ∀ e ∈ l, e.2 ≠ none) (id : String) (g : α)
    (hg : pathOf g = path)
    (hscan : (scanPath pathOf path l none).1 = some g ∨ (scanPath pathOf path l none).1 = none) :
    (scanPath pathOf path (StdMap.place id (some g) l) none).1 = some g := by
  obtain ⟨l1, l2, hl, hp⟩ := StdMap.place_split id (some g) l
  have hnn1 : ∀ e ∈ l1, e.2 ≠ none := fun e he => hnn e (by rw [hl]; exact List.mem_append_left _ he)
  have hnn2 : ∀ e ∈ l2, e.2 ≠ none :=
    fun e he => hnn e (by rw [hl]; exact List.mem_append_right _ he)
  rw [hp, scanPath_append pathOf path l1 _ none hnn1]
  simp only [scanPath, hg, if_true]
  rw [scanPath_or pathOf path l2 _ hnn2]
  rw [hl, scanPath_append pathOf path l1 l2 none hnn1, scanPath_or pathOf path l2 _ hnn2] at hscan
  cases h2 : (scanPath pathOf path l2 none).1 with
  | none => rfl
  | some x =>
    rw [h2] at hscan
    rcases hscan with h | h
    · simpa using h
    · simp at h

theorem ingestMesh_found (r : RenderingSystem) (id meshPath : String) (x : GG.Geometry)
    (h2 : (scanPath GG.Geometry.path meshPath r.geometries.entries none).2 = none)
    (h1 : (scanPath GG.Geometry.path meshPath r.geometries.entries none).1 = some x) :
    r.ingestMesh id meshPath =
      { state := { r with geometries := r.geometries.insert id (some x) }, fault := none } := by
  simp only [ingestMesh, h1, h2]

theorem ingestMesh_new (r : RenderingSystem) (id meshPath : String)
    (h2 : (scanPath GG.Geometry.path meshPath r.geometries.entries none).2 = none)
    (h1 : (scanPath GG.Geometry.path meshPath r.geometries.entries none).1 = none) :
    r.ingestMesh id meshPath =
      { state :=
          { r with
            geometries := r.geometries.insert id (some (GG.Geometry.Create meshPath r.created))
            created := r.created + 1 }
        fault := none } := by
  simp only [ingestMesh, h1, h2]

theorem ingestTexture_geometries (r : RenderingSystem) (id texPath : String)
    (htex : ∀ e ∈ r.textures.entries, e.2 ≠ none) :
    (r.ingestTexture id texPath).fault = none ∧
    (r.ingestTexture id texPath).state.geometries = r.geometries ∧
    (∀ e ∈ (r.ingestTexture id texPath).state.textures.entries, e.2 ≠ none) := by
  obtain ⟨h2, hcase⟩ := scanPath_spec GG.Tex2D.path texPath r.textures.entries none htex
  rcases hcase with ⟨h1, _⟩ | ⟨k, x, _, _, h1⟩
  · rw [ingestTexture_new r id texPath h2 h1]
    exact ⟨rfl, rfl, noNull_insert _ _ _ htex⟩
  · rw [ingestTexture_found r id texPath x h2 h1]
    exact ⟨rfl, rfl, noNull_insert _ _ _ htex⟩

/-- One `AddShadedMesh` call on a state without null entries and with `id` not yet a key of the
mesh map: the object `g` it stores under `id` is the one a further scan for `meshPath` finds. -/
theorem AddShadedMesh_stores (r : RenderingSystem) (id meshPath texPath : String)
    (hgeo : ∀ e ∈ r.geometries.entries, e.2 ≠ none)
    (htex : ∀ e ∈ r.textures.entries, e.2 ≠ none) (hid : r.geometries.find id = none) :
    (r.AddShadedMesh id meshPath texPath).fault = none ∧
    (∀ e ∈ (r.AddShadedMesh id meshPath texPath).state.geometries.entries, e.2 ≠ none) ∧
    (∀ e ∈ (r.AddShadedMesh id meshPath texPath).state.textures.entries, e.2 ≠ none) ∧
    ∃ g, g.path = meshPath ∧
      (r.AddShadedMesh id meshPath texPath).state.geometries = r.geometries.insert id (some g) ∧
      (scanPath GG.Geometry.path meshPath
        (r.AddShadedMesh id meshPath texPath).state.geometries.entries none).1 = some g := by
  obtain ⟨h2, hcase⟩ := scanPath_spec GG.Geometry.path meshPath r.geometries.entries none hgeo
  have hins : ∀ g : GG.Geometry, (r.geometries.insert id (some g)).entries =
      StdMap.place id (some g) r.geometries.entries := by
    intro g
    simp [StdMap.insert, hid]
  rcases hcase with ⟨h1, _⟩ | ⟨k, x, _, hpath, h1⟩
  · have hm := ingestMesh_new r id meshPath h2 h1
    have hf : (r.ingestMesh id meshPath).fault = none := by rw [hm]
    rw [AddShadedMesh_eq r id meshPath texPath hf, hm]
    obtain ⟨t1, t2, t3⟩ := ingestTexture_geometries
      { r with
        geometries := r.geometries.insert id (some (GG.Geometry.Create meshPath r.created))
        created := r.created + 1 } id texPath htex
    refine ⟨t1, ?_, t3, GG.Geometry.Create meshPath r.created, rfl, t2, ?_⟩
    · rw [t2]
      exact noNull_insert _ _ _ hgeo
    · rw [t2]
      show (scanPath GG.Geometry.path meshPath
        (r.geometries.insert id (some (GG.Geometry.Create meshPath r.created))).entries none).1 = _
      rw [hins]
      exact scanPath_place _ _ _ hgeo id _ rfl (Or.inr h1)
  · have hm := ingestMesh_found r id meshPath x h2 h1
    have hf : (r.ingestMesh id meshPath).fault = none := by rw [hm]
    rw [AddShadedMesh_eq r id meshPath texPath hf, hm]
    obtain ⟨t1, t2, t3⟩ := ingestTexture_geometries
      { r with geometries := r.geometries.insert id (some x) } id texPath htex
    refine ⟨t1, ?_, t3, x, hpath, t2, ?_⟩
    · rw [t2]
      exact noNull_insert _ _ _ hgeo
    · rw [t2]
      show (scanPath GG.Geometry.path meshPath (r.geometries.insert id (some x)).entries none).1 = _
      rw [hins]
      exact scanPath_place _ _ _ hgeo id _ hpath (Or.inl h1)

/-- One `AddShadedMesh` call when a scan for `meshPath` finds `g`: `g` is what gets stored. -/
theorem AddShadedMesh_reuses (r : RenderingSystem) (id meshPath texPath : String)
    (g : GG.Geometry) (hgeo : ∀ e ∈ r.geometries.entries, e.2 ≠ none)
    (htex : ∀ e ∈ r.textures.entries, e.2 ≠ none)
    (hscan : (scanPath GG.Geometry.path meshPath r.geometries.entries none).1 = some g) :
    (r.AddShadedMesh id meshPath texPath).fault = none ∧
    (r.AddShadedMesh id meshPath texPath).state.geometries = r.geometries.insert id (some g) ∧
    (r.ingestMesh id meshPath).state.created = r.created := by
  obtain ⟨h2, _⟩ := scanPath_spec GG.Geometry.path meshPath r.geometries.entries none hgeo
  have hm := ingestMesh_found r id meshPath g h2 hscan
  have hf : (r.ingestMesh id meshPath).fault = none := by rw [hm]
  rw [AddShadedMesh_eq r id meshPath texPath hf, hm]
  obtain ⟨t1, t2, _⟩ := ingestTexture_geometries
    { r with geometries := r.geometries.insert id (some g) } id texPath htex
  exact ⟨t1, t2, rfl⟩

end RenderingSystem

/-- C6 (as stated, refuted): in the state reached by `AddShadedMesh("a", "m0", "t")`, the calls
`AddShadedMesh("a", "mp", "t")` and `AddShadedMesh("b", "mp", "t")` leave different mesh objects
under `a` (still the `m0` mesh: the insert under the taken id has no effect) and under `b`. -/
theorem C6_not_shared_when_id_taken :
    (((RenderingSystem.fresh.AddShadedMesh "a" "m0" "t").state.AddShadedMesh "a" "mp"
        "t").state.AddShadedMesh "b" "mp" "t").state.geometries.find "a" ≠
    (((RenderingSystem.fresh.AddShadedMesh "a" "m0" "t").state.AddShadedMesh "a" "mp"
        "t").state.AddShadedMesh "b" "mp" "t").state.geometries.find "b" := by
  decide

/-- C6 (amended): in every renderer state without null entries, for ids `id1`, `id2` that are not
yet keys of the mesh map, `AddShadedMesh(id1, mp, tp1)` followed by `AddShadedMesh(id2, mp, tp2)`
runs without fault and stores one and the same mesh object, of path `mp`, under `id1` and `id2`;
the second call constructs no mesh. -/
theorem C6_mesh_shared_for_new_ids (r : RenderingSystem) (id1 id2 mp tp1 tp2 : String)
    (hgeo : ∀ e ∈ r.geometries.entries, e.2 ≠ none)
    (htex : ∀ e ∈ r.textures.entries, e.2 ≠ none)
    (h1 : r.geometries.find id1 = none) (h2 : r.geometries.find id2 = none) :
    (r.AddShadedMesh id1 mp tp1).fault = none ∧
    ((r.AddShadedMesh id1 mp tp1).state.AddShadedMesh id2 mp tp2).fault = none ∧
    (∃ g, g.path = mp ∧
      ((r.AddShadedMesh id1 mp tp1).state.AddShadedMesh id2 mp tp2).state.geometries.find id1
        = some (some g) ∧
      ((r.AddShadedMesh id1 mp tp1).state.AddShadedMesh id2 mp tp2).state.geometries.find id2
        = some (some g)) ∧
    ((r.AddShadedMesh id1 mp tp1).state.ingestMesh id2 mp).state.created
      = (r.AddShadedMesh id1 mp tp1).state.created := by
  obtain ⟨hf1, hgeo1, htex1, g, hg, hmap1, hscan1⟩ :=
    RenderingSystem.AddShadedMesh_stores r id1 mp tp1 hgeo htex h1
  obtain ⟨hf2, hmap2, hcreated⟩ :=
    RenderingSystem.AddShadedMesh_reuses (r.AddShadedMesh id1 mp tp1).state id2 mp tp2 g hgeo1
      htex1 hscan1
  have hfind1 : (r.AddShadedMesh id1 mp tp1).state.geometries.find id1 = some (some g) := by
    rw [hmap1]
    exact StdMap.find_insert_absent _ _ _ h1
  refine ⟨hf1, hf2, ⟨g, hg, ?_, ?_⟩, hcreated⟩
  · rw [hmap2]
    exact StdMap.find_insert_of_find _ _ _ _ _ hfind1
  · rw [hmap2]
    by_cases hid : id2 = id1
    · rw [hid]
      exact StdMap.find_insert_of_find _ _ _ _ _ hfind1
    · apply StdMap.find_insert_absent
      rw [hmap1, StdMap.find_insert_ne _ _ _ _ hid]
      exact h2

/-- Witness of `C6_mesh_shared_for_new_ids`: the two spheres of the demo scene. -/
theorem C6_mesh_shared_for_new_ids_witness :
    ∃ g : GG.Geometry, g.path = "sphere.fbx" ∧
      ((RenderingSystem.fresh.AddShadedMesh "sphere" "sphere.fbx" "checkered.png").state.AddShadedMesh
        "sphere2" "sphere.fbx" "checkered.png").state.geometries.find "sphere" = some (some g) ∧
      ((RenderingSystem.fresh.AddShadedMesh "sphere" "sphere.fbx" "checkered.png").state.AddShadedMesh
        "sphere2" "sphere.fbx" "checkered.png").state.geometries.find "sphere2" = some (some g) :=
  (C6_mesh_shared_for_new_ids RenderingSystem.fresh "sphere" "sphere2" "sphere.fbx"
    "checkered.png" "checkered.png" (by intro e he; cases he) (by intro e he; cases he)
    rfl rfl).2.2.1

/-! ## `RenderingSystem.Update`: the light array -/

namespace PxSystem

theorem GetRigidBody_present (s : PxSystem) (id : String) (v : Option GG.RigidBody)
    (h : s.rigidBodies.find id = some v) : s.GetRigidBody id = (s, v) := by
  unfold GetRigidBody StdMap.subscript
  rw [h]

theorem find_addAll_of_mem (cs : List AddCall) (s : PxSystem) (id : String)
    (hnn : ∀ e ∈ s.rigidBodies.entries, e.2 ≠ none) (h : id ∈ cs.map AddCall.id) :
    ∃ rb, (s.addAll cs).rigidBodies.find id = some (some rb) := by
  induction cs generalizing s with
  | nil => simp at h
  | cons c cs ih =>
    rw [List.map_cons, List.mem_cons] at h
    by_cases hc : id = c.id
    · have hfind : ∃ rb, (s.add c).rigidBodies.find id = some (some rb) := by
        rw [hc, rigidBodies_add]
        cases hf : s.rigidBodies.find c.id with
        | none => exact ⟨_, StdMap.find_insert_absent _ _ _ hf⟩
        | some o =>
          cases o with
          | none => exact absurd rfl (hnn _ (StdMap.findIn_mem _ _ _ hf))
          | some rb => exact ⟨rb, StdMap.find_insert_of_find _ _ _ _ _ hf⟩
      obtain ⟨rb, hrb⟩ := hfind
      have hi : (s.add c).indexOf id = some rb.index := (indexOf_eq_some _ _ _).mpr ⟨rb, hrb, rfl⟩
      obtain ⟨rb1, h1, _⟩ := (indexOf_eq_some _ _ _).mp (indexOf_addAll cs _ _ _ hi)
      exact ⟨rb1, h1⟩
    · rcases h with h | h
      · exact absurd h hc
      · exact ih (s.add c) (noNull_add s c hnn) h

end PxSystem

namespace RenderingSystem

theorem writeLights_spec (l : List (String × Float3)) (p : PxSystem)
    (lights : Int → Option Light) (i : Int)
    (H : ∀ e ∈ l, ∃ rb, p.rigidBodies.find e.1 = some (some rb)) :
    (writeLights l p lights i).1 = p ∧
    (writeLights l p lights i).2.2.2 = none ∧
    (writeLights l p lights i).2.2.1 = i + (l.length : Int) ∧
    (∀ j, j < i → (writeLights l p lights i).2.1 j = lights j) ∧
    (∀ (n : Nat) (e : String × Float3), l.get? n = some e →
      ∃ rb, p.rigidBodies.find e.1 = some (some rb) ∧
        (writeLights l p lights i).2.1 (i + (n : Int))
          = some { position := ⟨rb.GetPosition, 1⟩, color := ⟨e.2, 1⟩ }) := by
  induction l generalizing lights i with
  | nil =>
    refine ⟨rfl, rfl, by simp [writeLights], fun j _ => rfl, ?_⟩
    intro n e h
    simp at h
  | cons d rest ih =>
    obtain ⟨id, light⟩ := d
    obtain ⟨rb, hrb⟩ := H (id, light) (List.mem_cons_self _ _)
    have hget := PxSystem.GetRigidBody_present p id (some rb) hrb
    have hstep : writeLights ((id, light) :: rest) p lights i =
        writeLights rest p (Function.update lights i
          (some { position := ⟨rb.GetPosition, 1⟩, color := ⟨light, 1⟩ })) (i + 1) := by
      simp only [writeLights, hget]
    rw [hstep]
    obtain ⟨h1, h2, h3, h4, h5⟩ := ih (Function.update lights i
      (some { position := ⟨rb.GetPosition, 1⟩, color := ⟨light, 1⟩ })) (i + 1)
      (fun e he => H e (List.mem_cons_of_mem _ he))
    refine ⟨h1, h2, ?_, ?_, ?_⟩
    · rw [h3, List.length_cons]
      push_cast
      ring
    · intro j hj
      rw [h4 j (by omega), Function.update_noteq (by omega)]
    · intro n e hn
      cases n with
      | zero =>
        simp only [List.get?_cons_zero, Option.some.injEq] at hn
        subst hn
        refine ⟨rb, hrb, ?_⟩
        rw [Nat.cast_zero, add_zero, h4 i (by omega), Function.update_same]
      | succ m =>
        simp only [List.get?_cons_succ] at hn
        obtain ⟨rb1, hr1, hw⟩ := h5 m e hn
        refine ⟨rb1, hr1, ?_⟩
        have he : i + ((m + 1 : Nat) : Int) = i + 1 + (m : Int) := by
          push_cast
          ring
        rw [he]
        exact hw

/-- `Update` when every light has a body: no fault, `nrLights` is the number of lights (no cap),
and entry `n` of the light array is written from the `n`-th light in ascending id order. -/
theorem Update_lights (ext : Collaborators) (r : RenderingSystem) (p : PxSystem) (dt : PxReal)
    (H : ∀ e ∈ r.lights.entries, ∃ rb, p.rigidBodies.find e.1 = some (some rb)) :
    (r.Update ext p dt).fault = none ∧
    (r.Update ext p dt).state.1.perFrameCb.nrLights = (r.lights.entries.length : Int) ∧
    (∀ (n : Nat) (e : String × Float3), r.lights.entries.get? n = some e →
      ∃ rb, p.rigidBodies.find e.1 = some (some rb) ∧
        (r.Update ext p dt).state.1.perFrameCb.lights (n : Int)
          = some { position := ⟨rb.GetPosition, 1⟩, color := ⟨e.2, 1⟩ }) := by
  obtain ⟨_, h2, h3, _, h5⟩ := writeLights_spec r.lights.entries p r.perFrameCb.lights 0 H
  unfold Update
  dsimp only
  rw [h2]
  dsimp only
  refine ⟨rfl, ?_, ?_⟩
  · rw [h3, zero_add]
  · intro n e hn
    obtain ⟨rb, hr, hw⟩ := h5 n e hn
    rw [zero_add] at hw
    exact ⟨rb, hr, hw⟩

theorem mem_addLights (ls : List (String × Float3)) (r : RenderingSystem) (e : String × Float3)
    (h : e ∈ (r.addLights ls).lights.entries) : e ∈ ls ∨ e ∈ r.lights.entries := by
  induction ls generalizing r with
  | nil => exact Or.inr h
  | cons c cs ih =>
    rcases ih (r.AddLight c.1 c.2) h with h1 | h1
    · exact Or.inl (List.mem_cons_of_mem _ h1)
    · rcases StdMap.mem_insert _ _ _ _ h1 with h2 | h2
      · left
        rw [h2]
        exact List.mem_cons_self _ _
      · exact Or.inr h2

theorem lights_have_bodies (ls : List (String × Float3)) :
    ∀ e ∈ (fresh.addLights ls).lights.entries,
      ∃ rb, (PxSystem.fresh.addAll (lightBodies ls)).rigidBodies.find e.1 = some (some rb) := by
  intro e he
  rcases mem_addLights ls fresh e he with h | h
  · apply PxSystem.find_addAll_of_mem _ _ _ (by intro e he; cases he)
    simp only [lightBodies, List.map_map, List.mem_map]
    exact ⟨e, h, rfl⟩
  · cases h

end RenderingSystem

/-! ## `MyApp.WaitForPreviousFrame`: the fence -/

namespace MyApp

theorem gpuRunUntil_reaches (fv : Nat) (q : List QueueItem) (c : Nat) (hc : c < fv)
    (hq : ∀ v, QueueItem.signal v ∈ q → v < fv) :
    gpuRunUntil fv (q ++ [QueueItem.signal fv]) c = some ([], fv) := by
  induction q generalizing c with
  | nil =>
    have h1 : ¬ fv ≤ c := by omega
    simp [gpuRunUntil, h1, QueueItem.retire]
  | cons item rest ih =>
    have h1 : ¬ fv ≤ c := by omega
    simp only [List.cons_append, gpuRunUntil, h1, if_false]
    apply ih
    · cases item with
      | executeCommandLists cl => exact hc
      | signal v => exact hq v (List.mem_cons_self _ _)
    · intro v hv
      exact hq v (List.mem_cons_of_mem _ hv)

theorem gpuRetire_before_signal (fv : Nat) (n : Nat) (q : List QueueItem) (c : Nat)
    (hc : c < fv) (hq : ∀ v, QueueItem.signal v ∈ q → v < fv) :
    (∃ q1 c1, gpuRetire n (q ++ [QueueItem.signal fv]) c = (q1 ++ [QueueItem.signal fv], c1) ∧
      c1 < fv ∧ ∀ v, QueueItem.signal v ∈ q1 → v < fv) ∨
    gpuRetire n (q ++ [QueueItem.signal fv]) c = ([], fv) := by
  induction n generalizing q c with
  | zero => exact Or.inl ⟨q, c, rfl, hc, hq⟩
  | succ n ih =>
    cases q with
    | nil =>
      right
      cases n <;> rfl
    | cons item rest =>
      simp only [List.cons_append, gpuRetire]
      apply ih
      · cases item with
        | executeCommandLists cl => exact hc
        | signal v => exact hq v (List.mem_cons_self _ _)
      · intro v hv
        exact hq v (List.mem_cons_of_mem _ hv)

theorem syncInv_createSync : initial.createSync.SyncInv :=
  ⟨by decide, rfl, by decide, by intro v hv; cases hv⟩

theorem syncInv_ExecuteCommandLists (app : MyApp) (h : app.SyncInv) :
    app.ExecuteCommandLists.SyncInv := by
  refine ⟨h.positive, h.history, h.behind, ?_⟩
  intro v hv
  rcases List.mem_append.mp hv with h1 | h1
  · exact h.pending v h1
  · simp at h1

/-- One `WaitForPreviousFrame` call entered with the sync invariant and `fenceValue` below the
largest `UINT64`. -/
theorem WaitForPreviousFrame_spec (app : MyApp) (early backBuffer : Nat) (h : app.SyncInv)
    (hmax : app.fenceValue + 1 < 2 ^ 64) :
    (app.WaitForPreviousFrame early backBuffer).fault = none ∧
    (app.WaitForPreviousFrame early backBuffer).state.signalled
      = app.signalled ++ [app.fenceValue] ∧
    (app.WaitForPreviousFrame early backBuffer).state.fenceValue = app.fenceValue + 1 ∧
    (app.WaitForPreviousFrame early backBuffer).state.completed = app.fenceValue ∧
    (app.WaitForPreviousFrame early backBuffer).state.queue = [] ∧
    (app.WaitForPreviousFrame early backBuffer).state.SyncInv := by
  have hmod : (app.fenceValue + 1) % 2 ^ 64 = app.fenceValue + 1 := Nat.mod_eq_of_lt hmax
  have hhist : app.signalled ++ [app.fenceValue] = List.range' 1 (app.fenceValue + 1 - 1) := by
    have hp := h.positive
    have h1 : app.fenceValue + 1 - 1 = (app.fenceValue - 1) + 1 := by omega
    rw [h1, List.range'_concat, h.history]
    congr 2
    omega
  rcases gpuRetire_before_signal app.fenceValue early app.queue app.completed h.behind h.pending
    with ⟨q1, c1, hg, hc1, hq1⟩ | hg
  · have hrun := gpuRunUntil_reaches app.fenceValue q1 c1 hc1 hq1
    have heq : app.WaitForPreviousFrame early backBuffer =
        { state := { app with queue := [], signalled := app.signalled ++ [app.fenceValue]
                              fenceValue := app.fenceValue + 1, completed := app.fenceValue
                              frameIndex := backBuffer }
          fault := none } := by
      simp only [WaitForPreviousFrame, hg, hc1, if_true, hrun, hmod]
    rw [heq]
    exact ⟨rfl, rfl, rfl, rfl, rfl,
      ⟨Nat.le_add_left 1 _, hhist, Nat.lt_succ_self _, by intro v hv; cases hv⟩⟩
  · have hnot : ¬ app.fenceValue < app.fenceValue := Nat.lt_irrefl _
    have heq : app.WaitForPreviousFrame early backBuffer =
        { state := { app with queue := [], signalled := app.signalled ++ [app.fenceValue]
                              fenceValue := app.fenceValue + 1, completed := app.fenceValue
                              frameIndex := backBuffer }
          fault := none } := by
      simp only [WaitForPreviousFrame, hg, hnot, if_false, hmod]
    rw [heq]
    exact ⟨rfl, rfl, rfl, rfl, rfl,
      ⟨Nat.le_add_left 1 _, hhist, Nat.lt_succ_self _, by intro v hv; cases hv⟩⟩

end MyApp

/-- C9: the sync invariant (the values signalled so far are `1, 2, ..., fenceValue - 1`, the
fence is behind `fenceValue`, every pending signal is below `fenceValue`) holds when
`CreateResources` has set up the fence, and submitting a command list keeps it.  Every
`WaitForPreviousFrame` call entered with it and with `fenceValue = V` below the largest `UINT64`,
whatever the progress the GPU has made, returns (the wait is not blocked), has signalled exactly
`V`, has incremented `fenceValue` to `V + 1`, returns with the completed value of the fence equal
to `V`, so not before its signal was retired, with nothing left in the queue (no frame in
flight), and keeps the invariant. -/
theorem C9_wait_signals_and_waits :
    MyApp.initial.createSync.SyncInv ∧
    (∀ app : MyApp, app.SyncInv → app.ExecuteCommandLists.SyncInv) ∧
    (∀ (app : MyApp) (early backBuffer : Nat), app.SyncInv → app.fenceValue + 1 < 2 ^ 64 →
      (app.WaitForPreviousFrame early backBuffer).fault = none ∧
      (app.WaitForPreviousFrame early backBuffer).state.signalled
        = app.signalled ++ [app.fenceValue] ∧
      (app.WaitForPreviousFrame early backBuffer).state.fenceValue = app.fenceValue + 1 ∧
      app.fenceValue ≤ (app.WaitForPreviousFrame early backBuffer).state.completed ∧
      (app.WaitForPreviousFrame early backBuffer).state.queue = [] ∧
      (app.WaitForPreviousFrame early backBuffer).state.signalled
        = List.range' 1 app.fenceValue ∧
      (app.WaitForPreviousFrame early backBuffer).state.SyncInv) := by
  refine ⟨MyApp.syncInv_createSync, MyApp.syncInv_ExecuteCommandLists, ?_⟩
  intro app early backBuffer h hmax
  obtain ⟨h1, h2, h3, h4, h5, h6⟩ := MyApp.WaitForPreviousFrame_spec app early backBuffer h hmax
  refine ⟨h1, h2, h3, by rw [h4], h5, ?_, h6⟩
  have hh := h6.history
  rw [h3] at hh
  simpa using hh

/-- Witness of `C9_wait_signals_and_waits`: the first wait, in `CreateResources`, with a command
list submitted before it and the GPU not having started. -/
theorem C9_wait_signals_and_waits_witness :
    (MyApp.initial.createSync.ExecuteCommandLists.WaitForPreviousFrame 0 0).state.signalled = [1] :=
  (C9_wait_signals_and_waits.2.2 MyApp.initial.createSync.ExecuteCommandLists 0 0
    (C9_wait_signals_and_waits.2.1 _ C9_wait_signals_and_waits.1) (by decide)).2.2.2.2.2.1

/-! ## Scenes built from calls with pairwise distinct ids -/

theorem nodup_of_codes (ids : List String) (h : (ids.map keyCode).Nodup) : ids.Nodup :=
  List.Nodup.of_map keyCode h

theorem modifyAt_append_length {α : Type} (f : α → α) (l : List α) (a : α) :
    modifyAt f l.length (l ++ [a]) = l ++ [f a] := by
  induction l with
  | nil => rfl
  | cons b rest ih =>
    exact congrArg (fun t => b :: t) ih

namespace StdMap

variable {α : Type}

theorem length_place (key : String) (v : α) (l : List (String × α)) :
    (place key v l).length = l.length + 1 := by
  obtain ⟨l1, l2, h1, h2⟩ := place_split key v l
  rw [h2, h1]
  simp only [List.length_append, List.length_cons]
  omega

theorem length_insert_absent (m : StdMap α) (key : String) (v : α) (h : m.find key = none) :
    (m.insert key v).entries.length = m.entries.length + 1 := by
  have h1 : m.insert key v = ⟨place key v m.entries⟩ := by simp [insert, h]
  rw [h1]
  exact length_place key v m.entries

theorem find_of_insert_ne_none (m : StdMap α) (key k : String) (v : α)
    (h : (m.insert key v).find k ≠ none) : m.find k ≠ none ∨ k = key := by
  by_cases hk : k = key
  · exact Or.inr hk
  · rw [find_insert_ne m key k v hk] at h
    exact Or.inl h

end StdMap

namespace PxSystem

theorem actors_add (s : PxSystem) (c : AddCall) :
    (s.add c).gScene.actors = s.gScene.actors ++ [c.actor] := by
  show modifyAt _ s.gScene.actors.length (s.gScene.actors ++ [_]) = _
  rw [modifyAt_append_length]
  rfl

theorem actors_addAll (cs : List AddCall) (s : PxSystem) :
    (s.addAll cs).gScene.actors = s.gScene.actors ++ cs.map AddCall.actor := by
  induction cs generalizing s with
  | nil => simp [addAll]
  | cons c cs ih =>
    rw [addAll, ih, actors_add]
    simp

theorem find_addAll_of_find (cs : List AddCall) (s : PxSystem) (k : String)
    (v : Option GG.RigidBody) (h : s.rigidBodies.find k = some v) :
    (s.addAll cs).rigidBodies.find k = some v := by
  induction cs generalizing s with
  | nil => exact h
  | cons c cs ih =>
    apply ih (s.add c)
    rw [rigidBodies_add]
    exact StdMap.find_insert_of_find _ _ _ _ _ h

theorem find_addAll_ne_none (cs : List AddCall) (s : PxSystem) (k : String)
    (h : (s.addAll cs).rigidBodies.find k ≠ none) :
    s.rigidBodies.find k ≠ none ∨ k ∈ cs.map AddCall.id := by
  by_cases hk : k ∈ cs.map AddCall.id
  · exact Or.inr hk
  · rw [find_addAll_of_not_mem cs s k hk] at h
    exact Or.inl h

/-- The body stored by call number `n` of calls with pairwise distinct, unused ids: its index is
the counter and its actor handle the number of actors at the time of the call. -/
theorem find_addAll_nodup (cs : List AddCall) (s : PxSystem)
    (hnodup : (cs.map AddCall.id).Nodup) (hfresh : ∀ c ∈ cs, s.rigidBodies.find c.id = none)
    (n : Nat) (hn : n < cs.length) :
    (s.addAll cs).rigidBodies.find (cs.get ⟨n, hn⟩).id =
      some (some { modelMatrix := Float4x4.unset, position := ⟨0, 0, 0⟩
                   index := toInt32 (s.objectCount + n)
                   actor := s.gScene.actors.length + n }) := by
  induction cs generalizing s n with
  | nil => simp at hn
  | cons c cs ih =>
    rw [List.map_cons, List.nodup_cons] at hnodup
    cases n with
    | zero =>
      apply find_addAll_of_find cs (s.add c)
      rw [rigidBodies_add]
      exact StdMap.find_insert_absent _ _ _ (hfresh c (List.mem_cons_self _ _))
    | succ m =>
      have hm : m < cs.length := by simpa using hn
      have hfresh1 : ∀ d ∈ cs, (s.add c).rigidBodies.find d.id = none := by
        intro d hd
        have hne : d.id ≠ c.id := by
          intro e
          apply hnodup.1
          rw [← e]
          exact List.mem_map_of_mem AddCall.id hd
        rw [rigidBodies_add, StdMap.find_insert_ne _ _ _ _ hne]
        exact hfresh d (List.mem_cons_of_mem _ hd)
      have h := ih (s.add c) hnodup.2 hfresh1 m hm
      have hidx : toInt32 ((s.add c).objectCount + m) = toInt32 (s.objectCount + (m + 1)) := by
        rw [objectCount_add]
        unfold toInt32
        have e : ((s.objectCount + 1) % 2 ^ 32 + m) % 2 ^ 32 = (s.objectCount + (m + 1)) % 2 ^ 32 := by
          omega
        rw [e]
      have hact : (s.add c).gScene.actors.length + m = s.gScene.actors.length + (m + 1) := by
        rw [actors_add, List.length_append, List.length_singleton]
        omega
      rw [hidx, hact] at h
      exact h

/-- After calls with pairwise distinct ids on a fresh system, every call has its body under its
id, and the actor of that body is the one the call created. -/
theorem actor_of_call (cs : List AddCall) (hnodup : (cs.map AddCall.id).Nodup)
    (c : AddCall) (hc : c ∈ cs) :
    ∃ rb, (fresh.addAll cs).rigidBodies.find c.id = some (some rb) ∧
      (fresh.addAll cs).gScene.actors.get? rb.actor = some c.actor := by
  obtain ⟨⟨n, hn⟩, hget⟩ := List.mem_iff_get.mp hc
  have h := find_addAll_nodup cs fresh hnodup (fun _ _ => rfl) n hn
  rw [hget] at h
  refine ⟨_, h, ?_⟩
  rw [actors_addAll]
  show ([] ++ cs.map AddCall.actor).get? (0 + n) = some c.actor
  rw [List.nil_append, Nat.zero_add, List.get?_eq_get (by simpa using hn)]
  simp only [List.get_eq_getElem, List.getElem_map, Option.some.injEq]
  rw [← hget]
  rfl

end PxSystem

namespace RenderingSystem

/-- One `AddShadedMesh` call on a state without null entries: no fault, and both maps get an
`insert` under `id` of an object with the requested path. -/
theorem AddShadedMesh_maps (r : RenderingSystem) (id meshPath texPath : String)
    (hgeo : ∀ e ∈ r.geometries.entries, e.2 ≠ none)
    (htex : ∀ e ∈ r.textures.entries, e.2 ≠ none) :
    (r.AddShadedMesh id meshPath texPath).fault = none ∧
    (∀ e ∈ (r.AddShadedMesh id meshPath texPath).state.geometries.entries, e.2 ≠ none) ∧
    (∀ e ∈ (r.AddShadedMesh id meshPath texPath).state.textures.entries, e.2 ≠ none) ∧
    (r.AddShadedMesh id meshPath texPath).state.lights = r.lights ∧
    ∃ g, g.path = meshPath ∧
      (r.AddShadedMesh id meshPath texPath).state.geometries
        = r.geometries.insert id (some g) := by
  obtain ⟨g, created, heq, hg, _⟩ := ingestMesh_cases r id meshPath hgeo
  have hf : (r.ingestMesh id meshPath).fault = none := by rw [heq]
  rw [AddShadedMesh_eq r id meshPath texPath hf, heq]
  obtain ⟨t1, t2, t3⟩ := ingestTexture_geometries
    { r with geometries := r.geometries.insert id (some g), created := created } id texPath htex
  refine ⟨t1, ?_, t3, ?_, g, hg, t2⟩
  · rw [t2]
    exact noNull_insert _ _ _ hgeo
  · unfold ingestTexture
    dsimp only
    split
    · rfl
    · split <;> rfl

theorem length_addLights (ls : List (String × Float3)) (r : RenderingSystem)
    (hnodup : (ls.map Prod.fst).Nodup) (hfresh : ∀ l ∈ ls, r.lights.find l.1 = none) :
    (r.addLights ls).lights.entries.length = r.lights.entries.length + ls.length := by
  induction ls generalizing r with
  | nil => rfl
  | cons l ls ih =>
    rw [List.map_cons, List.nodup_cons] at hnodup
    have hfresh1 : ∀ d ∈ ls, (r.AddLight l.1 l.2).lights.find d.1 = none := by
      intro d hd
      have hne : d.1 ≠ l.1 := by
        intro e
        apply hnodup.1
        rw [← e]
        exact List.mem_map_of_mem Prod.fst hd
      show (r.lights.insert l.1 l.2).find d.1 = none
      rw [StdMap.find_insert_ne _ _ _ _ hne]
      exact hfresh d (List.mem_cons_of_mem _ hd)
    rw [addLights, ih _ hnodup.2 hfresh1]
    show (r.lights.insert l.1 l.2).entries.length + ls.length = _
    rw [StdMap.length_insert_absent _ _ _ (hfresh l (List.mem_cons_self _ _)), List.length_cons]
    omega

end RenderingSystem

namespace Systems

theorem run_cons (w : Systems) (c : SceneCall) (cs : List SceneCall)
    (h : (w.step c).fault = none) : w.run (c :: cs) = (w.step c).state.run cs := by
  simp only [run, h]

/-- One scene step on systems without null entries in the asset maps. -/
theorem step_spec (w : Systems) (c : SceneCall)
    (hgeo : ∀ e ∈ w.1.geometries.entries, e.2 ≠ none)
    (htex : ∀ e ∈ w.1.textures.entries, e.2 ≠ none) :
    (w.step c).fault = none ∧
    (w.step c).state.2 = w.2.add c.body ∧
    (∀ e ∈ (w.step c).state.1.geometries.entries, e.2 ≠ none) ∧
    (∀ e ∈ (w.step c).state.1.textures.entries, e.2 ≠ none) ∧
    (∀ p, c.mesh? = some p → (w.step c).state.1.lights = w.1.lights ∧
      ∃ g, g.path = p.2 ∧ (w.step c).state.1.geometries = w.1.geometries.insert p.1 (some g)) ∧
    (∀ p, c.light? = some p → (w.step c).state.1.geometries = w.1.geometries ∧
      (w.step c).state.1.lights = w.1.lights.insert p.1 p.2) := by
  cases c with
  | object id meshPath texPath pose geometry kinematic =>
    obtain ⟨h1, h2, h3, h4, g, hg, h5⟩ :=
      RenderingSystem.AddShadedMesh_maps w.1 id meshPath texPath hgeo htex
    have heq : w.step (SceneCall.object id meshPath texPath pose geometry kinematic) =
        { state := ((w.1.AddShadedMesh id meshPath texPath).state,
                    w.2.AddRigidBody id pose geometry kinematic)
          fault := none } := by
      simp only [step, h1]
    rw [heq]
    refine ⟨rfl, rfl, h2, h3, ?_, ?_⟩
    · intro p hp
      simp only [SceneCall.mesh?, Option.some.injEq] at hp
      subst hp
      exact ⟨h4, g, hg, h5⟩
    · intro p hp
      simp [SceneCall.light?] at hp
  | light id color pose kinematic =>
    refine ⟨rfl, rfl, hgeo, htex, ?_, ?_⟩
    · intro p hp
      simp [SceneCall.mesh?] at hp
    · intro p hp
      simp only [SceneCall.light?, Option.some.injEq] at hp
      subst hp
      exact ⟨rfl, rfl⟩

end Systems

namespace Systems

theorem id_of_mesh (c : SceneCall) (p : String × String) (h : c.mesh? = some p) :
    c.id = p.1 := by
  cases c with
  | object id meshPath texPath pose geometry kinematic =>
    simp only [SceneCall.mesh?, Option.some.injEq] at h
    subst h
    rfl
  | light id color pose kinematic => simp [SceneCall.mesh?] at h

theorem id_of_light (c : SceneCall) (p : String × Float3) (h : c.light? = some p) :
    c.id = p.1 := by
  cases c with
  | object id meshPath texPath pose geometry kinematic => simp [SceneCall.light?] at h
  | light id color pose kinematic =>
    simp only [SceneCall.light?, Option.some.injEq] at h
    subst h
    rfl

theorem mesh_or_light (c : SceneCall) :
    (∃ p, c.mesh? = some p) ∨ (∃ p, c.light? = some p) := by
  cases c with
  | object id meshPath texPath pose geometry kinematic => exact Or.inl ⟨_, rfl⟩
  | light id color pose kinematic => exact Or.inr ⟨_, rfl⟩

/-- What one scene step does to the lookups in the mesh map and the light map. -/
theorem step_finds (w : Systems) (c : SceneCall)
    (hgeo : ∀ e ∈ w.1.geometries.entries, e.2 ≠ none)
    (htex : ∀ e ∈ w.1.textures.entries, e.2 ≠ none) :
    (∀ k v, w.1.geometries.find k = some v → (w.step c).state.1.geometries.find k = some v) ∧
    (∀ k v, w.1.lights.find k = some v → (w.step c).state.1.lights.find k = some v) ∧
    (∀ k, k ≠ c.id → (w.step c).state.1.geometries.find k = w.1.geometries.find k ∧
      (w.step c).state.1.lights.find k = w.1.lights.find k) ∧
    (∀ p, c.mesh? = some p → w.1.geometries.find p.1 = none →
      ∃ g, (w.step c).state.1.geometries.find p.1 = some (some g) ∧ g.path = p.2) ∧
    (∀ p, c.light? = some p → w.1.lights.find p.1 = none →
      (w.step c).state.1.lights.find p.1 = some p.2) ∧
    (∀ k, (w.step c).state.1.geometries.find k ≠ none →
      w.1.geometries.find k ≠ none ∨ ∃ p, c.mesh? = some p ∧ k = p.1) ∧
    (∀ k, (w.step c).state.1.lights.find k ≠ none →
      w.1.lights.find k ≠ none ∨ ∃ p, c.light? = some p ∧ k = p.1) := by
  obtain ⟨_, _, _, _, hm, hl⟩ := step_spec w c hgeo htex
  rcases mesh_or_light c with ⟨p, hp⟩ | ⟨p, hp⟩
  · obtain ⟨hlights, g, hg, hgeoeq⟩ := hm p hp
    have hid := id_of_mesh c p hp
    refine ⟨?_, ?_, ?_, ?_, ?_, ?_, ?_⟩
    · intro k v h
      rw [hgeoeq]
      exact StdMap.find_insert_of_find _ _ _ _ _ h
    · intro k v h
      rw [hlights]
      exact h
    · intro k hk
      rw [hgeoeq, hlights, StdMap.find_insert_ne _ _ _ _ (by rw [← hid]; exact hk)]
      exact ⟨rfl, rfl⟩
    · intro q hq hfresh
      rw [hp] at hq
      cases hq
      exact ⟨g, by rw [hgeoeq]; exact StdMap.find_insert_absent _ _ _ hfresh, hg⟩
    · intro q hq
      have hno : c.light? = none := by
        cases c with
        | object id meshPath texPath pose geometry kinematic => rfl
        | light id color pose kinematic => simp [SceneCall.mesh?] at hp
      rw [hno] at hq
      cases hq
    · intro k h
      rw [hgeoeq] at h
      rcases StdMap.find_of_insert_ne_none _ _ _ _ h with h1 | h1
      · exact Or.inl h1
      · exact Or.inr ⟨p, hp, h1⟩
    · intro k h
      rw [hlights] at h
      exact Or.inl h
  · obtain ⟨hgeoeq, hlights⟩ := hl p hp
    have hid := id_of_light c p hp
    refine ⟨?_, ?_, ?_, ?_, ?_, ?_, ?_⟩
    · intro k v h
      rw [hgeoeq]
      exact h
    · intro k v h
      rw [hlights]
      exact StdMap.find_insert_of_find _ _ _ _ _ h
    · intro k hk
      rw [hgeoeq, hlights, StdMap.find_insert_ne _ _ _ _ (by rw [← hid]; exact hk)]
      exact ⟨rfl, rfl⟩
    · intro q hq
      have hno : c.mesh? = none := by
        cases c with
        | object id meshPath texPath pose geometry kinematic => simp [SceneCall.light?] at hp
        | light id color pose kinematic => rfl
      rw [hno] at hq
      cases hq
    · intro q hq hfresh
      rw [hp] at hq
      cases hq
      rw [hlights]
      exact StdMap.find_insert_absent _ _ _ hfresh
    · intro k h
      rw [hgeoeq] at h
      exact Or.inl h
    · intro k h
      rw [hlights] at h
      rcases StdMap.find_of_insert_ne_none _ _ _ _ h with h1 | h1
      · exact Or.inl h1
      · exact Or.inr ⟨p, hp, h1⟩

/-- A run of scene steps with pairwise distinct ids that are not yet keys of the mesh map or the
light map: no fault; the physics system has seen exactly the `AddRigidBody` calls of the steps;
every `AddShadedMesh` step has its mesh, of the requested path, under its id and every
`AddLight` step its colour; and the maps have no further new keys. -/
theorem run_spec (cs : List SceneCall) (w : Systems)
    (hgeo : ∀ e ∈ w.1.geometries.entries, e.2 ≠ none)
    (htex : ∀ e ∈ w.1.textures.entries, e.2 ≠ none)
    (hnodup : (cs.map SceneCall.id).Nodup)
    (hfresh : ∀ c ∈ cs, w.1.geometries.find c.id = none ∧ w.1.lights.find c.id = none) :
    (w.run cs).fault = none ∧
    (w.run cs).state.2 = w.2.addAll (cs.map SceneCall.body) ∧
    (∀ k v, w.1.geometries.find k = some v → (w.run cs).state.1.geometries.find k = some v) ∧
    (∀ k v, w.1.lights.find k = some v → (w.run cs).state.1.lights.find k = some v) ∧
    (∀ c ∈ cs, ∀ p, c.mesh? = some p →
      ∃ g, (w.run cs).state.1.geometries.find p.1 = some (some g) ∧ g.path = p.2) ∧
    (∀ c ∈ cs, ∀ p, c.light? = some p → (w.run cs).state.1.lights.find p.1 = some p.2) ∧
    (∀ k, (w.run cs).state.1.geometries.find k ≠ none →
      w.1.geometries.find k ≠ none ∨ k ∈ (cs.filterMap SceneCall.mesh?).map Prod.fst) ∧
    (∀ k, (w.run cs).state.1.lights.find k ≠ none →
      w.1.lights.find k ≠ none ∨ k ∈ (cs.filterMap SceneCall.light?).map Prod.fst) := by
  induction cs generalizing w with
  | nil =>
    refine ⟨rfl, rfl, fun _ _ h => h, fun _ _ h => h, ?_, ?_, fun _ h => Or.inl h,
      fun _ h => Or.inl h⟩
    · intro c hc
      cases hc
    · intro c hc
      cases hc
  | cons c cs ih =>
    rw [List.map_cons, List.nodup_cons] at hnodup
    obtain ⟨sf, sp, sgeo, stex, _, _⟩ := step_spec w c hgeo htex
    obtain ⟨fa, fb, fc, fd, fe, ff, fg⟩ := step_finds w c hgeo htex
    have hfresh1 : ∀ d ∈ cs, (w.step c).state.1.geometries.find d.id = none ∧
        (w.step c).state.1.lights.find d.id = none := by
      intro d hd
      have hne : d.id ≠ c.id := by
        intro e
        apply hnodup.1
        rw [← e]
        exact List.mem_map_of_mem SceneCall.id hd
      obtain ⟨h1, h2⟩ := fc d.id hne
      obtain ⟨h3, h4⟩ := hfresh d (List.mem_cons_of_mem _ hd)
      exact ⟨by rw [h1]; exact h3, by rw [h2]; exact h4⟩
    obtain ⟨i1, i2, i3, i4, i5, i6, i7, i8⟩ := ih (w.step c).state sgeo stex hnodup.2 hfresh1
    obtain ⟨hc1, hc2⟩ := hfresh c (List.mem_cons_self _ _)
    rw [run_cons w c cs sf]
    refine ⟨i1, ?_, ?_, ?_, ?_, ?_, ?_, ?_⟩
    · rw [i2, sp]
      rfl
    · intro k v h
      exact i3 k v (fa k v h)
    · intro k v h
      exact i4 k v (fb k v h)
    · intro d hd p hp
      rcases List.mem_cons.mp hd with h | h
      · subst h
        have hk : w.1.geometries.find p.1 = none := by
          rw [← id_of_mesh d p hp]
          exact hc1
        obtain ⟨g, hg1, hg2⟩ := fd p hp hk
        exact ⟨g, i3 _ _ hg1, hg2⟩
      · exact i5 d h p hp
    · intro d hd p hp
      rcases List.mem_cons.mp hd with h | h
      · subst h
        have hk : w.1.lights.find p.1 = none := by
          rw [← id_of_light d p hp]
          exact hc2
        exact i4 _ _ (fe p hp hk)
      · exact i6 d h p hp
    · intro k h
      rcases i7 k h with h1 | h1
      · rcases ff k h1 with h2 | ⟨p, hp, hk⟩
        · exact Or.inl h2
        · right
          simp only [List.filterMap_cons, hp, List.map_cons, List.mem_cons]
          exact Or.inl hk
      · right
        cases hm : c.mesh? with
        | none =>
          simp only [List.filterMap_cons, hm]
          exact h1
        | some q =>
          simp only [List.filterMap_cons, hm, List.map_cons, List.mem_cons]
          exact Or.inr h1
    · intro k h
      rcases i8 k h with h1 | h1
      · rcases fg k h1 with h2 | ⟨p, hp, hk⟩
        · exact Or.inl h2
        · right
          simp only [List.filterMap_cons, hp, List.map_cons, List.mem_cons]
          exact Or.inl hk
      · right
        cases hm : c.light? with
        | none =>
          simp only [List.filterMap_cons, hm]
          exact h1
        | some q =>
          simp only [List.filterMap_cons, hm, List.map_cons, List.mem_cons]
          exact Or.inr h1

end Systems

namespace RenderingSystem

theorem uploadLoop_no_fault (l : List (String × Option GG.Tex2D)) (cl : List Command)
    (h : ∀ e ∈ l, e.2 ≠ none) : (uploadLoop l cl).2 = none := by
  induction l generalizing cl with
  | nil => rfl
  | cons e rest ih =>
    obtain ⟨k, o⟩ := e
    cases o with
    | none => exact absurd rfl (h (k, none) (List.mem_cons_self _ _))
    | some t =>
      simp only [uploadLoop]
      exact ih _ (fun e he => h e (List.mem_cons_of_mem _ he))

end RenderingSystem

namespace Systems

theorem run_noNull (cs : List SceneCall) (w : Systems)
    (hgeo : ∀ e ∈ w.1.geometries.entries, e.2 ≠ none)
    (htex : ∀ e ∈ w.1.textures.entries, e.2 ≠ none) :
    (∀ e ∈ (w.run cs).state.1.geometries.entries, e.2 ≠ none) ∧
    (∀ e ∈ (w.run cs).state.1.textures.entries, e.2 ≠ none) := by
  induction cs generalizing w with
  | nil => exact ⟨hgeo, htex⟩
  | cons c cs ih =>
    obtain ⟨sf, _, sgeo, stex, _, _⟩ := step_spec w c hgeo htex
    rw [run_cons w c cs sf]
    exact ih _ sgeo stex

theorem body_id (c : SceneCall) : c.body.id = c.id := by
  cases c <;> rfl

theorem body_ids (cs : List SceneCall) :
    (cs.map SceneCall.body).map AddCall.id = cs.map SceneCall.id := by
  rw [List.map_map]
  exact List.map_congr_left (fun c _ => body_id c)

/-- The ids of the scene steps of `LoadAssets`, in program order. -/
theorem sceneCalls_ids :
    sceneCalls.map SceneCall.id =
      ["sphere", "sphere2"] ++ ["plane"] ++ cubeIndices.map cubeId ++
        ["light1", "light2", "light3", "light4"] := by
  have h : (cubeIndices.map cubeCall).map SceneCall.id = cubeIndices.map cubeId := by
    rw [List.map_map]
    rfl
  simp only [sceneCalls, List.map_append, h]
  rfl

theorem cube_meshes (l : List (Int × Int × Int)) :
    ((l.map cubeCall).filterMap SceneCall.mesh?).map Prod.fst = l.map cubeId := by
  induction l with
  | nil => rfl
  | cons c cs ih =>
    simp only [List.map_cons, cubeCall, SceneCall.mesh?, List.filterMap_cons]
    rw [← ih]

theorem cube_lights (l : List (Int × Int × Int)) :
    (l.map cubeCall).filterMap SceneCall.light? = [] := by
  induction l with
  | nil => rfl
  | cons c cs ih =>
    simp only [List.map_cons, cubeCall, SceneCall.light?, List.filterMap_cons]
    exact ih

theorem sceneCalls_meshIds :
    (sceneCalls.filterMap SceneCall.mesh?).map Prod.fst =
      ["sphere", "sphere2"] ++ ["plane"] ++ cubeIndices.map cubeId := by
  simp only [sceneCalls, List.filterMap_append, List.map_append, cube_meshes]
  rfl

theorem sceneCalls_lightIds :
    (sceneCalls.filterMap SceneCall.light?).map Prod.fst =
      ["light1", "light2", "light3", "light4"] := by
  simp only [sceneCalls, List.filterMap_append, List.map_append, cube_lights]
  rfl

theorem sceneCalls_nodup : (sceneCalls.map SceneCall.id).Nodup := by
  apply nodup_of_codes
  decide!

theorem length_cubeIndices : cubeIndices.length = 128 := by
  decide!

theorem length_sceneCalls : sceneCalls.length = 135 := by
  simp only [sceneCalls, List.length_append, List.length_map, length_cubeIndices]
  rfl

/-- Steps with pairwise distinct ids run on the systems as `StartUp` leaves them: no fault, the
texture upload meets no null entry, the physics system has seen exactly the `AddRigidBody` calls
of the steps, every step has its body with the actor it created, its mesh or its colour, and
the maps have no other keys. -/
theorem run_fresh_facts (cs : List SceneCall) (hnodup : (cs.map SceneCall.id).Nodup) :
    (run (RenderingSystem.fresh, PxSystem.fresh) cs).fault = none ∧
    ((run (RenderingSystem.fresh, PxSystem.fresh) cs).state.1.UploadTextures []).fault = none ∧
    (run (RenderingSystem.fresh, PxSystem.fresh) cs).state.2
      = PxSystem.fresh.addAll (cs.map SceneCall.body) ∧
    (∀ c ∈ cs,
      (∃ rb, (run (RenderingSystem.fresh, PxSystem.fresh) cs).state.2.rigidBodies.find c.id
          = some (some rb) ∧
        (run (RenderingSystem.fresh, PxSystem.fresh) cs).state.2.gScene.actors.get? rb.actor
          = some c.body.actor) ∧
      (∀ p, c.mesh? = some p → ∃ g,
        (run (RenderingSystem.fresh, PxSystem.fresh) cs).state.1.geometries.find p.1
          = some (some g) ∧ g.path = p.2) ∧
      (∀ p, c.light? = some p →
        (run (RenderingSystem.fresh, PxSystem.fresh) cs).state.1.lights.find p.1 = some p.2)) ∧
    (∀ k, (run (RenderingSystem.fresh, PxSystem.fresh) cs).state.1.geometries.find k ≠ none
      → k ∈ (cs.filterMap SceneCall.mesh?).map Prod.fst) ∧
    (∀ k, (run (RenderingSystem.fresh, PxSystem.fresh) cs).state.1.lights.find k ≠ none
      → k ∈ (cs.filterMap SceneCall.light?).map Prod.fst) ∧
    (∀ k, (run (RenderingSystem.fresh, PxSystem.fresh) cs).state.2.rigidBodies.find k ≠ none
      → k ∈ cs.map SceneCall.id) := by
  have hempty : ∀ e ∈ ([] : List (String × Option GG.Geometry)), e.2 ≠ none := by
    intro e he
    cases he
  have hempty2 : ∀ e ∈ ([] : List (String × Option GG.Tex2D)), e.2 ≠ none := by
    intro e he
    cases he
  obtain ⟨r1, r2, _, _, r5, r6, r7, r8⟩ := run_spec cs
    (RenderingSystem.fresh, PxSystem.fresh) hempty hempty2 hnodup (fun _ _ => ⟨rfl, rfl⟩)
  obtain ⟨_, n2⟩ := run_noNull cs (RenderingSystem.fresh, PxSystem.fresh) hempty hempty2
  have hbodies : ((cs.map SceneCall.body).map AddCall.id).Nodup := by
    rw [body_ids]
    exact hnodup
  refine ⟨r1, RenderingSystem.uploadLoop_no_fault _ _ n2, r2, ?_, ?_, ?_, ?_⟩
  · intro c hc
    refine ⟨?_, r5 c hc, r6 c hc⟩
    have h := PxSystem.actor_of_call (cs.map SceneCall.body) hbodies c.body
      (List.mem_map_of_mem SceneCall.body hc)
    rw [body_id] at h
    rw [r2]
    exact h
  · intro k hk
    rcases r7 k hk with h | h
    · exact absurd rfl h
    · exact h
  · intro k hk
    rcases r8 k hk with h | h
    · exact absurd rfl h
    · exact h
  · intro k hk
    rw [r2] at hk
    rcases PxSystem.find_addAll_ne_none _ _ _ hk with h | h
    · exact absurd rfl h
    · rw [body_ids] at h
      exact h

end Systems

namespace RenderingSystem

theorem hundred_lights_distinct : ((manyLights 100).map Prod.fst).Nodup := by
  apply nodup_of_codes
  decide!

theorem hundred_lights_stored :
    (fresh.addLights (manyLights 100)).lights.entries.length = 100 := by
  rw [length_addLights (manyLights 100) fresh hundred_lights_distinct (fun _ _ => rfl)]
  simp [manyLights]
  rfl

end RenderingSystem

/-- C7 (the code at the failing input): with the 100 lights `light0` ... `light99` added, each
with a rigid body of the same id, `Update` runs without fault and sets `nrLights` to 100, which
exceeds the 64 entries of the light array; no light is dropped: entry `n` is written from the
`n`-th light in ascending id order for every `n` below 100, so entries 64 to 99 are written past
`lights[63]`. -/
theorem C7_hundred_lights_not_capped :
    ((RenderingSystem.fresh.addLights (manyLights 100)).Update Collaborators.idle
      (PxSystem.fresh.addAll (lightBodies (manyLights 100))) (1 / 60)).fault = none ∧
    ((RenderingSystem.fresh.addLights (manyLights 100)).Update Collaborators.idle
      (PxSystem.fresh.addAll (lightBodies (manyLights 100))) (1 / 60)).state.1.perFrameCb.nrLights
      = 100 ∧
    ¬ ((100 : Int) ≤ (lightCapacity : Int)) ∧
    (∀ (n : Nat) (e : String × Float3),
      (RenderingSystem.fresh.addLights (manyLights 100)).lights.entries.get? n = some e →
      ∃ rb, (PxSystem.fresh.addAll (lightBodies (manyLights 100))).rigidBodies.find e.1
          = some (some rb) ∧
        ((RenderingSystem.fresh.addLights (manyLights 100)).Update Collaborators.idle
          (PxSystem.fresh.addAll (lightBodies (manyLights 100)))
          (1 / 60)).state.1.perFrameCb.lights (n : Int)
          = some { position := ⟨rb.GetPosition, 1⟩, color := ⟨e.2, 1⟩ }) ∧
    (∀ n : Nat, 64 ≤ n → n < 100 →
      (((RenderingSystem.fresh.addLights (manyLights 100)).Update Collaborators.idle
        (PxSystem.fresh.addAll (lightBodies (manyLights 100)))
        (1 / 60)).state.1.perFrameCb.lights (n : Int)).isSome) := by
  obtain ⟨h1, h2, h3⟩ := RenderingSystem.Update_lights Collaborators.idle
    (RenderingSystem.fresh.addLights (manyLights 100))
    (PxSystem.fresh.addAll (lightBodies (manyLights 100))) (1 / 60)
    (RenderingSystem.lights_have_bodies (manyLights 100))
  refine ⟨h1, ?_, by decide, h3, ?_⟩
  · rw [h2, RenderingSystem.hundred_lights_stored]
    rfl
  · intro n _ hn
    have hlt : n < (RenderingSystem.fresh.addLights (manyLights 100)).lights.entries.length := by
      rw [RenderingSystem.hundred_lights_stored]
      exact hn
    obtain ⟨rb, _, hw⟩ := h3 n _ (List.get?_eq_get hlt)
    rw [hw]
    rfl

/-! ## `MyApp.LoadAssets`: the demo scene -/

namespace Systems

theorem populateScene_eq (w : Systems) : populateScene w = w.run sceneCalls := rfl

theorem hasBody_of_actor (w : Systems) (id : String) (rb : GG.RigidBody) (c : AddCall)
    (shape : PxGeometry → Bool) (h1 : w.2.rigidBodies.find id = some (some rb))
    (h2 : w.2.gScene.actors.get? rb.actor = some c.actor) (hs : shape c.geometry = true) :
    w.HasBody id shape c.kinematic := by
  refine ⟨c.actor, c.geometry, ?_, rfl, rfl, hs⟩
  unfold actorOf
  rw [h1]
  exact h2

theorem body_of_hasBody (w : Systems) (id : String) (shape : PxGeometry → Bool)
    (kinematic : Bool) (h : w.HasBody id shape kinematic) :
    w.2.rigidBodies.find id ≠ none := by
  obtain ⟨a, g, ha, _⟩ := h
  intro hnone
  unfold actorOf at ha
  rw [hnone] at ha
  cases ha

/-- In a demo scene every listed id has a rigid body, so there are at most as many listed ids as
ids `bodies` that can have one. -/
theorem isDemoScene_length_le (w : Systems) (boxes : Nat) (bodies : List String)
    (hb : ∀ k, w.2.rigidBodies.find k ≠ none → k ∈ bodies) (h : w.IsDemoScene boxes) :
    2 + 1 + boxes + 4 ≤ bodies.length := by
  obtain ⟨spheres, planes, cubes, lights, l1, l2, l3, l4, hnodup, hs, hp, hc, hl, _, _, _⟩ := h
  have hsub : spheres ++ planes ++ cubes ++ lights ⊆ bodies := by
    intro k hk
    apply hb
    simp only [List.mem_append] at hk
    rcases hk with ((hk | hk) | hk) | hk
    · exact body_of_hasBody w k _ _ (hs k hk).2
    · exact body_of_hasBody w k _ _ (hp k hk).2
    · exact body_of_hasBody w k _ _ (hc k hk).2
    · obtain ⟨rb, hrb⟩ := (hl k hk).2
      rw [hrb]
      simp
  have hle := (hnodup.subperm hsub).length_le
  simp only [List.length_append, l1, l2, l3, l4] at hle
  exact hle

/-- The scene that `populateScene` builds on the systems as `StartUp` leaves them is the demo
scene with 128 boxes. -/
theorem isDemoScene_populateScene :
    IsDemoScene (populateScene (RenderingSystem.fresh, PxSystem.fresh)).state 128 := by
  obtain ⟨_, _, _, hcalls, hgeo, hlights, hbodies⟩ := run_fresh_facts sceneCalls sceneCalls_nodup
  rw [sceneCalls_meshIds] at hgeo
  rw [sceneCalls_lightIds] at hlights
  rw [sceneCalls_ids] at hbodies
  have hnodup := sceneCalls_nodup
  rw [sceneCalls_ids] at hnodup
  rw [populateScene_eq]
  have hobject : ∀ (id meshPath texPath : String) (pose : PxTransform) (geometry : PxGeometry)
      (kinematic : Bool) (shape : PxGeometry → Bool),
      SceneCall.object id meshPath texPath pose geometry kinematic ∈ sceneCalls →
      shape geometry = true →
      HasMesh (run (RenderingSystem.fresh, PxSystem.fresh) sceneCalls).state id ∧
      HasBody (run (RenderingSystem.fresh, PxSystem.fresh) sceneCalls).state id shape
        kinematic := by
    intro id meshPath texPath pose geometry kinematic shape hmem hshape
    obtain ⟨⟨rb, h1, h2⟩, hm, _⟩ := hcalls _ hmem
    obtain ⟨g, hg, _⟩ := hm (id, meshPath) rfl
    exact ⟨⟨g, hg⟩, hasBody_of_actor _ id rb
      (SceneCall.object id meshPath texPath pose geometry kinematic).body shape h1 h2 hshape⟩
  have hlight : ∀ (id : String) (color : Float3) (pose : PxTransform) (kinematic : Bool),
      SceneCall.light id color pose kinematic ∈ sceneCalls →
      HasLight (run (RenderingSystem.fresh, PxSystem.fresh) sceneCalls).state id := by
    intro id color pose kinematic hmem
    obtain ⟨⟨rb, h1, _⟩, _, hl⟩ := hcalls _ hmem
    exact ⟨⟨color, hl (id, color) rfl⟩, ⟨rb, h1⟩⟩
  refine ⟨["sphere", "sphere2"], ["plane"], cubeIndices.map cubeId,
    ["light1", "light2", "light3", "light4"], rfl, rfl, ?_, rfl, hnodup, ?_, ?_, ?_, ?_,
    hgeo, hlights, hbodies⟩
  · rw [List.length_map, length_cubeIndices]
  · intro id hid
    simp only [List.mem_cons, List.mem_singleton, List.not_mem_nil, or_false] at hid
    rcases hid with h | h
    · subst h
      exact hobject "sphere" "sphere.fbx" "checkered.png" (PxTransform.ofPosition 0 15 0)
        (PxGeometry.sphere (5 / 2)) false isSphere (by simp [sceneCalls]) rfl
    · subst h
      exact hobject "sphere2" "sphere.fbx" "checkered.png" (PxTransform.ofPosition 5 25 0)
        (PxGeometry.sphere (5 / 2)) false isSphere (by simp [sceneCalls]) rfl
  · intro id hid
    simp only [List.mem_singleton] at hid
    subst hid
    exact hobject "plane" "plane.obj" "floor.png" (PxTransform.ofPosition 0 0 0)
      (PxGeometry.box ⟨20, 1, 20⟩) true isBox (by simp [sceneCalls]) rfl
  · intro id hid
    obtain ⟨t, ht, hid2⟩ := List.mem_map.mp hid
    subst hid2
    have hmem : cubeCall t ∈ sceneCalls := by
      unfold sceneCalls
      exact List.mem_append_left _ (List.mem_append_right _ (List.mem_map_of_mem cubeCall ht))
    exact hobject (cubeId t) "box.obj" "giraffe.jpg" (PxTransform.ofPosition t.1 t.2.2 t.2.1)
      (PxGeometry.box ⟨1, 1, 1⟩) false isBox hmem rfl
  · intro id hid
    simp only [List.mem_cons, List.mem_singleton, List.not_mem_nil, or_false] at hid
    rcases hid with h | h | h | h
    · subst h
      exact hlight "light1" ⟨20, 20, 20⟩ (PxTransform.ofPosition 10 10 10) false
        (by simp [sceneCalls])
    · subst h
      exact hlight "light2" ⟨20, 20, 0⟩ (PxTransform.ofPosition 10 10 (-10)) true
        (by simp [sceneCalls])
    · subst h
      exact hlight "light3" ⟨20, 0, 0⟩ (PxTransform.ofPosition (-10) 10 10) true
        (by simp [sceneCalls])
    · subst h
      exact hlight "light4" ⟨0, 0, 20⟩ (PxTransform.ofPosition (-10) 10 (-10)) true
        (by simp [sceneCalls])

theorem objectCount_populateScene :
    (populateScene (RenderingSystem.fresh, PxSystem.fresh)).state.2.objectCount = 135 := by
  obtain ⟨_, _, h, _⟩ := run_fresh_facts sceneCalls sceneCalls_nodup
  rw [populateScene_eq, h, PxSystem.objectCount_addAll_fresh _
    (by rw [List.length_map, length_sceneCalls]; norm_num), List.length_map, length_sceneCalls]

end Systems

namespace MyApp

theorem WaitForPreviousFrame_systems (app : MyApp) (early backBuffer : Nat) :
    (app.WaitForPreviousFrame early backBuffer).state.renderer = app.renderer ∧
    (app.WaitForPreviousFrame early backBuffer).state.physics = app.physics := by
  unfold WaitForPreviousFrame
  dsimp only
  split
  · split <;> exact ⟨rfl, rfl⟩
  · exact ⟨rfl, rfl⟩

theorem CreateResources_spec (early backBuffer : Nat) :
    (initial.CreateResources early backBuffer).fault = none ∧
    (initial.CreateResources early backBuffer).state.renderer = RenderingSystem.fresh ∧
    (initial.CreateResources early backBuffer).state.physics = PxSystem.fresh ∧
    (initial.CreateResources early backBuffer).state.fenceValue = 2 ∧
    (initial.CreateResources early backBuffer).state.SyncInv := by
  obtain ⟨h1, _, h3, _, _, h6⟩ := WaitForPreviousFrame_spec initial.createSync early backBuffer
    syncInv_createSync (by decide)
  have heq : initial.CreateResources early backBuffer =
      { state := { (initial.createSync.WaitForPreviousFrame early backBuffer).state with
                   renderer := RenderingSystem.fresh, physics := PxSystem.fresh }
        fault := none } := by
    simp only [CreateResources, h1]
  rw [heq]
  exact ⟨rfl, rfl, rfl, h3, ⟨h6.positive, h6.history, h6.behind, h6.pending⟩⟩

theorem submit_and_wait (app : MyApp) (r : RenderingSystem) (p : PxSystem)
    (cl : List Command) (early backBuffer : Nat) (hinv : app.SyncInv)
    (hmax : app.fenceValue + 1 < 2 ^ 64) :
    (({ app with renderer := r, physics := p, commandList := cl } :
      MyApp).ExecuteCommandLists.WaitForPreviousFrame early backBuffer).fault = none ∧
    (({ app with renderer := r, physics := p, commandList := cl } :
      MyApp).ExecuteCommandLists.WaitForPreviousFrame early backBuffer).state.renderer = r ∧
    (({ app with renderer := r, physics := p, commandList := cl } :
      MyApp).ExecuteCommandLists.WaitForPreviousFrame early backBuffer).state.physics = p := by
  have hinv1 : ({ app with renderer := r, physics := p, commandList := cl } :
      MyApp).ExecuteCommandLists.SyncInv :=
    syncInv_ExecuteCommandLists _ ⟨hinv.positive, hinv.history, hinv.behind, hinv.pending⟩
  obtain ⟨h1, _⟩ := WaitForPreviousFrame_spec _ early backBuffer hinv1 hmax
  obtain ⟨h2, h3⟩ := WaitForPreviousFrame_systems
    ({ app with renderer := r, physics := p, commandList := cl } : MyApp).ExecuteCommandLists
    early backBuffer
  exact ⟨h1, h2, h3⟩

theorem LoadAssets_eq (app : MyApp) (early backBuffer : Nat) (w : Outcome Systems)
    (hw : Systems.populateScene (app.renderer, app.physics) = w) (hf : w.fault = none)
    (hu : (w.state.1.UploadTextures []).fault = none) :
    app.LoadAssets early backBuffer =
      ({ app with renderer := w.state.1, physics := w.state.2
                  commandList := (w.state.1.UploadTextures []).state } :
        MyApp).ExecuteCommandLists.WaitForPreviousFrame early backBuffer := by
  subst hw
  simp only [LoadAssets, hf, hu]

/-- On an application whose systems are as `StartUp` left them, `LoadAssets` returns without fault
and leaves the systems in the state that `populateScene` builds. -/
theorem LoadAssets_spec (app : MyApp) (early backBuffer : Nat)
    (hr : app.renderer = RenderingSystem.fresh) (hp : app.physics = PxSystem.fresh)
    (hinv : app.SyncInv) (hmax : app.fenceValue + 1 < 2 ^ 64) :
    (app.LoadAssets early backBuffer).fault = none ∧
    (app.LoadAssets early backBuffer).state.renderer
      = (Systems.populateScene (RenderingSystem.fresh, PxSystem.fresh)).state.1 ∧
    (app.LoadAssets early backBuffer).state.physics
      = (Systems.populateScene (RenderingSystem.fresh, PxSystem.fresh)).state.2 := by
  obtain ⟨hf, hu, _⟩ := Systems.run_fresh_facts Systems.sceneCalls Systems.sceneCalls_nodup
  have hw : Systems.populateScene (app.renderer, app.physics)
      = Systems.run (RenderingSystem.fresh, PxSystem.fresh) Systems.sceneCalls := by
    rw [hr, hp, Systems.populateScene_eq]
  rw [LoadAssets_eq app early backBuffer _ hw hf hu, Systems.populateScene_eq]
  exact submit_and_wait app _ _ _ early backBuffer hinv hmax

theorem LoadAssets_after_CreateResources (e1 b1 e2 b2 : Nat) :
    ((initial.CreateResources e1 b1).state.LoadAssets e2 b2).fault = none ∧
    ((initial.CreateResources e1 b1).state.LoadAssets e2 b2).state.renderer
      = (Systems.populateScene (RenderingSystem.fresh, PxSystem.fresh)).state.1 ∧
    ((initial.CreateResources e1 b1).state.LoadAssets e2 b2).state.physics
      = (Systems.populateScene (RenderingSystem.fresh, PxSystem.fresh)).state.2 := by
  obtain ⟨_, hr, hp, hv, hinv⟩ := CreateResources_spec e1 b1
  exact LoadAssets_spec _ e2 b2 hr hp hinv (by rw [hv]; decide)

theorem systems_congr (P : Systems → Prop) (r : RenderingSystem) (p : PxSystem) (w : Systems)
    (hr : r = w.1) (hp : p = w.2) : P (r, p) ↔ P w := by
  subst hr
  subst hp
  rfl

theorem bodies_of_populateScene (k : String)
    (h : (Systems.populateScene (RenderingSystem.fresh, PxSystem.fresh)).state.2.rigidBodies.find k
      ≠ none) : k ∈ Systems.sceneCalls.map SceneCall.id := by
  rw [Systems.populateScene_eq] at h
  exact (Systems.run_fresh_facts Systems.sceneCalls Systems.sceneCalls_nodup).2.2.2.2.2.2 k h

end MyApp

/-- C10 (as stated, refuted): the scene `LoadAssets` builds after `CreateResources` is not the
demo scene with a grid of 3 x 8 x 8 = 192 boxes: that scene needs 199 pairwise distinct ids with
a rigid body, and only the 135 ids of the calls of `LoadAssets` have one. -/
theorem C10_grid_is_not_192_boxes :
    ¬ Systems.IsDemoScene
      (((MyApp.initial.CreateResources 0 0).state.LoadAssets 0 0).state.renderer,
        ((MyApp.initial.CreateResources 0 0).state.LoadAssets 0 0).state.physics) 192 := by
  obtain ⟨_, hr, hp⟩ := MyApp.LoadAssets_after_CreateResources 0 0 0 0
  rw [MyApp.systems_congr (fun w => Systems.IsDemoScene w 192) _ _ _ hr hp]
  intro h
  have hle := Systems.isDemoScene_length_le _ 192 (Systems.sceneCalls.map SceneCall.id)
    MyApp.bodies_of_populateScene h
  rw [List.length_map, Systems.length_sceneCalls] at hle
  omega

/-- C10 (amended): whatever the progress of the GPU, `LoadAssets` after `CreateResources` returns
without fault and has populated the scene with exactly two spheres, one kinematic box plane, the
8 x 8 x 2 grid of boxes that the loops `i, j = -18, -13, ..., 17` and `k = 5, 10` produce (128
boxes) and four lights: 135 ids, pairwise distinct, each with its own rigid body, from 135
`AddRigidBody` calls. -/
theorem C10_demo_scene_has_128_boxes (e1 b1 e2 b2 : Nat) :
    ((MyApp.initial.CreateResources e1 b1).state.LoadAssets e2 b2).fault = none ∧
    Systems.IsDemoScene
      (((MyApp.initial.CreateResources e1 b1).state.LoadAssets e2 b2).state.renderer,
        ((MyApp.initial.CreateResources e1 b1).state.LoadAssets e2 b2).state.physics) 128 ∧
    ((MyApp.initial.CreateResources e1 b1).state.LoadAssets e2 b2).state.physics.objectCount
      = 135 ∧
    (Systems.forValues 18 5 36 (-18)).length = 8 ∧
    (Systems.forValues 15 5 10 5).length = 2 ∧
    Systems.cubeIndices.length = 8 * 8 * 2 := by
  obtain ⟨h1, hr, hp⟩ := MyApp.LoadAssets_after_CreateResources e1 b1 e2 b2
  refine ⟨h1, ?_, ?_, by decide!, by decide!, by decide!⟩
  · rw [MyApp.systems_congr (fun w => Systems.IsDemoScene w 128) _ _ _ hr hp]
    exact Systems.isDemoScene_populateScene
  · rw [hp]
    exact Systems.objectCount_populateScene

/-! ## The lights of the demo scene under `RenderingSystem.Update` -/

namespace StdMap

variable {α : Type}

theorem findIn_ne_none_of_mem (l : List (String × α)) (k : String) (v : α)
    (h : (k, v) ∈ l) : findIn l k ≠ none := by
  induction l with
  | nil => cases h
  | cons e rest ih =>
    obtain ⟨k0, v0⟩ := e
    by_cases hk : k0 = k
    · simp [findIn, hk]
    · rcases List.mem_cons.mp h with h1 | h1
      · exact absurd (congrArg Prod.fst h1).symm hk
      · simp only [findIn, hk, if_false]
        exact ih h1

end StdMap

namespace RenderingSystem

/-- `Update` when every light has a body leaves the physics system, the light map and the mesh
map as they are. -/
theorem Update_keeps (ext : Collaborators) (r : RenderingSystem) (p : PxSystem) (dt : PxReal)
    (H : ∀ e ∈ r.lights.entries, ∃ rb, p.rigidBodies.find e.1 = some (some rb)) :
    (r.Update ext p dt).state.2 = p ∧
    (r.Update ext p dt).state.1.lights = r.lights ∧
    (r.Update ext p dt).state.1.geometries = r.geometries := by
  obtain ⟨h1, h2, _⟩ := writeLights_spec r.lights.entries p r.perFrameCb.lights 0 H
  unfold Update
  dsimp only
  rw [h2]
  dsimp only
  exact ⟨h1, rfl, rfl⟩

theorem addLights_lights_congr (ls : List (String × Float3)) (r1 r2 : RenderingSystem)
    (h : r1.lights = r2.lights) : (r1.addLights ls).lights = (r2.addLights ls).lights := by
  induction ls generalizing r1 r2 with
  | nil => exact h
  | cons c cs ih =>
    apply ih
    show r1.lights.insert c.1 c.2 = r2.lights.insert c.1 c.2
    rw [h]

end RenderingSystem

namespace Systems

theorem updates_cons (ext : Collaborators) (w : Systems) (dt : PxReal) (dts : List PxReal)
    (h : (w.1.Update ext w.2 dt).fault = none) :
    updates ext w (dt :: dts) = updates ext (w.1.Update ext w.2 dt).state dts := by
  simp only [updates, h]

/-- Any number of `Update` calls of the renderer, when every light has a body: no fault, the
physics system and the maps of the renderer stay as they are, and after at least one call
`nrLights` is the number of lights. -/
theorem updates_spec (ext : Collaborators) (dts : List PxReal) (w : Systems)
    (H : ∀ e ∈ w.1.lights.entries, ∃ rb, w.2.rigidBodies.find e.1 = some (some rb)) :
    (updates ext w dts).fault = none ∧
    (updates ext w dts).state.2 = w.2 ∧
    (updates ext w dts).state.1.lights = w.1.lights ∧
    (updates ext w dts).state.1.geometries = w.1.geometries ∧
    (dts ≠ [] →
      (updates ext w dts).state.1.perFrameCb.nrLights = (w.1.lights.entries.length : Int)) := by
  induction dts generalizing w with
  | nil => exact ⟨rfl, rfl, rfl, rfl, fun h => absurd rfl h⟩
  | cons dt dts ih =>
    obtain ⟨u1, u2, _⟩ := RenderingSystem.Update_lights ext w.1 w.2 dt H
    obtain ⟨k1, k2, k3⟩ := RenderingSystem.Update_keeps ext w.1 w.2 dt H
    have H1 : ∀ e ∈ (w.1.Update ext w.2 dt).state.1.lights.entries,
        ∃ rb, (w.1.Update ext w.2 dt).state.2.rigidBodies.find e.1 = some (some rb) := by
      rw [k1, k2]
      exact H
    obtain ⟨i1, i2, i3, i4, i5⟩ := ih (w.1.Update ext w.2 dt).state H1
    rw [updates_cons ext w dt dts u1]
    refine ⟨i1, ?_, ?_, ?_, ?_⟩
    · rw [i2, k1]
    · rw [i3, k2]
    · rw [i4, k3]
    · intro _
      cases dts with
      | nil => exact u2
      | cons d ds =>
        rw [i5 (List.cons_ne_nil d ds), k2]

theorem lights_run (cs : List SceneCall) (w : Systems)
    (hgeo : ∀ e ∈ w.1.geometries.entries, e.2 ≠ none)
    (htex : ∀ e ∈ w.1.textures.entries, e.2 ≠ none) :
    (w.run cs).state.1.lights = (w.1.addLights (cs.filterMap SceneCall.light?)).lights := by
  induction cs generalizing w with
  | nil => rfl
  | cons c cs ih =>
    obtain ⟨h1, _, h3, h4, h5, h6⟩ := step_spec w c hgeo htex
    rw [run_cons w c cs h1, ih _ h3 h4]
    cases c with
    | object id meshPath texPath pose geometry kinematic =>
      have hl : (SceneCall.object id meshPath texPath pose geometry kinematic).light? = none := rfl
      rw [List.filterMap_cons_none hl]
      exact RenderingSystem.addLights_lights_congr _ _ _ (h5 (id, meshPath) rfl).1
    | light id color pose kinematic =>
      have hl : (SceneCall.light id color pose kinematic).light? = some (id, color) := rfl
      rw [List.filterMap_cons_some hl]
      exact RenderingSystem.addLights_lights_congr _ _ _ (h6 (id, color) rfl).2

end Systems

namespace Systems

theorem light_ids_sublist (cs : List SceneCall) :
    ((cs.filterMap SceneCall.light?).map Prod.fst).Sublist (cs.map SceneCall.id) := by
  induction cs with
  | nil => exact List.Sublist.slnil
  | cons c cs ih =>
    cases c with
    | object id meshPath texPath pose geometry kinematic =>
      have hl : (SceneCall.object id meshPath texPath pose geometry kinematic).light? = none := rfl
      rw [List.filterMap_cons_none hl, List.map_cons]
      exact List.Sublist.cons _ ih
    | light id color pose kinematic =>
      have hl : (SceneCall.light id color pose kinematic).light? = some (id, color) := rfl
      rw [List.filterMap_cons_some hl, List.map_cons, List.map_cons]
      exact List.Sublist.cons₂ _ ih

/-- The light map that steps with pairwise distinct ids build on fresh systems: one entry for
each light step, and every entry has a body of the same id. -/
theorem lights_of_run_fresh (cs : List SceneCall) (hnodup : (cs.map SceneCall.id).Nodup) :
    (run (RenderingSystem.fresh, PxSystem.fresh) cs).state.1.lights.entries.length
      = (cs.filterMap SceneCall.light?).length ∧
    ∀ e ∈ (run (RenderingSystem.fresh, PxSystem.fresh) cs).state.1.lights.entries,
      ∃ rb, (run (RenderingSystem.fresh, PxSystem.fresh) cs).state.2.rigidBodies.find e.1
        = some (some rb) := by
  obtain ⟨_, _, _, f4, _, f6, _⟩ := run_fresh_facts cs hnodup
  constructor
  · rw [lights_run cs (RenderingSystem.fresh, PxSystem.fresh) (by intro e he; cases he)
      (by intro e he; cases he),
      RenderingSystem.length_addLights _ RenderingSystem.fresh
        (List.Nodup.sublist (light_ids_sublist cs) hnodup) (fun _ _ => rfl)]
    exact Nat.zero_add _
  · intro e he
    have hfind : (run (RenderingSystem.fresh, PxSystem.fresh) cs).state.1.lights.find e.1 ≠ none :=
      StdMap.findIn_ne_none_of_mem _ e.1 e.2 he
    have hmem : e.1 ∈ cs.map SceneCall.id := (light_ids_sublist cs).subset (f6 e.1 hfind)
    obtain ⟨c, hc, hid⟩ := List.mem_map.mp hmem
    obtain ⟨⟨rb, hrb, _⟩, _⟩ := f4 c hc
    rw [hid] at hrb
    exact ⟨rb, hrb⟩

/-- The body of step number `n` (counted from 0) of steps with pairwise distinct ids on fresh
systems has `index = n`. -/
theorem body_of_step (cs : List SceneCall) (hnodup : (cs.map SceneCall.id).Nodup) (n : Nat)
    (c : SceneCall) (hc : cs.get? n = some c) (h31 : n < 2 ^ 31) :
    (run (RenderingSystem.fresh, PxSystem.fresh) cs).state.2.rigidBodies.find c.id =
      some (some { modelMatrix := Float4x4.unset, position := ⟨0, 0, 0⟩
                   index := (n : Int), actor := n }) := by
  obtain ⟨_, _, f3, _⟩ := run_fresh_facts cs hnodup
  obtain ⟨hn, hget⟩ := List.get?_eq_some.mp hc
  have hlen : n < (cs.map SceneCall.body).length := by
    rw [List.length_map]
    exact hn
  have h := PxSystem.find_addAll_nodup (cs.map SceneCall.body) PxSystem.fresh
    (by rw [body_ids]; exact hnodup) (fun _ _ => rfl) n hlen
  have hid : ((cs.map SceneCall.body).get ⟨n, hlen⟩).id = c.id := by
    rw [List.get_eq_getElem, List.getElem_map, body_id, ← hget, List.get_eq_getElem]
  rw [hid] at h
  rw [f3, h]
  have h0 : PxSystem.fresh.objectCount + n = n := Nat.zero_add n
  have h1 : PxSystem.fresh.gScene.actors.length + n = n := Nat.zero_add n
  rw [h0, h1, PxSystem.toInt32_of_lt n h31]

/-- A step that registers a mesh stands among the steps before the first light step. -/
theorem mesh_step_position (a b : List SceneCall) (hb : b.filterMap SceneCall.mesh? = [])
    (k : String) (hk : k ∈ ((a ++ b).filterMap SceneCall.mesh?).map Prod.fst) :
    ∃ n c, n < a.length ∧ (a ++ b).get? n = some c ∧ c.id = k := by
  rw [List.filterMap_append, hb, List.append_nil] at hk
  obtain ⟨p, hp, hpk⟩ := List.mem_map.mp hk
  obtain ⟨c, hc, hcp⟩ := List.mem_filterMap.mp hp
  obtain ⟨n, hn⟩ := List.get?_of_mem hc
  obtain ⟨hlt, _⟩ := List.get?_eq_some.mp hn
  refine ⟨n, c, hlt, ?_, ?_⟩
  · rw [List.get?_eq_getElem?, List.getElem?_append_left hlt, ← List.get?_eq_getElem?]
    exact hn
  · rw [id_of_mesh c p hcp]
    exact hpk

end Systems

namespace Systems

theorem sceneCalls_light_at (m n : Nat) (hm : m = 131 + n) :
    sceneCalls.get? m =
      [SceneCall.light "light1" ⟨20, 20, 20⟩ (PxTransform.ofPosition 10 10 10) false,
       SceneCall.light "light2" ⟨20, 20, 0⟩ (PxTransform.ofPosition 10 10 (-10)) true,
       SceneCall.light "light3" ⟨20, 0, 0⟩ (PxTransform.ofPosition (-10) 10 10) true,
       SceneCall.light "light4" ⟨0, 0, 20⟩ (PxTransform.ofPosition (-10) 10 (-10)) true].get? n := by
  subst hm
  unfold sceneCalls
  rw [List.get?_eq_getElem?, List.get?_eq_getElem?, List.getElem?_append_right]
  · simp only [List.length_append, List.length_map, length_cubeIndices, List.length_cons,
      List.length_nil]
    rw [show 131 + n - (0 + 1 + 1 + 1 + 128) = n by omega]
  · simp only [List.length_append, List.length_map, length_cubeIndices, List.length_cons,
      List.length_nil]
    omega

theorem sceneCalls_mesh_position (k : String)
    (hk : k ∈ (sceneCalls.filterMap SceneCall.mesh?).map Prod.fst) :
    ∃ n c, n < 131 ∧ sceneCalls.get? n = some c ∧ c.id = k := by
  obtain ⟨n, c, hn, hc, hid⟩ := mesh_step_position
    ([SceneCall.object "sphere" "sphere.fbx" "checkered.png" (PxTransform.ofPosition 0 15 0)
        (PxGeometry.sphere (5 / 2)) false,
      SceneCall.object "sphere2" "sphere.fbx" "checkered.png" (PxTransform.ofPosition 5 25 0)
        (PxGeometry.sphere (5 / 2)) false,
      SceneCall.object "plane" "plane.obj" "floor.png" (PxTransform.ofPosition 0 0 0)
        (PxGeometry.box ⟨20, 1, 20⟩) true] ++ cubeIndices.map cubeCall)
    [SceneCall.light "light1" ⟨20, 20, 20⟩ (PxTransform.ofPosition 10 10 10) false,
     SceneCall.light "light2" ⟨20, 20, 0⟩ (PxTransform.ofPosition 10 10 (-10)) true,
     SceneCall.light "light3" ⟨20, 0, 0⟩ (PxTransform.ofPosition (-10) 10 10) true,
     SceneCall.light "light4" ⟨0, 0, 20⟩ (PxTransform.ofPosition (-10) 10 (-10)) true]
    rfl k hk
  refine ⟨n, c, ?_, hc, hid⟩
  simp only [List.length_append, List.length_map, length_cubeIndices, List.length_cons,
    List.length_nil] at hn
  omega

theorem sceneCalls_lights_length : (sceneCalls.filterMap SceneCall.light?).length = 4 := by
  have h := congrArg List.length sceneCalls_lightIds
  rw [List.length_map] at h
  exact h

end Systems

namespace Systems

/-- The demo scene under any number of `Update` calls of the renderer: no fault, four lights
counted after at least one call, the light bodies at `index` 131 to 134 and the bodies of the ids
with a mesh at an `index` below 131. -/
theorem updates_demo (ext : Collaborators) (w : Systems)
    (hw : (run (RenderingSystem.fresh, PxSystem.fresh) sceneCalls).state = w)
    (dt : PxReal) (dts : List PxReal) :
    (updates ext w dts).fault = none ∧
    (updates ext w (dt :: dts)).state.1.perFrameCb.nrLights = 4 ∧
    (updates ext w dts).state.LightIndicesDistinct ∧
    (updates ext w dts).state.2.indexOf "light1" = some 131 ∧
    (updates ext w dts).state.2.indexOf "light2" = some 132 ∧
    (updates ext w dts).state.2.indexOf "light3" = some 133 ∧
    (updates ext w dts).state.2.indexOf "light4" = some 134 ∧
    (∀ (id : String) (g : GG.Geometry) (rb : GG.RigidBody),
      (updates ext w dts).state.1.geometries.find id = some (some g) →
      (updates ext w dts).state.2.rigidBodies.find id = some (some rb) →
      0 ≤ rb.index ∧ rb.index < 131) := by
  obtain ⟨_, _, _, _, f5, _⟩ := run_fresh_facts sceneCalls sceneCalls_nodup
  obtain ⟨hlen, hbodies⟩ := lights_of_run_fresh sceneCalls sceneCalls_nodup
  have hstep := body_of_step sceneCalls sceneCalls_nodup
  rw [hw] at f5 hlen hbodies hstep
  obtain ⟨u1, u2, _, u4, _⟩ := updates_spec ext dts w hbodies
  obtain ⟨_, _, _, _, v5⟩ := updates_spec ext (dt :: dts) w hbodies
  have b1 := hstep 131 _ (sceneCalls_light_at 131 0 rfl) (by norm_num)
  have b2 := hstep 132 _ (sceneCalls_light_at 132 1 rfl) (by norm_num)
  have b3 := hstep 133 _ (sceneCalls_light_at 133 2 rfl) (by norm_num)
  have b4 := hstep 134 _ (sceneCalls_light_at 134 3 rfl) (by norm_num)
  have hmesh : ∀ (id : String) (g : GG.Geometry) (rb : GG.RigidBody),
      (updates ext w dts).state.1.geometries.find id = some (some g) →
      (updates ext w dts).state.2.rigidBodies.find id = some (some rb) →
      0 ≤ rb.index ∧ rb.index < 131 := by
    intro id g rb hg hb
    rw [u4] at hg
    rw [u2] at hb
    have hne : w.1.geometries.find id ≠ none := by
      rw [hg]
      exact Option.some_ne_none _
    obtain ⟨n, c, hn, hc, hid⟩ := sceneCalls_mesh_position id (f5 id hne)
    have hbody := hstep n c hc (by omega)
    rw [hid, hb] at hbody
    have hrb := Option.some.inj (Option.some.inj hbody)
    rw [hrb]
    constructor
    · exact Int.natCast_nonneg n
    · show (n : Int) < 131
      omega
  refine ⟨u1, ?_, ?_, ?_, ?_, ?_, ?_, hmesh⟩
  · rw [v5 (List.cons_ne_nil dt dts), hlen, sceneCalls_lights_length]
    rfl
  · refine ⟨⟨Float4x4.unset, ⟨0, 0, 0⟩, 131, 131⟩, ⟨Float4x4.unset, ⟨0, 0, 0⟩, 132, 132⟩,
      ⟨Float4x4.unset, ⟨0, 0, 0⟩, 133, 133⟩, ⟨Float4x4.unset, ⟨0, 0, 0⟩, 134, 134⟩,
      ?_, ?_, ?_, ?_, ?_, ?_⟩
    · rw [u2]
      exact b1
    · rw [u2]
      exact b2
    · rw [u2]
      exact b3
    · rw [u2]
      exact b4
    · decide
    · intro id g rb hg hb
      obtain ⟨_, hlt⟩ := hmesh id g rb hg hb
      simp only [List.mem_cons, List.mem_singleton, List.not_mem_nil, or_false, not_or]
      refine ⟨?_, ?_, ?_, ?_⟩ <;> omega
  · rw [u2]
    exact (PxSystem.indexOf_eq_some _ _ _).mpr ⟨_, b1, rfl⟩
  · rw [u2]
    exact (PxSystem.indexOf_eq_some _ _ _).mpr ⟨_, b2, rfl⟩
  · rw [u2]
    exact (PxSystem.indexOf_eq_some _ _ _).mpr ⟨_, b3, rfl⟩
  · rw [u2]
    exact (PxSystem.indexOf_eq_some _ _ _).mpr ⟨_, b4, rfl⟩

end Systems

/-- C11: after `CreateResources` (which starts the two fresh systems up) and `LoadAssets`,
followed by any number of `Update` calls of the renderer, with whatever time steps, camera
animation and GPU progress: no call ends in a fault; once `Update` has run (one call or more),
`perFrameCb.nrLights = 4`; each of `light1` ... `light4` has a rigid body, at `index` 131, 132,
133 and 134, so the four `index` values are pairwise distinct; and the body of every id that has
a mesh has an `index` from 0 to 130, so no light shares its `index` with a mesh body. -/
theorem C11_four_lights_with_distinct_indices (ext : Collaborators) (e1 b1 e2 b2 : Nat)
    (dt : PxReal) (dts : List PxReal) :
    (Systems.updates ext
      (((MyApp.initial.CreateResources e1 b1).state.LoadAssets e2 b2).state.renderer,
        ((MyApp.initial.CreateResources e1 b1).state.LoadAssets e2 b2).state.physics)
      dts).fault = none ∧
    (Systems.updates ext
      (((MyApp.initial.CreateResources e1 b1).state.LoadAssets e2 b2).state.renderer,
        ((MyApp.initial.CreateResources e1 b1).state.LoadAssets e2 b2).state.physics)
      (dt :: dts)).state.1.perFrameCb.nrLights = 4 ∧
    (Systems.updates ext
      (((MyApp.initial.CreateResources e1 b1).state.LoadAssets e2 b2).state.renderer,
        ((MyApp.initial.CreateResources e1 b1).state.LoadAssets e2 b2).state.physics)
      dts).state.LightIndicesDistinct ∧
    (Systems.updates ext
      (((MyApp.initial.CreateResources e1 b1).state.LoadAssets e2 b2).state.renderer,
        ((MyApp.initial.CreateResources e1 b1).state.LoadAssets e2 b2).state.physics)
      dts).state.2.indexOf "light1" = some 131 ∧
    (Systems.updates ext
      (((MyApp.initial.CreateResources e1 b1).state.LoadAssets e2 b2).state.renderer,
        ((MyApp.initial.CreateResources e1 b1).state.LoadAssets e2 b2).state.physics)
      dts).state.2.indexOf "light2" = some 132 ∧
    (Systems.updates ext
      (((MyApp.initial.CreateResources e1 b1).state.LoadAssets e2 b2).state.renderer,
        ((MyApp.initial.CreateResources e1 b1).state.LoadAssets e2 b2).state.physics)
      dts).state.2.indexOf "light3" = some 133 ∧
    (Systems.updates ext
      (((MyApp.initial.CreateResources e1 b1).state.LoadAssets e2 b2).state.renderer,
        ((MyApp.initial.CreateResources e1 b1).state.LoadAssets e2 b2).state.physics)
      dts).state.2.indexOf "light4" = some 134 ∧
    (∀ (id : String) (g : GG.Geometry) (rb : GG.RigidBody),
      (Systems.updates ext
        (((MyApp.initial.CreateResources e1 b1).state.LoadAssets e2 b2).state.renderer,
          ((MyApp.initial.CreateResources e1 b1).state.LoadAssets e2 b2).state.physics)
        dts).state.1.geometries.find id = some (some g) →
      (Systems.updates ext
        (((MyApp.initial.CreateResources e1 b1).state.LoadAssets e2 b2).state.renderer,
          ((MyApp.initial.CreateResources e1 b1).state.LoadAssets e2 b2).state.physics)
        dts).state.2.rigidBodies.find id = some (some rb) →
      0 ≤ rb.index ∧ rb.index < 131) := by
  obtain ⟨_, hr, hp⟩ := MyApp.LoadAssets_after_CreateResources e1 b1 e2 b2
  rw [Systems.populateScene_eq] at hr hp
  exact Systems.updates_demo ext _ (Prod.ext hr.symm hp.symm) dt dts

/-! ## `PxSystem.Update`: one call, at most one step -/

namespace PxSystem

theorem refresh_cons_some (gScene : PxScene) (dt : PxReal) (id : String) (rb : GG.RigidBody)
    (rest : List (String × Option GG.RigidBody)) (data : Int → Option GG.PerObjectCb) :
    refresh gScene dt ((id, some rb) :: rest) data =
      ((id, some (rb.Update gScene dt)) ::
          (refresh gScene dt rest
            (Function.update data rb.index (some (recordOf gScene dt rb)))).1,
        (refresh gScene dt rest
          (Function.update data rb.index (some (recordOf gScene dt rb)))).2.1,
        (refresh gScene dt rest
          (Function.update data rb.index (some (recordOf gScene dt rb)))).2.2) := rfl

/-- The loop of `Update` leaves alone every record that is not record `index` of a body. -/
theorem refresh_untouched (gScene : PxScene) (dt : PxReal)
    (l : List (String × Option GG.RigidBody)) (data : Int → Option GG.PerObjectCb) (i : Int)
    (h : ∀ id rb, (id, some rb) ∈ l → rb.index ≠ i) :
    (refresh gScene dt l data).2.1 i = data i := by
  induction l generalizing data with
  | nil => rfl
  | cons e rest ih =>
    obtain ⟨k, o⟩ := e
    cases o with
    | none => rfl
    | some b =>
      rw [refresh_cons_some]
      show (refresh gScene dt rest _).2.1 i = data i
      rw [ih _ (fun id rb hm => h id rb (List.mem_cons_of_mem _ hm))]
      exact Function.update_noteq (fun hi => h k b (List.mem_cons_self _ _) hi.symm) _ _

/-- The loop of `Update` over a map without null entries writes record `index` of every body: after
the loop the record holds the matrices of a body with that `index` (the last one in key order). -/
theorem refresh_records (gScene : PxScene) (dt : PxReal)
    (l : List (String × Option GG.RigidBody)) (data : Int → Option GG.PerObjectCb)
    (hnn : ∀ e ∈ l, e.2 ≠ none) (id : String) (rb : GG.RigidBody) (h : (id, some rb) ∈ l) :
    ∃ id2 rb2, (id2, some rb2) ∈ l ∧ rb2.index = rb.index ∧
      (refresh gScene dt l data).2.1 rb.index = some (recordOf gScene dt rb2) := by
  induction l generalizing data id rb with
  | nil => cases h
  | cons e rest ih =>
    obtain ⟨k, o⟩ := e
    cases o with
    | none => exact absurd rfl (hnn (k, none) (List.mem_cons_self _ _))
    | some b =>
      rw [refresh_cons_some]
      have hrest : ∀ e ∈ rest, e.2 ≠ none := fun e he => hnn e (List.mem_cons_of_mem _ he)
      by_cases hlater : ∃ id1 rb1, (id1, some rb1) ∈ rest ∧ rb1.index = rb.index
      · obtain ⟨id1, rb1, hm1, hi1⟩ := hlater
        obtain ⟨id2, rb2, hm2, hi2, hw⟩ := ih
          (Function.update data b.index (some (recordOf gScene dt b))) hrest id1 rb1 hm1
        refine ⟨id2, rb2, List.mem_cons_of_mem _ hm2, hi2.trans hi1, ?_⟩
        rw [← hi1]
        exact hw
      · have hhead : (id, some rb) = (k, some b) := by
          rcases List.mem_cons.mp h with h1 | h1
          · exact h1
          · exact absurd ⟨id, rb, h1, rfl⟩ hlater
        have hb : rb = b := Option.some.inj (congrArg Prod.snd hhead)
        refine ⟨k, b, List.mem_cons_self _ _, by rw [hb], ?_⟩
        show (refresh gScene dt rest _).2.1 rb.index = _
        rw [refresh_untouched gScene dt rest _ rb.index
          (fun id1 rb1 hm hi => hlater ⟨id1, rb1, hm, hi⟩), hb]
        exact Function.update_same _ _ _

/-- The loop of `Update` over a map without null entries refreshes every body in place. -/
theorem refresh_entries (gScene : PxScene) (dt : PxReal)
    (l : List (String × Option GG.RigidBody)) (data : Int → Option GG.PerObjectCb)
    (hnn : ∀ e ∈ l, e.2 ≠ none) :
    (refresh gScene dt l data).1 =
      l.map (fun e => (e.1, e.2.map (fun rb => rb.Update gScene dt))) := by
  induction l generalizing data with
  | nil => rfl
  | cons e rest ih =>
    obtain ⟨k, o⟩ := e
    cases o with
    | none => exact absurd rfl (hnn (k, none) (List.mem_cons_self _ _))
    | some b =>
      rw [refresh_cons_some, List.map_cons]
      show (k, some (b.Update gScene dt)) :: (refresh gScene dt rest _).1 = _
      rw [ih _ (fun e he => hnn e (List.mem_cons_of_mem _ he))]
      rfl

end PxSystem

namespace PxSystem

theorem UpdateFloat_due (ext : Collaborators) (s : PxSystem) (dt : PxReal)
    (h : Float32.fl32 (s.mAccumulator + dt) > s.mStepSize) :
    s.UpdateFloat ext dt =
      { state :=
          { s with
            mAccumulator := Float32.fl32 (Float32.fl32 (s.mAccumulator + dt) - s.mStepSize)
            gScene := s.gScene.simulate ext s.mStepSize
            rigidBodies :=
              ⟨(refresh (s.gScene.simulate ext s.mStepSize) dt s.rigidBodies.entries
                s.perObjectCb).1⟩
            perObjectCb :=
              (refresh (s.gScene.simulate ext s.mStepSize) dt s.rigidBodies.entries
                s.perObjectCb).2.1 }
        fault :=
          (refresh (s.gScene.simulate ext s.mStepSize) dt s.rigidBodies.entries
            s.perObjectCb).2.2 } := by
  unfold UpdateFloat
  dsimp only
  rw [if_pos h]

theorem UpdateFloat_not_due (ext : Collaborators) (s : PxSystem) (dt : PxReal)
    (h : ¬ Float32.fl32 (s.mAccumulator + dt) > s.mStepSize) :
    s.UpdateFloat ext dt =
      { state := { s with mAccumulator := Float32.fl32 (s.mAccumulator + dt) }
        fault := none } := by
  unfold UpdateFloat
  dsimp only
  rw [if_neg h]

theorem stepsOfFloat_eq (ext : Collaborators) (s : PxSystem) (dt : PxReal) :
    s.stepsOfFloat ext dt =
      if Float32.fl32 (s.mAccumulator + dt) > s.mStepSize then 1 else 0 := by
  unfold stepsOfFloat
  by_cases h : Float32.fl32 (s.mAccumulator + dt) > s.mStepSize
  · rw [if_pos h, UpdateFloat_due ext s dt h]
    show s.gScene.timestamp + 1 - s.gScene.timestamp = 1
    omega
  · rw [if_neg h, UpdateFloat_not_due ext s dt h]
    show s.gScene.timestamp - s.gScene.timestamp = 0
    omega

end PxSystem

/-- C12 (as stated, refuted): the step size the code holds is the float32 value of
`1.0f / 60.0f`, which is 8947849 / 2^29 and exceeds 1/60.  On a system just started up
(accumulator 0), `Update(dt)` with `dt` this float32 value has `A + dt > 1/60` and performs no
step: the accumulator becomes 8947849 / 2^29, which is not above the step size.  With `dt = 1/32`
the call performs its one step and leaves the accumulator at 7829367 / 2^29, the float32
difference, not at `A + dt - 1/60`.  And after `AddRigidBody("x", P)` and `GetRigidBody("a")`,
which leaves a null entry under `a`, the stepping call stops at that entry before it reaches `x`:
record 0, the `index` of the body `x`, is not written. -/
theorem C12_no_step_at_float_step_size :
    Float32.fl32 (1 / 60) = 8947849 / 2 ^ 29 ∧
    Float32.IsFloat32 (8947849 / 2 ^ 29) ∧
    PxSystem.freshFloat.mAccumulator + 8947849 / 2 ^ 29 > 1 / 60 ∧
    PxSystem.freshFloat.stepsOfFloat Collaborators.idle (8947849 / 2 ^ 29) = 0 ∧
    (PxSystem.freshFloat.UpdateFloat Collaborators.idle (8947849 / 2 ^ 29)).state.mAccumulator
      = 8947849 / 2 ^ 29 ∧
    PxSystem.freshFloat.stepsOfFloat Collaborators.idle (1 / 32) = 1 ∧
    (PxSystem.freshFloat.UpdateFloat Collaborators.idle (1 / 32)).state.mAccumulator
      = 7829367 / 2 ^ 29 ∧
    PxSystem.freshFloat.mAccumulator + 1 / 32 - 1 / 60 ≠ 7829367 / 2 ^ 29 ∧
    ((PxSystem.freshFloat.add { id := "x", pose := PxTransform.ofPosition 1 2 3 }).GetRigidBody
      "a").1.indexOf "x" = some 0 ∧
    (((PxSystem.freshFloat.add { id := "x", pose := PxTransform.ofPosition 1 2 3 }).GetRigidBody
      "a").1.UpdateFloat Collaborators.idle (1 / 32)).fault = some Fault.nullHandle ∧
    (((PxSystem.freshFloat.add { id := "x", pose := PxTransform.ofPosition 1 2 3 }).GetRigidBody
      "a").1.UpdateFloat Collaborators.idle (1 / 32)).state.perObjectCb 0 = none := by
  refine ⟨by decide!, ⟨by decide!, by decide!, by decide!⟩, by decide!, by decide!, by decide!,
    by decide!, by decide!, by decide!, by decide!, by decide!, by decide!⟩

/-- C12 (amended): one call `Update(dt)` in float32 arithmetic, on a system whose step size is
the float32 value of `1.0f / 60.0f` (8947849 / 2^29), for a finite float32 accumulator `A` and a
finite float32 `dt` whose float32 sum `S = fl32 (A + dt)` is finite, performs at most one
simulation step.  If `S` exceeds the step size it performs exactly one step (of the step size),
sets the accumulator to `fl32 (S - step)` and changes no record other than the records `index`
of the bodies; when no entry of the body map is null it ends without fault, refreshes every body
in place and writes for every body record `index`, which then holds the matrices of a body with
that `index` (of this body when no other body has its `index`).  If `S` does not exceed the step
size it performs no step, sets the accumulator to `S` and leaves the scene, the bodies and every
per-object record unchanged.  Records are numbered by `index` as the code addresses them, whether
or not the number lies within `data[1024]`. -/
theorem C12_update_float_at_most_one_step (ext : Collaborators) (s : PxSystem) (dt : PxReal)
    (hs : s.mStepSize = Float32.fl32 (1 / 60))
    (_hA : Float32.IsFloat32 s.mAccumulator) (_hdt : Float32.IsFloat32 dt)
    (_hsum : Float32.IsFloat32 (Float32.fl32 (s.mAccumulator + dt))) :
    s.stepsOfFloat ext dt ≤ 1 ∧
    (Float32.fl32 (s.mAccumulator + dt) > Float32.fl32 (1 / 60) →
      s.stepsOfFloat ext dt = 1 ∧
      (s.UpdateFloat ext dt).state.gScene = s.gScene.simulate ext (Float32.fl32 (1 / 60)) ∧
      (s.UpdateFloat ext dt).state.mAccumulator
        = Float32.fl32 (Float32.fl32 (s.mAccumulator + dt) - Float32.fl32 (1 / 60)) ∧
      (∀ i : Int, (∀ id rb, (id, some rb) ∈ s.rigidBodies.entries → rb.index ≠ i) →
        (s.UpdateFloat ext dt).state.perObjectCb i = s.perObjectCb i) ∧
      ((∀ e ∈ s.rigidBodies.entries, e.2 ≠ none) →
        (s.UpdateFloat ext dt).fault = none ∧
        (s.UpdateFloat ext dt).state.rigidBodies.entries =
          s.rigidBodies.entries.map
            (fun e => (e.1, e.2.map
              (fun rb => rb.Update (s.gScene.simulate ext (Float32.fl32 (1 / 60))) dt))) ∧
        ∀ id rb, (id, some rb) ∈ s.rigidBodies.entries →
          (∃ id2 rb2, (id2, some rb2) ∈ s.rigidBodies.entries ∧ rb2.index = rb.index ∧
            (s.UpdateFloat ext dt).state.perObjectCb rb.index
              = some (PxSystem.recordOf (s.gScene.simulate ext (Float32.fl32 (1 / 60))) dt
                  rb2)) ∧
          ((∀ id2 rb2, (id2, some rb2) ∈ s.rigidBodies.entries → rb2.index = rb.index →
              rb2 = rb) →
            (s.UpdateFloat ext dt).state.perObjectCb rb.index
              = some (PxSystem.recordOf (s.gScene.simulate ext (Float32.fl32 (1 / 60))) dt
                  rb)))) ∧
    (Float32.fl32 (s.mAccumulator + dt) ≤ Float32.fl32 (1 / 60) →
      s.stepsOfFloat ext dt = 0 ∧
      (s.UpdateFloat ext dt).fault = none ∧
      (s.UpdateFloat ext dt).state.mAccumulator = Float32.fl32 (s.mAccumulator + dt) ∧
      (s.UpdateFloat ext dt).state.gScene = s.gScene ∧
      (s.UpdateFloat ext dt).state.rigidBodies = s.rigidBodies ∧
      (s.UpdateFloat ext dt).state.perObjectCb = s.perObjectCb) := by
  rw [← hs]
  refine ⟨?_, ?_, ?_⟩
  · rw [PxSystem.stepsOfFloat_eq]
    split
    · exact Nat.le_refl 1
    · exact Nat.zero_le 1
  · intro h
    rw [PxSystem.stepsOfFloat_eq, if_pos h, PxSystem.UpdateFloat_due ext s dt h]
    refine ⟨rfl, rfl, rfl, ?_, ?_⟩
    · intro i hi
      exact PxSystem.refresh_untouched _ dt _ _ i hi
    · intro hnn
      refine ⟨PxSystem.refresh_no_fault _ dt _ _ hnn, PxSystem.refresh_entries _ dt _ _ hnn, ?_⟩
      intro id rb hm
      obtain ⟨id2, rb2, hm2, hi2, hw⟩ := PxSystem.refresh_records
        (s.gScene.simulate ext s.mStepSize) dt s.rigidBodies.entries s.perObjectCb hnn id rb hm
      refine ⟨⟨id2, rb2, hm2, hi2, hw⟩, ?_⟩
      intro huniq
      rw [huniq id2 rb2 hm2 hi2] at hw
      exact hw
  · intro h
    have hnot : ¬ Float32.fl32 (s.mAccumulator + dt) > s.mStepSize := not_lt.mpr h
    rw [PxSystem.stepsOfFloat_eq, if_neg hnot, PxSystem.UpdateFloat_not_due ext s dt hnot]
    exact ⟨rfl, rfl, rfl, rfl, rfl, rfl⟩

/-- C12 (amended) at a concrete input: a system holding the single body `x`, accumulator 0,
called with `dt = 1/32`: the float32 sum 1/32 exceeds the step size, so one step, the
accumulator becomes `fl32 (fl32 (0 + 1/32) - fl32 (1/60))`, no fault, and record 0 (the `index`
of `x`) holds the matrices of `x`. -/
theorem C12_update_float_at_most_one_step_witness :
    (PxSystem.freshFloat.add { id := "x", pose := PxTransform.ofPosition 1 2 3 }).stepsOfFloat
      Collaborators.idle (1 / 32) = 1 ∧
    ((PxSystem.freshFloat.add { id := "x", pose := PxTransform.ofPosition 1 2 3 }).UpdateFloat
      Collaborators.idle (1 / 32)).state.mAccumulator
      = Float32.fl32 (Float32.fl32
          ((PxSystem.freshFloat.add
            { id := "x", pose := PxTransform.ofPosition 1 2 3 }).mAccumulator + 1 / 32)
          - Float32.fl32 (1 / 60)) ∧
    ((PxSystem.freshFloat.add { id := "x", pose := PxTransform.ofPosition 1 2 3 }).UpdateFloat
      Collaborators.idle (1 / 32)).fault = none ∧
    ((PxSystem.freshFloat.add { id := "x", pose := PxTransform.ofPosition 1 2 3 }).UpdateFloat
      Collaborators.idle (1 / 32)).state.perObjectCb 0
      = some { modelTransform := Float4x4.rotationTranslation ⟨0, 0, 0, 1⟩ ⟨1, 2, 3⟩
               modelTransformInverse :=
                 Float4x4.invert (Float4x4.rotationTranslation ⟨0, 0, 0, 1⟩ ⟨1, 2, 3⟩) } :=
  have h := (C12_update_float_at_most_one_step Collaborators.idle
    (PxSystem.freshFloat.add { id := "x", pose := PxTransform.ofPosition 1 2 3 }) (1 / 32) rfl
    ⟨by decide!, by decide!, by decide!⟩ ⟨by decide!, by decide!, by decide!⟩
    ⟨by decide!, by decide!, by decide!⟩).2.1 (by decide!)
  have hnn : ∀ e ∈ (PxSystem.freshFloat.add
      { id := "x", pose := PxTransform.ofPosition 1 2 3 }).rigidBodies.entries, e.2 ≠ none :=
    PxSystem.noNull_add PxSystem.freshFloat _ (by intro e he; cases he)
  ⟨h.1, h.2.2.1, (h.2.2.2.2 hnn).1,
    ((h.2.2.2.2 hnn).2.2 "x" ⟨Float4x4.unset, ⟨0, 0, 0⟩, 0, 0⟩ (List.mem_cons_self _ _)).2
      (fun _ _ hm _ => (Option.some.inj (congrArg Prod.snd (List.mem_singleton.mp hm))))⟩

/-! ## `RenderingSystem.AddShadedMesh` and `Draw`: the keys of the mesh map and the texture map -/

namespace StdMap

variable {α : Type}

theorem findIn_isSome_iff (l : List (String × α)) (k : String) :
    (findIn l k).isSome ↔ k ∈ l.map Prod.fst := by
  induction l with
  | nil => simp [findIn]
  | cons e rest ih =>
    obtain ⟨k0, v0⟩ := e
    by_cases hk : k0 = k
    · simp [findIn, hk]
    · have hne : ¬ k = k0 := fun h => hk h.symm
      simp only [findIn, hk, if_false, List.map_cons, List.mem_cons, hne, false_or]
      exact ih

theorem place_keys_congr {β : Type} (k : String) (v : α) (w : β) (l1 : List (String × α))
    (l2 : List (String × β)) (h : l1.map Prod.fst = l2.map Prod.fst) :
    (place k v l1).map Prod.fst = (place k w l2).map Prod.fst := by
  induction l1 generalizing l2 with
  | nil =>
    cases l2 with
    | nil => rfl
    | cons e2 r2 => cases h
  | cons e1 r1 ih =>
    cases l2 with
    | nil => cases h
    | cons e2 r2 =>
      obtain ⟨k1, v1⟩ := e1
      obtain ⟨k2, v2⟩ := e2
      rw [List.map_cons, List.map_cons, List.cons.injEq] at h
      obtain ⟨hk, hr⟩ := h
      have hk12 : k1 = k2 := hk
      subst hk12
      cases hlt : keyLt k k1 with
      | true =>
        rw [place_cons_lt k v k1 v1 r1 hlt, place_cons_lt k w k1 v2 r2 hlt]
        simp only [List.map_cons, hr]
      | false =>
        rw [place_cons_ge k v k1 v1 r1 hlt, place_cons_ge k w k1 v2 r2 hlt]
        simp only [List.map_cons, ih r2 hr]

/-- Maps with the same keys have the same keys after `insert` of the same key. -/
theorem keys_insert_congr {β : Type} (m1 : StdMap α) (m2 : StdMap β) (k : String) (v : α)
    (w : β) (h : m1.keys = m2.keys) : (m1.insert k v).keys = (m2.insert k w).keys := by
  have hiff : (m1.find k).isSome ↔ (m2.find k).isSome := by
    unfold find
    rw [findIn_isSome_iff, findIn_isSome_iff]
    exact Eq.to_iff (congrArg (fun l => k ∈ l) h)
  unfold insert
  by_cases h1 : (m1.find k).isSome
  · rw [if_pos h1, if_pos (hiff.mp h1)]
    exact h
  · rw [if_neg h1, if_neg (fun h2 => h1 (hiff.mpr h2))]
    exact place_keys_congr k v w m1.entries m2.entries h

theorem subscript_present (m : StdMap α) (k : String) (d v : α) (h : m.find k = some v) :
    m.subscript k d = (m, v) := by
  unfold subscript
  rw [h]

end StdMap

namespace RenderingSystem

theorem ingestTexture_textures (r : RenderingSystem) (id texPath : String)
    (htex : ∀ e ∈ r.textures.entries, e.2 ≠ none) :
    ∃ t, (r.ingestTexture id texPath).state.textures = r.textures.insert id (some t) := by
  obtain ⟨h2, _⟩ := scanPath_spec GG.Tex2D.path texPath r.textures.entries none htex
  cases h1 : (scanPath GG.Tex2D.path texPath r.textures.entries none).1 with
  | none =>
    rw [ingestTexture_new r id texPath h2 h1]
    exact ⟨_, rfl⟩
  | some x =>
    rw [ingestTexture_found r id texPath x h2 h1]
    exact ⟨_, rfl⟩

/-- One `AddShadedMesh` call on maps without null entries inserts the id into both maps. -/
theorem AddShadedMesh_inserts (r : RenderingSystem) (id meshPath texPath : String)
    (hgeo : ∀ e ∈ r.geometries.entries, e.2 ≠ none)
    (htex : ∀ e ∈ r.textures.entries, e.2 ≠ none) :
    ∃ g t,
      (r.AddShadedMesh id meshPath texPath).state.geometries = r.geometries.insert id (some g) ∧
      (r.AddShadedMesh id meshPath texPath).state.textures = r.textures.insert id (some t) := by
  obtain ⟨_, _, _, _, g, _, hg⟩ := AddShadedMesh_maps r id meshPath texPath hgeo htex
  obtain ⟨g1, created, heq, _, _⟩ := ingestMesh_cases r id meshPath hgeo
  have hf : (r.ingestMesh id meshPath).fault = none := by rw [heq]
  obtain ⟨t, ht⟩ := ingestTexture_textures
    { r with geometries := r.geometries.insert id (some g1), created := created } id texPath htex
  refine ⟨g, t, hg, ?_⟩
  rw [AddShadedMesh_eq r id meshPath texPath hf, heq]
  exact ht

/-- The invariant of the two asset maps under `AddShadedMesh` calls, repeated ids included: no
fault, no null entry, the same keys in both maps, and the light map untouched. -/
theorem addMeshes_keys (calls : List (String × String × String)) (r : RenderingSystem)
    (hgeo : ∀ e ∈ r.geometries.entries, e.2 ≠ none)
    (htex : ∀ e ∈ r.textures.entries, e.2 ≠ none)
    (hkeys : r.geometries.keys = r.textures.keys) :
    (r.addMeshes calls).fault = none ∧
    (∀ e ∈ (r.addMeshes calls).state.geometries.entries, e.2 ≠ none) ∧
    (∀ e ∈ (r.addMeshes calls).state.textures.entries, e.2 ≠ none) ∧
    (r.addMeshes calls).state.geometries.keys = (r.addMeshes calls).state.textures.keys ∧
    (r.addMeshes calls).state.lights = r.lights := by
  induction calls generalizing r with
  | nil => exact ⟨rfl, hgeo, htex, hkeys, rfl⟩
  | cons c cs ih =>
    obtain ⟨m1, m2, m3, m4, _⟩ := AddShadedMesh_maps r c.1 c.2.1 c.2.2 hgeo htex
    obtain ⟨g, t, hg, ht⟩ := AddShadedMesh_inserts r c.1 c.2.1 c.2.2 hgeo htex
    have hk : (r.AddShadedMesh c.1 c.2.1 c.2.2).state.geometries.keys
        = (r.AddShadedMesh c.1 c.2.1 c.2.2).state.textures.keys := by
      rw [hg, ht]
      exact StdMap.keys_insert_congr _ _ _ _ _ hkeys
    have hstep : r.addMeshes (c :: cs) = (r.AddShadedMesh c.1 c.2.1 c.2.2).state.addMeshes cs := by
      simp only [addMeshes, m1]
    obtain ⟨i1, i2, i3, i4, i5⟩ := ih _ m2 m3 hk
    rw [hstep]
    exact ⟨i1, i2, i3, i4, i5.trans m4⟩

end RenderingSystem

namespace PxSystem

theorem BindConstantBuffer_present (s : PxSystem) (cl : List Command) (id : String)
    (rb : GG.RigidBody) (h : s.rigidBodies.find id = some (some rb)) :
    s.BindConstantBuffer cl id =
      { state := (s, cl ++
          [Command.setGraphicsRootConstantBufferView 1 (GpuAddress.perObject rb.index)])
        fault := none } := by
  unfold BindConstantBuffer
  rw [StdMap.subscript_present _ _ _ _ h]

end PxSystem

namespace RenderingSystem

/-- The lit pass over mesh ids that all have a texture leaves the texture map as it is, whatever
the physics system does. -/
theorem drawMeshes_textures (l : List (String × Option GG.Geometry))
    (textures : StdMap (Option GG.Tex2D)) (p : PxSystem) (cl : List Command)
    (H : ∀ e ∈ l, ∃ tex, textures.find e.1 = some (some tex)) :
    (drawMeshes l textures p cl).1 = textures := by
  induction l generalizing p cl with
  | nil => rfl
  | cons e rest ih =>
    obtain ⟨id, geometry⟩ := e
    obtain ⟨tex, ht⟩ := H (id, geometry) (List.mem_cons_self _ _)
    have hsub := StdMap.subscript_present textures id none (some tex) ht
    cases hb : (p.BindConstantBuffer cl id).fault with
    | some f => simp only [drawMeshes, hb]
    | none =>
      cases geometry with
      | none => simp only [drawMeshes, hb, hsub]
      | some geo =>
        simp only [drawMeshes, hb, hsub]
        exact ih _ _ (fun e he => H e (List.mem_cons_of_mem _ he))

/-- The lit pass when every mesh id has a mesh, a texture and a body: no fault, and the physics
system is left as it is. -/
theorem drawMeshes_no_fault (l : List (String × Option GG.Geometry))
    (textures : StdMap (Option GG.Tex2D)) (p : PxSystem) (cl : List Command)
    (hgeo : ∀ e ∈ l, e.2 ≠ none)
    (H : ∀ e ∈ l, ∃ tex, textures.find e.1 = some (some tex))
    (hp : ∀ e ∈ l, ∃ rb, p.rigidBodies.find e.1 = some (some rb)) :
    (drawMeshes l textures p cl).2.2.2 = none ∧ (drawMeshes l textures p cl).2.1 = p := by
  induction l generalizing cl with
  | nil => exact ⟨rfl, rfl⟩
  | cons e rest ih =>
    obtain ⟨id, geometry⟩ := e
    obtain ⟨tex, ht⟩ := H (id, geometry) (List.mem_cons_self _ _)
    obtain ⟨rb, hrb⟩ := hp (id, geometry) (List.mem_cons_self _ _)
    have hsub := StdMap.subscript_present textures id none (some tex) ht
    have hb := PxSystem.BindConstantBuffer_present p cl id rb hrb
    cases geometry with
    | none => exact absurd rfl (hgeo (id, none) (List.mem_cons_self _ _))
    | some geo =>
      simp only [drawMeshes, hb, hsub]
      exact ih _ (fun e he => hgeo e (List.mem_cons_of_mem _ he))
        (fun e he => H e (List.mem_cons_of_mem _ he))
        (fun e he => hp e (List.mem_cons_of_mem _ he))

/-- Whatever the physics system, `Draw` on a renderer whose mesh ids all have a texture leaves
the texture map as it is. -/
theorem Draw_textures (r : RenderingSystem) (cl : List Command) (p : PxSystem)
    (H : ∀ e ∈ r.geometries.entries, ∃ tex, r.textures.find e.1 = some (some tex)) :
    (r.Draw cl p).state.1.textures = r.textures := by
  have h := drawMeshes_textures r.geometries.entries r.textures p
    (cl ++ [Command.bindHeap, Command.setGraphicsRootSignature "rootSig",
      Command.setPipeline "gpso",
      Command.setGraphicsRootConstantBufferView 0 GpuAddress.perFrame]) H
  unfold Draw
  dsimp only
  split <;> exact h

/-- A renderer without lights, whose mesh ids all have a mesh, a texture and a body: `Draw` ends
without fault. -/
theorem Draw_no_fault (r : RenderingSystem) (cl : List Command) (p : PxSystem)
    (hlights : r.lights.entries = [])
    (hgeo : ∀ e ∈ r.geometries.entries, e.2 ≠ none)
    (H : ∀ e ∈ r.geometries.entries, ∃ tex, r.textures.find e.1 = some (some tex))
    (hp : ∀ e ∈ r.geometries.entries, ∃ rb, p.rigidBodies.find e.1 = some (some rb)) :
    (r.Draw cl p).fault = none := by
  obtain ⟨h1, _⟩ := drawMeshes_no_fault r.geometries.entries r.textures p
    (cl ++ [Command.bindHeap, Command.setGraphicsRootSignature "rootSig",
      Command.setPipeline "gpso",
      Command.setGraphicsRootConstantBufferView 0 GpuAddress.perFrame]) hgeo H hp
  unfold Draw
  dsimp only
  rw [h1, hlights]
  rfl

/-- On maps without null entries and with the same keys, every mesh id has a texture. -/
theorem texture_of_mesh_id (r : RenderingSystem)
    (htex : ∀ e ∈ r.textures.entries, e.2 ≠ none)
    (hkeys : r.geometries.keys = r.textures.keys) (id : String) (hid : id ∈ r.geometries.keys) :
    ∃ tex, r.textures.find id = some (some tex) := by
  rw [hkeys] at hid
  have hsome : (r.textures.find id).isSome := (StdMap.findIn_isSome_iff _ _).mpr hid
  cases hf : r.textures.find id with
  | none =>
    rw [hf] at hsome
    cases hsome
  | some o =>
    cases o with
    | none => exact absurd rfl (htex _ (StdMap.findIn_mem _ _ _ hf))
    | some tex => exact ⟨tex, rfl⟩

end RenderingSystem

/-- C13: after any sequence of `AddShadedMesh` calls on a fresh renderer, calls that repeat an
id included, no call has ended in a fault, the mesh map and the texture map have the same keys
(the same ids in the same order), and every id of the mesh map has a texture that is not null.
So the lookup `textures[id]` that `Draw` makes for each id of the mesh map finds that texture:
whatever the command list and the physics system, `Draw` leaves the texture map as it is (no
entry is created), and when each of these ids has a rigid body, `Draw` ends without fault. -/
theorem C13_mesh_and_texture_keys_agree (calls : List (String × String × String)) :
    (RenderingSystem.fresh.addMeshes calls).fault = none ∧
    (RenderingSystem.fresh.addMeshes calls).state.geometries.keys
      = (RenderingSystem.fresh.addMeshes calls).state.textures.keys ∧
    (∀ id ∈ (RenderingSystem.fresh.addMeshes calls).state.geometries.keys,
      ∃ tex, (RenderingSystem.fresh.addMeshes calls).state.textures.find id = some (some tex)) ∧
    (∀ (cl : List Command) (p : PxSystem),
      ((RenderingSystem.fresh.addMeshes calls).state.Draw cl p).state.1.textures
        = (RenderingSystem.fresh.addMeshes calls).state.textures) ∧
    (∀ (cl : List Command) (p : PxSystem),
      (∀ id ∈ (RenderingSystem.fresh.addMeshes calls).state.geometries.keys,
        ∃ rb, p.rigidBodies.find id = some (some rb)) →
      ((RenderingSystem.fresh.addMeshes calls).state.Draw cl p).fault = none) := by
  obtain ⟨h1, h2, h3, h4, h5⟩ := RenderingSystem.addMeshes_keys calls RenderingSystem.fresh
    (by intro e he; cases he) (by intro e he; cases he) rfl
  have htexOf : ∀ e ∈ (RenderingSystem.fresh.addMeshes calls).state.geometries.entries,
      ∃ tex, (RenderingSystem.fresh.addMeshes calls).state.textures.find e.1
        = some (some tex) := fun e he =>
    RenderingSystem.texture_of_mesh_id _ h3 h4 e.1 (List.mem_map_of_mem Prod.fst he)
  refine ⟨h1, h4, RenderingSystem.texture_of_mesh_id _ h3 h4, ?_, ?_⟩
  · intro cl p
    exact RenderingSystem.Draw_textures _ cl p htexOf
  · intro cl p hp
    apply RenderingSystem.Draw_no_fault _ cl p _ h2 htexOf
    · intro e he
      exact hp e.1 (List.mem_map_of_mem Prod.fst he)
    · rw [h5]
      rfl

/-- C13 at a concrete input: `AddShadedMesh` for the ids `a`, `a` again and `b`, then `Draw` with
a physics system that holds a body for `a` and for `b`: the texture map is the one before the
call and `Draw` ends without fault. -/
theorem C13_mesh_and_texture_keys_agree_witness :
    ((RenderingSystem.fresh.addMeshes
        [("a", "m1", "t1"), ("a", "m2", "t2"), ("b", "m1", "t2")]).state.Draw []
      (PxSystem.fresh.addAll
        [{ id := "a", pose := PxTransform.ofPosition 0 0 0 },
         { id := "b", pose := PxTransform.ofPosition 0 0 0 }])).state.1.textures
      = (RenderingSystem.fresh.addMeshes
          [("a", "m1", "t1"), ("a", "m2", "t2"), ("b", "m1", "t2")]).state.textures ∧
    ((RenderingSystem.fresh.addMeshes
        [("a", "m1", "t1"), ("a", "m2", "t2"), ("b", "m1", "t2")]).state.Draw []
      (PxSystem.fresh.addAll
        [{ id := "a", pose := PxTransform.ofPosition 0 0 0 },
         { id := "b", pose := PxTransform.ofPosition 0 0 0 }])).fault = none :=
  have h := C13_mesh_and_texture_keys_agree
    [("a", "m1", "t1"), ("a", "m2", "t2"), ("b", "m1", "t2")]
  have hk : (RenderingSystem.fresh.addMeshes
      [("a", "m1", "t1"), ("a", "m2", "t2"), ("b", "m1", "t2")]).state.geometries.keys
      = ["a", "b"] := by decide
  ⟨h.2.2.2.1 [] _, h.2.2.2.2 [] _ (by
    intro id hid
    rw [hk] at hid
    rcases List.mem_cons.mp hid with h1 | h1
    · rw [h1]
      exact ⟨_, rfl⟩
    · rw [List.mem_singleton.mp h1]
      exact ⟨_, rfl⟩)⟩

end MyFirstLittleEngine
